import Mathlib

/-!
Shallow embedding of the `rust_wm` window-manager assignment (Rust) into Lean 4.

Sources embedded here:
* `src/assignment/src/wm_common.rs`   — error types, manager traits;
* `src/assignment/src/a_fullscreen_wm.rs` — `FullscreenWM`;
* `src/assignment/src/b_tiling_wm.rs` — `TileManager`, `VerticalLayout`, `TilingWM`;
* `src/assignment/src/c_floating_windows.rs` — `FloatManager`, `FloatOrTileManager`, `FloatWM`;
* `src/assignment/src/d_minimising_windows.rs` — `MinimiseAssistantManager`, `MinimiseManager`, `MinimiseWM`;
* `src/assignment/src/f_gaps.rs` — `GapLayout`.

Rust `VecDeque<Window>` is modelled as `List Window` (head = front), `HashMap`/`BTreeMap`
as association lists with overwrite-on-insert, fallible operations return their
`Result` together with the post-state (mutations that happen before an error are kept,
matching the non-transactional Rust code).
-/

namespace WM

/-- `Window` ids (`cplwm_api::types::Window`, an integer). -/
abbrev Window := Nat

/-- `cplwm_api::types::Geometry`: `x`,`y` signed, `width`,`height` unsigned. -/
structure Geometry where
  x : Int
  y : Int
  width : Nat
  height : Nat
deriving DecidableEq, Repr

instance : Inhabited Geometry := ⟨⟨0, 0, 0, 0⟩⟩

/-- `cplwm_api::types::Screen`. -/
structure Screen where
  width : Nat
  height : Nat
deriving DecidableEq, Repr

/-- Rust `x as i32` on a `u32` (or the low 32 bits of a `usize`): truncate to 32
bits and reinterpret the bit pattern in two's complement. This cast never panics in
any build mode. -/
def u32_as_i32 (n : Nat) : Int :=
  if n % 4294967296 < 2147483648 then ((n % 4294967296 : Nat) : Int)
  else ((n % 4294967296 : Nat) : Int) - 4294967296

/-- Wrap an integer into `i32` range: the result of Rust `i32` addition,
subtraction and multiplication in release mode (a debug build panics instead of
wrapping at exactly the inputs where this differs from the unbounded result). -/
def i32_wrap (z : Int) : Int :=
  (z + 2147483648) % 4294967296 - 2147483648

/-- Rust `z as u32` on an `i32`: reinterpret the two's-complement bit pattern as an
unsigned 32-bit value. -/
def i32_as_u32 (z : Int) : Nat :=
  (z % 4294967296).toNat

/-- `Screen::to_geometry`: the full-screen rectangle at the origin. -/
def Screen.to_geometry (s : Screen) : Geometry :=
  { x := 0, y := 0, width := s.width, height := s.height }

/-- `cplwm_api::types::FloatOrTile`. -/
inductive FloatOrTile where
  | Tile : FloatOrTile
  | Float : FloatOrTile
deriving DecidableEq, Repr

/-- `cplwm_api::types::PrevOrNext`. -/
inductive PrevOrNext where
  | Prev : PrevOrNext
  | Next : PrevOrNext
deriving DecidableEq, Repr

/-- `cplwm_api::types::WindowWithInfo`. -/
structure WindowWithInfo where
  window : Window
  geometry : Geometry
  float_or_tile : FloatOrTile
  fullscreen : Bool
deriving DecidableEq, Repr

/-- `WindowWithInfo::new_tiled`. -/
def WindowWithInfo.new_tiled (w : Window) (g : Geometry) : WindowWithInfo :=
  { window := w, geometry := g, float_or_tile := FloatOrTile.Tile, fullscreen := false }

/-- `WindowWithInfo::new_float`. -/
def WindowWithInfo.new_float (w : Window) (g : Geometry) : WindowWithInfo :=
  { window := w, geometry := g, float_or_tile := FloatOrTile.Float, fullscreen := false }

/-- `cplwm_api::types::WindowLayout`. -/
structure WindowLayout where
  focused_window : Option Window
  windows : List (Window × Geometry)
deriving DecidableEq, Repr

/-- `WindowLayout::new()`: the empty layout. -/
def WindowLayout.empty : WindowLayout := { focused_window := none, windows := [] }

/-- `wm_common::error::StandardError`. -/
inductive StandardError where
  | UnknownWindow : Window → StandardError
  | AlReadyManagedWindow : Window → StandardError
deriving DecidableEq, Repr

/-- `wm_common::error::FloatWMError`. -/
inductive FloatWMError where
  | UnknownWindow : Window → FloatWMError
  | AlReadyManagedWindow : Window → FloatWMError
  | NotFloatingWindow : Window → FloatWMError
deriving DecidableEq, Repr

/-- `StandardError::to_float_error`. -/
def StandardError.to_float_error : StandardError → FloatWMError
  | StandardError.UnknownWindow w => FloatWMError.UnknownWindow w
  | StandardError.AlReadyManagedWindow w => FloatWMError.AlReadyManagedWindow w

/-- `VecDeque::swap_remove_front(i)`: remove the element at index `i`,
filling the hole with the front element (then the front slot is popped). -/
def swapRemoveFront : List Window → Nat → List Window
  | [], _ => []
  | _ :: t, 0 => t
  | h :: t, Nat.succ j => t.set j h

/-- `VecDeque::swap(i, j)` (indices valid in all call sites). -/
def listSwap (l : List Window) (i j : Nat) : List Window :=
  match l.get? i, l.get? j with
  | some a, some b => (l.set i b).set j a
  | _, _ => l

/-- `Iterator::position(|w| *w == window)` over a window list. -/
def findPos (l : List Window) (w : Window) : Option Nat :=
  match l with
  | [] => none
  | a :: t => if a = w then some 0 else (findPos t w).map (fun i => i + 1)

/-- `Iterator::position(|i| i.window == window)` over a `WindowWithInfo` list. -/
def infoFindPos (l : List WindowWithInfo) (w : Window) : Option Nat :=
  match l with
  | [] => none
  | a :: t => if a.window = w then some 0 else (infoFindPos t w).map (fun i => i + 1)

/-- `Iterator::find(|i| i.window == window)` over a `WindowWithInfo` list. -/
def infoFind (l : List WindowWithInfo) (w : Window) : Option WindowWithInfo :=
  match l with
  | [] => none
  | a :: t => if a.window = w then some a else infoFind t w

/-- `b_tiling_wm::neighbour_of`. -/
def neighbour_of (index : Int) (dir : PrevOrNext) : Int :=
  match dir with
  | PrevOrNext.Prev => index - 1
  | PrevOrNext.Next => index + 1

/-- The `wm_common::TilingLayout` trait, as a bundle of (pure) functions.
`swap_with_master` and `swap_windows` mutate the tile deque in Rust; here they
return the new deque. -/
structure TilingLayoutS where
  get_master_window : List Window → Option Window
  swap_with_master : Window → List Window → Except StandardError (List Window)
  swap_windows : Window → PrevOrNext → List Window → List Window
  get_window_geometry : Window → Screen → List Window → Except StandardError Geometry

namespace VerticalLayoutDef

/-- `VerticalLayout::get_master_window`: front of the deque. -/
def get_master_window (tiles : List Window) : Option Window :=
  tiles.head?

/-- `VerticalLayout::swap_with_master`. -/
def swap_with_master (window : Window) (tiles : List Window) :
    Except StandardError (List Window) :=
  match get_master_window tiles with
  | none => Except.error (StandardError.UnknownWindow window)
  | some _ =>
    match findPos tiles window with
    | none => Except.error (StandardError.UnknownWindow window)
    | some index => Except.ok (window :: swapRemoveFront tiles index)

/-- `VerticalLayout::swap_windows` (errors are silently discarded in the source). -/
def swap_windows (window : Window) (dir : PrevOrNext) (tiles : List Window) :
    List Window :=
  match findPos tiles window with
  | none => tiles
  | some index =>
    let n : Int := tiles.length
    let neighbour := (neighbour_of index dir + n) % n
    listSwap tiles index neighbour.toNat

/-- `VerticalLayout::get_window_geometry`. `u32`/`usize` values live in `Nat`, `i32`
intermediates in `Int`: every `as i32` / `as u32` cast reinterprets the 32-bit bit
pattern ([u32_as_i32] / [i32_as_u32]) and the `i32` subtractions and multiplications
wrap ([i32_wrap], Rust release-mode overflow semantics; a debug build panics at
exactly the inputs where the wrap is not the identity). -/
def get_window_geometry (window : Window) (screen : Screen) (tiles : List Window) :
    Except StandardError Geometry :=
  let only_master := tiles.length ≤ 1
  let master_tile_width := screen.width / (if only_master then 1 else 2)
  match findPos tiles window with
  | none => Except.error (StandardError.UnknownWindow window)
  | some index =>
    if index = 0 then
      Except.ok { x := 0, y := 0, width := master_tile_width, height := screen.height }
    else
    let remaining_width := screen.width - master_tile_width
    let last_index := tiles.length - 1
    let side_tile_height :=
      if tiles.length > 1 then screen.height / (tiles.length - 1) else 0
    let y := i32_wrap (i32_wrap (u32_as_i32 index - 1) * u32_as_i32 side_tile_height)
    if index ≠ last_index then
      Except.ok { x := u32_as_i32 (screen.width / 2), y := y,
                  width := remaining_width, height := side_tile_height }
    else
      let remaining_height :=
        i32_as_u32 (i32_wrap (u32_as_i32 screen.height -
          i32_wrap (u32_as_i32 side_tile_height * i32_wrap (u32_as_i32 last_index - 1))))
      Except.ok { x := u32_as_i32 (screen.width / 2), y := y,
                  width := screen.width - screen.width / 2, height := remaining_height }

end VerticalLayoutDef

/-- `b_tiling_wm::VerticalLayout` bundled as a `TilingLayoutS`. -/
def VerticalLayout : TilingLayoutS :=
  { get_master_window := VerticalLayoutDef.get_master_window
    swap_with_master := VerticalLayoutDef.swap_with_master
    swap_windows := VerticalLayoutDef.swap_windows
    get_window_geometry := VerticalLayoutDef.get_window_geometry }

/-- `f_gaps::GapLayout<T>` as a decorator on a bundled layout: master/swap logic is
forwarded verbatim; every geometry is shrunk by `gap` on all four sides, widths
floored at zero via `cmp::max(0, _)` on `i32`. -/
def GapLayout (gap : Nat) (T : TilingLayoutS) : TilingLayoutS :=
  { get_master_window := T.get_master_window
    swap_with_master := T.swap_with_master
    swap_windows := T.swap_windows
    get_window_geometry := fun window screen tiles =>
      (T.get_window_geometry window screen tiles).bind fun geometry =>
        Except.ok { x := i32_wrap (geometry.x + u32_as_i32 gap),
                    y := i32_wrap (geometry.y + u32_as_i32 gap),
                    width := i32_as_u32 (max 0 (i32_wrap (u32_as_i32 geometry.width -
                      i32_wrap (2 * u32_as_i32 gap)))),
                    height := i32_as_u32 (max 0 (i32_wrap (u32_as_i32 geometry.height -
                      i32_wrap (2 * u32_as_i32 gap)))) } }

/-! ## Association-list model of `HashMap<Window, WindowWithInfo>` -/

/-- `HashMap::remove`. -/
def mapRemove : List (Window × WindowWithInfo) → Window → List (Window × WindowWithInfo)
  | [], _ => []
  | p :: t, w => if p.1 = w then mapRemove t w else p :: mapRemove t w

/-- `HashMap::insert` (overwrites any previous binding). -/
def mapInsert (m : List (Window × WindowWithInfo)) (w : Window) (i : WindowWithInfo) :
    List (Window × WindowWithInfo) :=
  (w, i) :: mapRemove m w

/-- `HashMap::get`. -/
def mapGet (m : List (Window × WindowWithInfo)) (w : Window) : Option WindowWithInfo :=
  match m with
  | [] => none
  | p :: t => if p.1 = w then some p.2 else mapGet t w

/-! ## FocusManager

Modelled from the spec: the repository's `FocusManager` (owning the ordered set of
known windows and the single optional focused window) is imported from
`a_fullscreen_wm` by every composite, but its definition is not among the provided
source files; only its callers and the spec (§4.1) describe it. The model below
follows the spec §4.1 word for word, with the tie-breaking details (push the old
focused window to the back before searching, both in `focus` and on errors) taken
from the structurally identical `FullscreenWM::focus_window` that is in the sources. -/

/-- Modelled from the spec: `FocusManager` state — an ordered sequence of
non-focused windows plus an optional focused window. -/
structure FocusManager where
  windows : List Window
  focused_window : Option Window
deriving DecidableEq, Repr

namespace FocusManager

/-- `FocusManager::new`. -/
def new : FocusManager := { windows := [], focused_window := none }

/-- `FocusManager::get_windows`: the sequence plus the focused window. -/
def get_windows (fm : FocusManager) : List Window :=
  fm.windows ++ fm.focused_window.toList

/-- `FocusManager::get_focused_window`. -/
def get_focused_window (fm : FocusManager) : Option Window :=
  fm.focused_window

/-- `Manager::is_managed`. -/
def is_managed (fm : FocusManager) (w : Window) : Bool :=
  fm.get_windows.contains w

/-- Modelled from the spec: `add` fails with `AlreadyManaged` on a tracked id;
otherwise pushes the focused window (if any) to the back and focuses the new one. -/
def add_window (fm : FocusManager) (info : WindowWithInfo) :
    Except StandardError Unit × FocusManager :=
  if fm.is_managed info.window then
    (Except.error (StandardError.AlReadyManagedWindow info.window), fm)
  else
    (Except.ok (),
      { windows := fm.windows ++ fm.focused_window.toList,
        focused_window := some info.window })

/-- Modelled from the spec: `remove` — a focused window is replaced by the back of
the sequence; otherwise the window is erased from the sequence; `UnknownWindow`
if absent. -/
def remove_window (fm : FocusManager) (w : Window) :
    Except StandardError Unit × FocusManager :=
  if fm.focused_window = some w then
    (Except.ok (), { windows := fm.windows.dropLast, focused_window := fm.windows.getLast? })
  else
    match findPos fm.windows w with
    | none => (Except.error (StandardError.UnknownWindow w), fm)
    | some _ => (Except.ok (), { fm with windows := fm.windows.erase w })

/-- Modelled from the spec: `focus` — the old focused window is pushed to the back
first (even when the new target turns out to be unknown), then the target is moved
from the sequence into focus. -/
def focus_window (fm : FocusManager) (w : Option Window) :
    Except StandardError Unit × FocusManager :=
  let pushed := fm.windows ++ fm.focused_window.toList
  match w with
  | none => (Except.ok (), { windows := pushed, focused_window := none })
  | some v =>
    match findPos pushed v with
    | none =>
      (Except.error (StandardError.UnknownWindow v),
        { windows := pushed, focused_window := none })
    | some _ =>
      (Except.ok (), { windows := pushed.erase v, focused_window := some v })

/-- Modelled from the spec: `cycle(Next)` pushes the focused window to the back and
pops the front into focus; `cycle(Prev)` is the mirror image. -/
def cycle_focus (fm : FocusManager) (dir : PrevOrNext) : FocusManager :=
  match dir with
  | PrevOrNext.Next =>
    let pushed := fm.windows ++ fm.focused_window.toList
    { windows := pushed.tail, focused_window := pushed.head? }
  | PrevOrNext.Prev =>
    let pushed := fm.focused_window.toList ++ fm.windows
    { windows := pushed.dropLast, focused_window := pushed.getLast? }

end FocusManager

/-! ## `b_tiling_wm::TileManager` -/

/-- `TileManager<TL>`: the ordered tile deque, the original infos and the screen.
The layout strategy is passed to each operation that uses it. -/
structure TileManager where
  tiles : List Window
  originals : List (Window × WindowWithInfo)
  screen : Screen
deriving DecidableEq, Repr

namespace TileManager

/-- `TileManager::new`. -/
def new (screen : Screen) : TileManager :=
  { tiles := [], originals := [], screen := screen }

/-- `Manager::get_windows` for `TileManager`. -/
def get_windows (tm : TileManager) : List Window :=
  tm.tiles

/-- `Manager::is_managed`. -/
def is_managed (tm : TileManager) (w : Window) : Bool :=
  tm.get_windows.contains w

/-- `TileManager::add_window` (`Manager` impl). -/
def add_window (tm : TileManager) (info : WindowWithInfo) :
    Except StandardError Unit × TileManager :=
  if tm.is_managed info.window then
    (Except.error (StandardError.AlReadyManagedWindow info.window), tm)
  else
    (Except.ok (),
      { tm with tiles := tm.tiles ++ [info.window],
                originals := mapInsert tm.originals info.window info })

/-- `TileManager::remove_window` (`Manager` impl). -/
def remove_window (tm : TileManager) (w : Window) :
    Except StandardError Unit × TileManager :=
  match findPos tm.tiles w with
  | none => (Except.error (StandardError.UnknownWindow w), tm)
  | some i =>
    (Except.ok (),
      { tm with tiles := tm.tiles.eraseIdx i, originals := mapRemove tm.originals w })

/-- `TileManager::get_screen`. -/
def get_screen (tm : TileManager) : Screen := tm.screen

/-- `TileManager::resize_screen`. -/
def resize_screen (tm : TileManager) (screen : Screen) : TileManager :=
  { tm with screen := screen }

/-- `TileManager::get_window_geometry`. -/
def get_window_geometry (L : TilingLayoutS) (tm : TileManager) (w : Window) :
    Except StandardError Geometry :=
  L.get_window_geometry w tm.get_screen tm.tiles

/-- `TileManager::get_window_layout` (the `unwrap` in the source never fails as every
listed window is managed; modelled with a default). -/
def get_window_layout (L : TilingLayoutS) (tm : TileManager) : List (Window × Geometry) :=
  tm.get_windows.map (fun w => (w, (tm.get_window_geometry L w).toOption.getD default))

/-- `TileManager::get_window_info`. -/
def get_window_info (L : TilingLayoutS) (tm : TileManager) (w : Window) :
    Except StandardError WindowWithInfo :=
  (tm.get_window_geometry L w).bind fun geometry =>
    Except.ok { window := w, geometry := geometry,
                float_or_tile := FloatOrTile.Tile, fullscreen := false }

/-- `TileManager::get_original_window_info`. -/
def get_original_window_info (tm : TileManager) (w : Window) :
    Except StandardError WindowWithInfo :=
  match mapGet tm.originals w with
  | some i => Except.ok i
  | none => Except.error (StandardError.UnknownWindow w)

/-- `TileManager::get_master_window` (`TilingTrait` impl). -/
def get_master_window (L : TilingLayoutS) (tm : TileManager) : Option Window :=
  L.get_master_window tm.tiles

/-- `TileManager::swap_with_master`: swap in the layout, then focus the window. -/
def swap_with_master (L : TilingLayoutS) (tm : TileManager) (w : Window)
    (fm : FocusManager) : Except StandardError Unit × TileManager × FocusManager :=
  match L.swap_with_master w tm.tiles with
  | Except.error e => (Except.error e, tm, fm)
  | Except.ok tiles1 =>
    let (r, fm1) := fm.focus_window (some w)
    (r, { tm with tiles := tiles1 }, fm1)

/-- `TileManager::swap_windows`: swap the focused window with its neighbour (no-op
when nothing is focused). -/
def swap_windows (L : TilingLayoutS) (tm : TileManager) (dir : PrevOrNext)
    (fm : FocusManager) : TileManager :=
  match fm.get_focused_window with
  | none => tm
  | some w => { tm with tiles := L.swap_windows w dir tm.tiles }

end TileManager

/-! ## `c_floating_windows::FloatManager` -/

/-- Replace the geometry of the floater at index `i` (`self.floaters[i].geometry = g`). -/
def setGeomAt : List WindowWithInfo → Nat → Geometry → List WindowWithInfo
  | [], _, _ => []
  | info :: t, 0, g => { info with geometry := g } :: t
  | a :: t, Nat.succ j, g => a :: setGeomAt t j g

/-- `FloatManager`: screen plus the z-ordered floater list. -/
structure FloatManager where
  screen : Screen
  floaters : List WindowWithInfo
deriving DecidableEq, Repr

namespace FloatManager

/-- `FloatManager::new`. -/
def new (screen : Screen) : FloatManager :=
  { screen := screen, floaters := [] }

/-- `Manager::get_windows` for `FloatManager`. -/
def get_windows (fl : FloatManager) : List Window :=
  fl.floaters.map (fun i => i.window)

/-- `Manager::is_managed`. -/
def is_managed (fl : FloatManager) (w : Window) : Bool :=
  fl.get_windows.contains w

/-- `FloatManager::add_window`. -/
def add_window (fl : FloatManager) (info : WindowWithInfo) :
    Except FloatWMError Unit × FloatManager :=
  if fl.get_windows.contains info.window then
    (Except.error (FloatWMError.AlReadyManagedWindow info.window), fl)
  else
    (Except.ok (), { fl with floaters := fl.floaters ++ [info] })

/-- `FloatManager::remove_window`. -/
def remove_window (fl : FloatManager) (w : Window) :
    Except FloatWMError Unit × FloatManager :=
  match infoFindPos fl.floaters w with
  | none => (Except.error (FloatWMError.UnknownWindow w), fl)
  | some i => (Except.ok (), { fl with floaters := fl.floaters.eraseIdx i })

/-- `FloatManager::get_window_info` (`LayoutManager` impl). -/
def get_window_info (fl : FloatManager) (w : Window) :
    Except FloatWMError WindowWithInfo :=
  match infoFind fl.floaters w with
  | none => Except.error (FloatWMError.UnknownWindow w)
  | some info => Except.ok info

/-- `FloatManager::focus_shifted`: re-append a tracked float to give it top z-order. -/
def focus_shifted (fl : FloatManager) (w : Option Window) :
    Except FloatWMError Unit × FloatManager :=
  match w with
  | none => (Except.ok (), fl)
  | some v =>
    match fl.get_window_info v with
    | Except.error e => (Except.error e, fl)
    | Except.ok info =>
      let (r1, fl1) := fl.remove_window v
      match r1 with
      | Except.error e => (Except.error e, fl1)
      | Except.ok _ => fl1.add_window info

/-- `FloatManager::get_window_layout`. -/
def get_window_layout (fl : FloatManager) : List (Window × Geometry) :=
  fl.floaters.map (fun i => (i.window, i.geometry))

/-- `FloatManager::get_screen`. -/
def get_screen (fl : FloatManager) : Screen := fl.screen

/-- `FloatManager::resize_screen`. -/
def resize_screen (fl : FloatManager) (screen : Screen) : FloatManager :=
  { fl with screen := screen }

/-- `FloatManager::set_window_geometry` (`FloatTrait` impl): in-place update. -/
def set_window_geometry (fl : FloatManager) (w : Window) (g : Geometry) :
    Except FloatWMError Unit × FloatManager :=
  match infoFindPos fl.floaters w with
  | none => (Except.error (FloatWMError.UnknownWindow w), fl)
  | some i => (Except.ok (), { fl with floaters := setGeomAt fl.floaters i g })

end FloatManager

/-! ## `c_floating_windows::FloatOrTileManager` -/

/-- `FloatOrTileManager<T>`: a tile manager plus a float manager. -/
structure FloatOrTileManager where
  tile_manager : TileManager
  float_manager : FloatManager
deriving DecidableEq, Repr

namespace FloatOrTileManager

/-- `FloatOrTileManager::new`. -/
def new (screen : Screen) : FloatOrTileManager :=
  { tile_manager := TileManager.new screen, float_manager := FloatManager.new screen }

/-- `Manager::get_windows`: tiles then floats. -/
def get_windows (s : FloatOrTileManager) : List Window :=
  s.tile_manager.get_windows ++ s.float_manager.get_windows

/-- `Manager::is_managed`. -/
def is_managed (s : FloatOrTileManager) (w : Window) : Bool :=
  s.get_windows.contains w

/-- `FloatAndTileTrait::get_floating_windows`. -/
def get_floating_windows (s : FloatOrTileManager) : List Window :=
  s.float_manager.get_windows

/-- `FloatAndTileTrait::get_tiled_windows`. -/
def get_tiled_windows (s : FloatOrTileManager) : List Window :=
  s.tile_manager.get_windows

/-- `FloatAndTileTrait::is_floating`. -/
def is_floating (s : FloatOrTileManager) (w : Window) : Bool :=
  s.get_floating_windows.contains w

/-- `FloatAndTileTrait::is_tiled`. -/
def is_tiled (s : FloatOrTileManager) (w : Window) : Bool :=
  s.get_tiled_windows.contains w

/-- `FloatOrTileManager::add_window`: route by the declared mode. -/
def add_window (s : FloatOrTileManager) (info : WindowWithInfo) :
    Except FloatWMError Unit × FloatOrTileManager :=
  match info.float_or_tile with
  | FloatOrTile.Tile =>
    let (r, tm1) := s.tile_manager.add_window info
    (r.mapError StandardError.to_float_error, { s with tile_manager := tm1 })
  | FloatOrTile.Float =>
    let (r, fl1) := s.float_manager.add_window info
    (r, { s with float_manager := fl1 })

/-- `FloatOrTileManager::remove_window`: try tiles, fall back to floats. -/
def remove_window (s : FloatOrTileManager) (w : Window) :
    Except FloatWMError Unit × FloatOrTileManager :=
  let (r, tm1) := s.tile_manager.remove_window w
  match r with
  | Except.ok _ => (Except.ok (), { s with tile_manager := tm1 })
  | Except.error _ =>
    let (r2, fl1) := s.float_manager.remove_window w
    (r2, { s with float_manager := fl1 })

/-- `FloatOrTileManager::get_window_layout`: tiles first, floats on top. -/
def get_window_layout (L : TilingLayoutS) (s : FloatOrTileManager) :
    List (Window × Geometry) :=
  s.tile_manager.get_window_layout L ++ s.float_manager.get_window_layout

/-- `FloatOrTileManager::focus_shifted`: floats move to the top of the z-order. -/
def focus_shifted (s : FloatOrTileManager) (w : Option Window) :
    Except FloatWMError Unit × FloatOrTileManager :=
  match w with
  | none => (Except.ok (), s)
  | some v =>
    if s.float_manager.is_managed v then
      let (r, fl1) := s.float_manager.focus_shifted (some v)
      (r, { s with float_manager := fl1 })
    else
      (Except.ok (), s)

/-- `FloatOrTileManager::get_window_info`: tile info, falling back to float info. -/
def get_window_info (L : TilingLayoutS) (s : FloatOrTileManager) (w : Window) :
    Except FloatWMError WindowWithInfo :=
  match s.tile_manager.get_window_info L w with
  | Except.ok i => Except.ok i
  | Except.error _ => s.float_manager.get_window_info w

/-- `FloatOrTileManager::get_screen` (delegates to the float manager). -/
def get_screen (s : FloatOrTileManager) : Screen :=
  s.float_manager.get_screen

/-- `FloatOrTileManager::resize_screen`. -/
def resize_screen (s : FloatOrTileManager) (screen : Screen) : FloatOrTileManager :=
  { tile_manager := s.tile_manager.resize_screen screen,
    float_manager := s.float_manager.resize_screen screen }

/-- `FloatOrTileManager::get_master_window`. -/
def get_master_window (L : TilingLayoutS) (s : FloatOrTileManager) : Option Window :=
  s.tile_manager.get_master_window L

/-- `FloatAndTileTrait::toggle_floating` for `FloatOrTileManager`: focus the window
first, then move it between the float and tile managers. -/
def toggle_floating (s : FloatOrTileManager) (w : Window)
    (fm : FocusManager) : Except FloatWMError Unit × FloatOrTileManager × FocusManager :=
  let (r0, fm1) := fm.focus_window (some w)
  match r0 with
  | Except.error e => (Except.error e.to_float_error, s, fm1)
  | Except.ok _ =>
    if s.float_manager.is_managed w then
      match s.float_manager.get_window_info w with
      | Except.error e => (Except.error e, s, fm1)
      | Except.ok info =>
        let (r1, fl1) := s.float_manager.remove_window w
        match r1 with
        | Except.error e => (Except.error e, { s with float_manager := fl1 }, fm1)
        | Except.ok _ =>
          let (r2, tm1) := s.tile_manager.add_window
            { window := info.window, geometry := info.geometry,
              float_or_tile := FloatOrTile.Tile, fullscreen := info.fullscreen }
          (r2.mapError StandardError.to_float_error,
            { tile_manager := tm1, float_manager := fl1 }, fm1)
    else if s.tile_manager.is_managed w then
      match s.tile_manager.get_original_window_info w with
      | Except.error e => (Except.error e.to_float_error, s, fm1)
      | Except.ok info =>
        let (r1, tm1) := s.tile_manager.remove_window w
        match r1 with
        | Except.error e => (Except.error e.to_float_error, { s with tile_manager := tm1 }, fm1)
        | Except.ok _ =>
          let (r2, fl1) := s.float_manager.add_window
            { window := info.window, geometry := info.geometry,
              float_or_tile := FloatOrTile.Float, fullscreen := info.fullscreen }
          (r2, { tile_manager := tm1, float_manager := fl1 }, fm1)
    else
      (Except.error (FloatWMError.UnknownWindow w), s, fm1)

/-- `FloatOrTileManager::swap_with_master`: a floating window is first tiled, swapped
into master, then the previous master is floated; a tiled window is swapped directly.
The `unwrap` of the master window in the source cannot fail there (there is at least
one tile after toggling); the unreachable branch reports `UnknownWindow`. -/
def swap_with_master (L : TilingLayoutS) (s : FloatOrTileManager) (w : Window)
    (fm : FocusManager) : Except FloatWMError Unit × FloatOrTileManager × FocusManager :=
  if s.is_floating w then
    let (r1, s1, fm1) := toggle_floating s w fm
    match r1 with
    | Except.error e => (Except.error e, s1, fm1)
    | Except.ok _ =>
      match s1.get_master_window L with
      | none => (Except.error (FloatWMError.UnknownWindow w), s1, fm1)
      | some master =>
        let (r2, tm2, fm2) := s1.tile_manager.swap_with_master L w fm1
        match r2 with
        | Except.error e =>
          (Except.error e.to_float_error, { s1 with tile_manager := tm2 }, fm2)
        | Except.ok _ =>
          toggle_floating { s1 with tile_manager := tm2 } master fm2
  else
    let (r, tm1, fm1) := s.tile_manager.swap_with_master L w fm
    (r.mapError StandardError.to_float_error, { s with tile_manager := tm1 }, fm1)

/-- `FloatOrTileManager::swap_windows`: only acts when the focused window is tiled. -/
def swap_windows (L : TilingLayoutS) (s : FloatOrTileManager) (dir : PrevOrNext)
    (fm : FocusManager) : FloatOrTileManager :=
  match fm.get_focused_window with
  | none => s
  | some w =>
    if s.is_tiled w then
      { s with tile_manager := s.tile_manager.swap_windows L dir fm }
    else
      s

/-- `FloatOrTileManager::set_window_geometry` (`FloatTrait` impl): delegate to the
float manager, rewriting the error to `NotFloatingWindow` for tiled windows. -/
def set_window_geometry (s : FloatOrTileManager) (w : Window) (g : Geometry) :
    Except FloatWMError Unit × FloatOrTileManager :=
  let (r, fl1) := s.float_manager.set_window_geometry w g
  match r with
  | Except.ok _ => (Except.ok (), { s with float_manager := fl1 })
  | Except.error e =>
    if s.tile_manager.is_managed w then
      (Except.error (FloatWMError.NotFloatingWindow w), { s with float_manager := fl1 })
    else
      (Except.error e, { s with float_manager := fl1 })

end FloatOrTileManager

/-! ## `d_minimising_windows::MinimiseAssistantManager` -/

/-- The minimised bucket: an ordered list of the minimised windows' last infos. -/
structure MinimiseAssistantManager where
  minis : List WindowWithInfo
deriving DecidableEq, Repr

namespace MinimiseAssistantManager

/-- `MinimiseAssistantManager::new`. -/
def new : MinimiseAssistantManager := { minis := [] }

/-- `Manager::get_windows`. -/
def get_windows (ma : MinimiseAssistantManager) : List Window :=
  ma.minis.map (fun i => i.window)

/-- `Manager::is_managed`. -/
def is_managed (ma : MinimiseAssistantManager) (w : Window) : Bool :=
  ma.get_windows.contains w

/-- `MinimiseAssistantManager::add_window`. -/
def add_window (ma : MinimiseAssistantManager) (info : WindowWithInfo) :
    Except FloatWMError Unit × MinimiseAssistantManager :=
  if ma.is_managed info.window then
    (Except.error (FloatWMError.AlReadyManagedWindow info.window), ma)
  else
    (Except.ok (), { minis := ma.minis ++ [info] })

/-- `MinimiseAssistantManager::remove_window`. -/
def remove_window (ma : MinimiseAssistantManager) (w : Window) :
    Except FloatWMError Unit × MinimiseAssistantManager :=
  match infoFindPos ma.minis w with
  | none => (Except.error (FloatWMError.UnknownWindow w), ma)
  | some i => (Except.ok (), { minis := ma.minis.eraseIdx i })

/-- `MinimiseAssistantManager::get_window_info`. -/
def get_window_info (ma : MinimiseAssistantManager) (w : Window) :
    Except FloatWMError WindowWithInfo :=
  match infoFind ma.minis w with
  | none => Except.error (FloatWMError.UnknownWindow w)
  | some info => Except.ok info

end MinimiseAssistantManager

/-! ## `d_minimising_windows::MinimiseManager` (instantiated, as in `MinimiseWM`, with
`FloatOrTileManager` as the wrapped layout manager) -/

/-- `MinimiseManager<LM>` with `LM = FloatOrTileManager<VerticalLayout>`. -/
structure MinimiseManager where
  layout_manager : FloatOrTileManager
  minimise_assistant_manager : MinimiseAssistantManager
deriving DecidableEq, Repr

namespace MinimiseManager

/-- `MinimiseManager::new`. -/
def new (lm : FloatOrTileManager) : MinimiseManager :=
  { layout_manager := lm, minimise_assistant_manager := MinimiseAssistantManager.new }

/-- `Manager::get_windows`: wrapped manager's windows then the minimised ones. -/
def get_windows (m : MinimiseManager) : List Window :=
  m.layout_manager.get_windows ++ m.minimise_assistant_manager.get_windows

/-- `Manager::is_managed`. -/
def is_managed (m : MinimiseManager) (w : Window) : Bool :=
  m.get_windows.contains w

/-- `MinimiseManager::add_window`: straight to the wrapped manager. -/
def add_window (m : MinimiseManager) (info : WindowWithInfo) :
    Except FloatWMError Unit × MinimiseManager :=
  let (r, lm1) := m.layout_manager.add_window info
  (r, { m with layout_manager := lm1 })

/-- `MinimiseManager::remove_window`: wrapped manager, falling back to the bucket. -/
def remove_window (m : MinimiseManager) (w : Window) :
    Except FloatWMError Unit × MinimiseManager :=
  let (r, lm1) := m.layout_manager.remove_window w
  match r with
  | Except.ok _ => (Except.ok (), { m with layout_manager := lm1 })
  | Except.error _ =>
    let (r2, ma1) := m.minimise_assistant_manager.remove_window w
    (r2, { m with minimise_assistant_manager := ma1 })

/-- `MinimiseManager::get_window_layout`: minimised windows are absent. -/
def get_window_layout (L : TilingLayoutS) (m : MinimiseManager) :
    List (Window × Geometry) :=
  m.layout_manager.get_window_layout L

/-- `MinimiseManager::focus_shifted`: un-minimise the target first, then forward. -/
def focus_shifted (m : MinimiseManager) (w : Option Window) :
    Except FloatWMError Unit × MinimiseManager :=
  let step1 : Except FloatWMError Unit × MinimiseManager :=
    match w with
    | none => (Except.ok (), m)
    | some v =>
      if m.minimise_assistant_manager.is_managed v then
        match m.minimise_assistant_manager.get_window_info v with
        | Except.error e => (Except.error e, m)
        | Except.ok info =>
          let (r1, ma1) := m.minimise_assistant_manager.remove_window v
          match r1 with
          | Except.error e => (Except.error e, { m with minimise_assistant_manager := ma1 })
          | Except.ok _ =>
            let (r2, lm1) := m.layout_manager.add_window info
            (r2, { layout_manager := lm1, minimise_assistant_manager := ma1 })
      else
        (Except.ok (), m)
  match step1 with
  | (Except.error e, m1) => (Except.error e, m1)
  | (Except.ok _, m1) =>
    let (r, lm2) := m1.layout_manager.focus_shifted w
    (r, { m1 with layout_manager := lm2 })

/-- `MinimiseManager::get_window_info`: wrapped manager, falling back to the bucket. -/
def get_window_info (L : TilingLayoutS) (m : MinimiseManager) (w : Window) :
    Except FloatWMError WindowWithInfo :=
  match m.layout_manager.get_window_info L w with
  | Except.ok i => Except.ok i
  | Except.error _ => m.minimise_assistant_manager.get_window_info w

/-- `MinimiseManager::get_screen`. -/
def get_screen (m : MinimiseManager) : Screen :=
  m.layout_manager.get_screen

/-- `MinimiseManager::resize_screen`. -/
def resize_screen (m : MinimiseManager) (screen : Screen) : MinimiseManager :=
  { m with layout_manager := m.layout_manager.resize_screen screen }

/-- `MinimiseManager::get_master_window`. -/
def get_master_window (L : TilingLayoutS) (m : MinimiseManager) : Option Window :=
  m.layout_manager.get_master_window L

/-- `MinimiseManager::get_minimised_windows`. -/
def get_minimised_windows (m : MinimiseManager) : List Window :=
  m.minimise_assistant_manager.get_windows

/-- `MinimiseManager::toggle_minimised`: restore a minimised window (and focus it),
or capture a visible window's info into the bucket (clearing focus if it was
focused). -/
def toggle_minimised (L : TilingLayoutS) (m : MinimiseManager) (w : Window)
    (fm : FocusManager) : Except FloatWMError Unit × MinimiseManager × FocusManager :=
  if m.minimise_assistant_manager.is_managed w then
    match m.minimise_assistant_manager.get_window_info w with
    | Except.error e => (Except.error e, m, fm)
    | Except.ok info =>
      let (r1, ma1) := m.minimise_assistant_manager.remove_window w
      match r1 with
      | Except.error e => (Except.error e, { m with minimise_assistant_manager := ma1 }, fm)
      | Except.ok _ =>
        let (r2, lm1) := m.layout_manager.add_window info
        let m1 : MinimiseManager := { layout_manager := lm1, minimise_assistant_manager := ma1 }
        match r2 with
        | Except.error e => (Except.error e, m1, fm)
        | Except.ok _ =>
          let (r3, fm1) := fm.focus_window (some w)
          (r3.mapError StandardError.to_float_error, m1, fm1)
  else
    match m.layout_manager.get_window_info L w with
    | Except.error e => (Except.error e, m, fm)
    | Except.ok info =>
      let (r1, lm1) := m.layout_manager.remove_window w
      match r1 with
      | Except.error e => (Except.error e, { m with layout_manager := lm1 }, fm)
      | Except.ok _ =>
        let (r2, ma1) := m.minimise_assistant_manager.add_window info
        let m1 : MinimiseManager := { layout_manager := lm1, minimise_assistant_manager := ma1 }
        match r2 with
        | Except.error e => (Except.error e, m1, fm)
        | Except.ok _ =>
          match fm.get_focused_window with
          | none => (Except.ok (), m1, fm)
          | some v =>
            if w = v then
              let (r3, fm1) := fm.focus_window none
              (r3.mapError StandardError.to_float_error, m1, fm1)
            else
              (Except.ok (), m1, fm)

/-- `MinimiseManager::maximise_if_minimised`. -/
def maximise_if_minimised (L : TilingLayoutS) (m : MinimiseManager) (w : Window)
    (fm : FocusManager) : Except FloatWMError Unit × MinimiseManager × FocusManager :=
  if m.minimise_assistant_manager.is_managed w then
    toggle_minimised L m w fm
  else
    (Except.ok (), m, fm)

/-- `MinimiseManager::swap_with_master`: un-minimise first, then delegate. -/
def swap_with_master (L : TilingLayoutS) (m : MinimiseManager) (w : Window)
    (fm : FocusManager) : Except FloatWMError Unit × MinimiseManager × FocusManager :=
  let (r0, m1, fm1) := maximise_if_minimised L m w fm
  match r0 with
  | Except.error e => (Except.error e, m1, fm1)
  | Except.ok _ =>
    let (r, lm1, fm2) := m1.layout_manager.swap_with_master L w fm1
    (r, { m1 with layout_manager := lm1 }, fm2)

/-- `MinimiseManager::swap_windows`. -/
def swap_windows (L : TilingLayoutS) (m : MinimiseManager) (dir : PrevOrNext)
    (fm : FocusManager) : MinimiseManager :=
  { m with layout_manager := m.layout_manager.swap_windows L dir fm }

/-- `MinimiseManager::set_window_geometry`. -/
def set_window_geometry (m : MinimiseManager) (w : Window) (g : Geometry) :
    Except FloatWMError Unit × MinimiseManager :=
  let (r, lm1) := m.layout_manager.set_window_geometry w g
  (r, { m with layout_manager := lm1 })

/-- `MinimiseManager::get_floating_windows`. -/
def get_floating_windows (m : MinimiseManager) : List Window :=
  m.layout_manager.get_floating_windows

/-- `MinimiseManager::get_tiled_windows`. -/
def get_tiled_windows (m : MinimiseManager) : List Window :=
  m.layout_manager.get_tiled_windows

/-- `MinimiseManager::toggle_floating`: un-minimise first, then delegate. -/
def toggle_floating (L : TilingLayoutS) (m : MinimiseManager) (w : Window)
    (fm : FocusManager) : Except FloatWMError Unit × MinimiseManager × FocusManager :=
  let (r0, m1, fm1) := maximise_if_minimised L m w fm
  match r0 with
  | Except.error e => (Except.error e, m1, fm1)
  | Except.ok _ =>
    let (r, lm1, fm2) := m1.layout_manager.toggle_floating w fm1
    (r, { m1 with layout_manager := lm1 }, fm2)

end MinimiseManager

/-! ## `a_fullscreen_wm::FullscreenWM` -/

/-- `FullscreenWM`: deque of non-focused windows, optional focused window, screen and
the remembered infos. -/
structure FullscreenWM where
  windows : List Window
  focused_window : Option Window
  screen : Screen
  window_to_info : List (Window × WindowWithInfo)
deriving DecidableEq, Repr

namespace FullscreenWM

/-- `FullscreenWM::new`. -/
def new (screen : Screen) : FullscreenWM :=
  { windows := [], focused_window := none, screen := screen, window_to_info := [] }

/-- `FullscreenWM::get_windows`: the deque, with the focused window pushed last. -/
def get_windows (wm : FullscreenWM) : List Window :=
  wm.windows ++ wm.focused_window.toList

/-- `FullscreenWM::get_focused_window`. -/
def get_focused_window (wm : FullscreenWM) : Option Window :=
  wm.focused_window

/-- `WindowManager::is_managed`. -/
def is_managed (wm : FullscreenWM) (w : Window) : Bool :=
  wm.get_windows.contains w

/-- `FullscreenWM::add_window`. -/
def add_window (wm : FullscreenWM) (info : WindowWithInfo) :
    Except StandardError Unit × FullscreenWM :=
  if wm.is_managed info.window then
    (Except.error (StandardError.AlReadyManagedWindow info.window), wm)
  else
    (Except.ok (),
      { wm with windows := wm.windows ++ wm.focused_window.toList,
                focused_window := some info.window,
                window_to_info := mapInsert wm.window_to_info info.window info })

/-- `FullscreenWM::focus_window`: the currently focused window is pushed to the back
of the deque and unfocused BEFORE the target is looked up, so an unknown target
leaves the state mutated. -/
def focus_window (wm : FullscreenWM) (w : Option Window) :
    Except StandardError Unit × FullscreenWM :=
  let pushed := wm.windows ++ wm.focused_window.toList
  match w with
  | none => (Except.ok (), { wm with windows := pushed, focused_window := none })
  | some v =>
    match findPos pushed v with
    | none =>
      (Except.error (StandardError.UnknownWindow v),
        { wm with windows := pushed, focused_window := none })
    | some i =>
      (Except.ok (), { wm with windows := pushed.eraseIdx i, focused_window := some v })

/-- `FullscreenWM::get_window_layout`. -/
def get_window_layout (wm : FullscreenWM) : WindowLayout :=
  match wm.focused_window with
  | some w => { focused_window := some w, windows := [(w, wm.screen.to_geometry)] }
  | none => WindowLayout.empty

end FullscreenWM

/-! ## `b_tiling_wm::TilingWM` -/

/-- `TilingWM`: a `FocusManager` plus a `TileManager<VerticalLayout>`. -/
structure TilingWM where
  focus_manager : FocusManager
  tile_manager : TileManager
deriving DecidableEq, Repr

namespace TilingWM

/-- `TilingWM::new`. -/
def new (screen : Screen) : TilingWM :=
  { focus_manager := FocusManager.new, tile_manager := TileManager.new screen }

/-- `TilingWM::get_windows`. -/
def get_windows (s : TilingWM) : List Window :=
  s.focus_manager.get_windows

/-- `TilingWM::get_focused_window`. -/
def get_focused_window (s : TilingWM) : Option Window :=
  s.focus_manager.get_focused_window

/-- `TilingWM::add_window`: focus manager first, then the tile manager. -/
def add_window (s : TilingWM) (info : WindowWithInfo) :
    Except StandardError Unit × TilingWM :=
  let (r, fm1) := s.focus_manager.add_window info
  match r with
  | Except.error e => (Except.error e, { s with focus_manager := fm1 })
  | Except.ok _ =>
    let (r2, tm1) := s.tile_manager.add_window info
    (r2, { focus_manager := fm1, tile_manager := tm1 })

/-- `TilingWM::remove_window`. -/
def remove_window (s : TilingWM) (w : Window) :
    Except StandardError Unit × TilingWM :=
  let (r, fm1) := s.focus_manager.remove_window w
  match r with
  | Except.error e => (Except.error e, { s with focus_manager := fm1 })
  | Except.ok _ =>
    let (r2, tm1) := s.tile_manager.remove_window w
    (r2, { focus_manager := fm1, tile_manager := tm1 })

/-- `TilingWM::get_window_layout` (layout strategy: `VerticalLayout`). -/
def get_window_layout (s : TilingWM) : WindowLayout :=
  { focused_window := s.get_focused_window,
    windows := s.tile_manager.get_window_layout VerticalLayout }

/-- `TilingWM::get_window_info`. -/
def get_window_info (s : TilingWM) (w : Window) : Except StandardError WindowWithInfo :=
  s.tile_manager.get_window_info VerticalLayout w

end TilingWM

/-! ## `c_floating_windows::FloatWM` -/

/-- `FloatWM`: a `FocusManager` plus a `FloatOrTileManager<VerticalLayout>`. -/
structure FloatWM where
  focus_manager : FocusManager
  float_or_tile_manager : FloatOrTileManager
deriving DecidableEq, Repr

namespace FloatWM

/-- `FloatWM::new`. -/
def new (screen : Screen) : FloatWM :=
  { focus_manager := FocusManager.new,
    float_or_tile_manager := FloatOrTileManager.new screen }

/-- `FloatWM::get_windows`. -/
def get_windows (s : FloatWM) : List Window :=
  s.focus_manager.get_windows

/-- `FloatWM::get_focused_window`. -/
def get_focused_window (s : FloatWM) : Option Window :=
  s.focus_manager.get_focused_window

/-- `FloatWM::add_window`. -/
def add_window (s : FloatWM) (info : WindowWithInfo) :
    Except FloatWMError Unit × FloatWM :=
  let (r, fm1) := s.focus_manager.add_window info
  match r with
  | Except.error e => (Except.error e.to_float_error, { s with focus_manager := fm1 })
  | Except.ok _ =>
    let (r2, ft1) := s.float_or_tile_manager.add_window info
    (r2, { focus_manager := fm1, float_or_tile_manager := ft1 })

/-- `FloatWM::remove_window`. -/
def remove_window (s : FloatWM) (w : Window) :
    Except FloatWMError Unit × FloatWM :=
  let (r, fm1) := s.focus_manager.remove_window w
  match r with
  | Except.error e => (Except.error e.to_float_error, { s with focus_manager := fm1 })
  | Except.ok _ =>
    let (r2, ft1) := s.float_or_tile_manager.remove_window w
    (r2, { focus_manager := fm1, float_or_tile_manager := ft1 })

/-- `FloatWM::get_window_layout`. -/
def get_window_layout (s : FloatWM) : WindowLayout :=
  { focused_window := s.get_focused_window,
    windows := s.float_or_tile_manager.get_window_layout VerticalLayout }

/-- `FloatWM::focus_window`: focus manager first, then notify the layout side. -/
def focus_window (s : FloatWM) (w : Option Window) :
    Except FloatWMError Unit × FloatWM :=
  let (r, fm1) := s.focus_manager.focus_window w
  match r with
  | Except.error e => (Except.error e.to_float_error, { s with focus_manager := fm1 })
  | Except.ok _ =>
    let (r2, ft1) := s.float_or_tile_manager.focus_shifted w
    (r2, { focus_manager := fm1, float_or_tile_manager := ft1 })

/-- `FloatWM::cycle_focus` (the `focus_shifted` result is discarded). -/
def cycle_focus (s : FloatWM) (dir : PrevOrNext) : FloatWM :=
  let fm1 := s.focus_manager.cycle_focus dir
  let (_, ft1) := s.float_or_tile_manager.focus_shifted fm1.get_focused_window
  { focus_manager := fm1, float_or_tile_manager := ft1 }

/-- `FloatWM::get_window_info`. -/
def get_window_info (s : FloatWM) (w : Window) : Except FloatWMError WindowWithInfo :=
  s.float_or_tile_manager.get_window_info VerticalLayout w

/-- `FloatWM::get_screen`. -/
def get_screen (s : FloatWM) : Screen :=
  s.float_or_tile_manager.get_screen

/-- `FloatWM::resize_screen`. -/
def resize_screen (s : FloatWM) (screen : Screen) : FloatWM :=
  { s with float_or_tile_manager := s.float_or_tile_manager.resize_screen screen }

/-- `FloatWM::get_master_window`. -/
def get_master_window (s : FloatWM) : Option Window :=
  s.float_or_tile_manager.get_master_window VerticalLayout

/-- `FloatWM::swap_with_master`. -/
def swap_with_master (s : FloatWM) (w : Window) :
    Except FloatWMError Unit × FloatWM :=
  let (r, ft1, fm1) :=
    s.float_or_tile_manager.swap_with_master VerticalLayout w s.focus_manager
  (r, { focus_manager := fm1, float_or_tile_manager := ft1 })

/-- `FloatWM::swap_windows`. -/
def swap_windows (s : FloatWM) (dir : PrevOrNext) : FloatWM :=
  { s with float_or_tile_manager :=
      s.float_or_tile_manager.swap_windows VerticalLayout dir s.focus_manager }

/-- `FloatWM::get_floating_windows`. -/
def get_floating_windows (s : FloatWM) : List Window :=
  s.float_or_tile_manager.get_floating_windows

/-- `FloatWM::toggle_floating`. -/
def toggle_floating (s : FloatWM) (w : Window) :
    Except FloatWMError Unit × FloatWM :=
  let (r, ft1, fm1) := s.float_or_tile_manager.toggle_floating w s.focus_manager
  (r, { focus_manager := fm1, float_or_tile_manager := ft1 })

/-- `FloatWM::set_window_geometry`. -/
def set_window_geometry (s : FloatWM) (w : Window) (g : Geometry) :
    Except FloatWMError Unit × FloatWM :=
  let (r, ft1) := s.float_or_tile_manager.set_window_geometry w g
  (r, { s with float_or_tile_manager := ft1 })

end FloatWM

/-! ## `d_minimising_windows::MinimiseWM` -/

/-- `MinimiseWM`: a `FocusManager` plus a
`MinimiseManager<FloatOrTileManager<VerticalLayout>>`. -/
structure MinimiseWM where
  focus_manager : FocusManager
  minimise_manager : MinimiseManager
deriving DecidableEq, Repr

namespace MinimiseWM

/-- `MinimiseWM::new`. -/
def new (screen : Screen) : MinimiseWM :=
  { focus_manager := FocusManager.new,
    minimise_manager := MinimiseManager.new (FloatOrTileManager.new screen) }

/-- `MinimiseWM::get_windows`. -/
def get_windows (s : MinimiseWM) : List Window :=
  s.focus_manager.get_windows

/-- `MinimiseWM::get_focused_window`. -/
def get_focused_window (s : MinimiseWM) : Option Window :=
  s.focus_manager.get_focused_window

/-- `MinimiseWM::add_window`. -/
def add_window (s : MinimiseWM) (info : WindowWithInfo) :
    Except FloatWMError Unit × MinimiseWM :=
  let (r, fm1) := s.focus_manager.add_window info
  match r with
  | Except.error e => (Except.error e.to_float_error, { s with focus_manager := fm1 })
  | Except.ok _ =>
    let (r2, mm1) := s.minimise_manager.add_window info
    (r2, { focus_manager := fm1, minimise_manager := mm1 })

/-- `MinimiseWM::remove_window`. -/
def remove_window (s : MinimiseWM) (w : Window) :
    Except FloatWMError Unit × MinimiseWM :=
  let (r, fm1) := s.focus_manager.remove_window w
  match r with
  | Except.error e => (Except.error e.to_float_error, { s with focus_manager := fm1 })
  | Except.ok _ =>
    let (r2, mm1) := s.minimise_manager.remove_window w
    (r2, { focus_manager := fm1, minimise_manager := mm1 })

/-- `MinimiseWM::get_window_layout`. -/
def get_window_layout (s : MinimiseWM) : WindowLayout :=
  { focused_window := s.get_focused_window,
    windows := s.minimise_manager.get_window_layout VerticalLayout }

/-- `MinimiseWM::focus_window`: un-minimise an explicitly focused minimised window
first, then run the focus manager and notify the layout side. -/
def focus_window (s : MinimiseWM) (w : Option Window) :
    Except FloatWMError Unit × MinimiseWM :=
  let step0 : Except FloatWMError Unit × MinimiseManager × FocusManager :=
    match w with
    | none => (Except.ok (), s.minimise_manager, s.focus_manager)
    | some v => s.minimise_manager.maximise_if_minimised VerticalLayout v s.focus_manager
  match step0 with
  | (Except.error e, mm1, fm1) =>
    (Except.error e, { focus_manager := fm1, minimise_manager := mm1 })
  | (Except.ok _, mm1, fm1) =>
    let (r1, fm2) := fm1.focus_window w
    match r1 with
    | Except.error e =>
      (Except.error e.to_float_error, { focus_manager := fm2, minimise_manager := mm1 })
    | Except.ok _ =>
      let (r2, mm2) := mm1.focus_shifted w
      (r2, { focus_manager := fm2, minimise_manager := mm2 })

/-- `MinimiseWM::cycle_focus` (the `focus_shifted` result is discarded). -/
def cycle_focus (s : MinimiseWM) (dir : PrevOrNext) : MinimiseWM :=
  let fm1 := s.focus_manager.cycle_focus dir
  let (_, mm1) := s.minimise_manager.focus_shifted fm1.get_focused_window
  { focus_manager := fm1, minimise_manager := mm1 }

/-- `MinimiseWM::get_window_info`. -/
def get_window_info (s : MinimiseWM) (w : Window) : Except FloatWMError WindowWithInfo :=
  s.minimise_manager.get_window_info VerticalLayout w

/-- `MinimiseWM::get_screen`. -/
def get_screen (s : MinimiseWM) : Screen :=
  s.minimise_manager.get_screen

/-- `MinimiseWM::resize_screen`. -/
def resize_screen (s : MinimiseWM) (screen : Screen) : MinimiseWM :=
  { s with minimise_manager := s.minimise_manager.resize_screen screen }

/-- `MinimiseWM::get_master_window`. -/
def get_master_window (s : MinimiseWM) : Option Window :=
  s.minimise_manager.get_master_window VerticalLayout

/-- `MinimiseWM::swap_with_master`. -/
def swap_with_master (s : MinimiseWM) (w : Window) :
    Except FloatWMError Unit × MinimiseWM :=
  let (r, mm1, fm1) :=
    s.minimise_manager.swap_with_master VerticalLayout w s.focus_manager
  (r, { focus_manager := fm1, minimise_manager := mm1 })

/-- `MinimiseWM::swap_windows`. -/
def swap_windows (s : MinimiseWM) (dir : PrevOrNext) : MinimiseWM :=
  { s with minimise_manager :=
      s.minimise_manager.swap_windows VerticalLayout dir s.focus_manager }

/-- `MinimiseWM::get_floating_windows`. -/
def get_floating_windows (s : MinimiseWM) : List Window :=
  s.minimise_manager.get_floating_windows

/-- `MinimiseWM::toggle_floating`. -/
def toggle_floating (s : MinimiseWM) (w : Window) :
    Except FloatWMError Unit × MinimiseWM :=
  let (r, mm1, fm1) :=
    s.minimise_manager.toggle_floating VerticalLayout w s.focus_manager
  (r, { focus_manager := fm1, minimise_manager := mm1 })

/-- `MinimiseWM::set_window_geometry`. -/
def set_window_geometry (s : MinimiseWM) (w : Window) (g : Geometry) :
    Except FloatWMError Unit × MinimiseWM :=
  let (r, mm1) := s.minimise_manager.set_window_geometry w g
  (r, { s with minimise_manager := mm1 })

/-- `MinimiseWM::get_minimised_windows`. -/
def get_minimised_windows (s : MinimiseWM) : List Window :=
  s.minimise_manager.get_minimised_windows

/-- `MinimiseSupport::is_minimised`. -/
def is_minimised (s : MinimiseWM) (w : Window) : Bool :=
  s.get_minimised_windows.contains w

/-- `MinimiseWM::toggle_minimised`. -/
def toggle_minimised (s : MinimiseWM) (w : Window) :
    Except FloatWMError Unit × MinimiseWM :=
  let (r, mm1, fm1) :=
    s.minimise_manager.toggle_minimised VerticalLayout w s.focus_manager
  (r, { focus_manager := fm1, minimise_manager := mm1 })

end MinimiseWM

/-- The state of scenario B: a `TilingWM` on the irregular `301×401` screen with the
tiled windows `1,2,3,4` added in that order. -/
def scenarioB : TilingWM :=
  let g : Geometry := { x := 10, y := 10, width := 100, height := 100 }
  (((((TilingWM.new { width := 301, height := 401 }).add_window
      (WindowWithInfo.new_tiled 1 g)).2.add_window
      (WindowWithInfo.new_tiled 2 g)).2.add_window
      (WindowWithInfo.new_tiled 3 g)).2.add_window
      (WindowWithInfo.new_tiled 4 g)).2

/-- Scenario C, step 1: a fresh 800×600 `MinimiseWM` with tiled window `1`, which is
then explicitly focused. -/
def scenarioC1 : MinimiseWM :=
  ((((MinimiseWM.new { width := 800, height := 600 }).add_window
      (WindowWithInfo.new_tiled 1
        { x := 0, y := 0, width := 100, height := 100 })).2).focus_window (some 1)).2

/-- Scenario C, step 2: window `1` minimised via `toggle_minimised`. -/
def scenarioC2 : MinimiseWM := (scenarioC1.toggle_minimised 1).2

/-- Scenario C, step 3: window `1` focused again via `focus_window`. -/
def scenarioC3 : MinimiseWM := (scenarioC2.focus_window (some 1)).2

/-- Scenario D base state: a fresh 800×600 `FloatWM` with window `1` added floating
at geometry `(10,20) 100×400`. -/
def scenarioD : FloatWM :=
  ((FloatWM.new { width := 800, height := 600 }).add_window
    (WindowWithInfo.new_float 1
      { x := 10, y := 20, width := 100, height := 400 })).2

/-- Counterexample state for C4: a fresh 800×600 `MinimiseWM` with tiled windows `1`
and `2` added in that order. -/
def scenarioE : MinimiseWM :=
  (((MinimiseWM.new { width := 800, height := 600 }).add_window
    (WindowWithInfo.new_tiled 1
      { x := 0, y := 0, width := 100, height := 100 })).2.add_window
    (WindowWithInfo.new_tiled 2
      { x := 0, y := 0, width := 100, height := 100 })).2

/-- Counterexample state for C8: a fresh 800×600 `MinimiseWM` whose floating window
`1` has been minimised. -/
def scenarioF : MinimiseWM :=
  (((MinimiseWM.new { width := 800, height := 600 }).add_window
    (WindowWithInfo.new_float 1
      { x := 10, y := 20, width := 100, height := 400 })).2.toggle_minimised 1).2

/-- Two rectangles overlap when both their x-extents and y-extents intersect with
positive length (degenerate rectangles overlap nothing). -/
def geomOverlap (a b : Geometry) : Prop :=
  a.x < b.x + (b.width : Int) ∧ b.x < a.x + (a.width : Int) ∧
  a.y < b.y + (b.height : Int) ∧ b.y < a.y + (a.height : Int)

/-- Closed form of the geometry `VerticalLayout` assigns to the tile at position `i`
of an `N`-tile sequence (mirrors the branches of `get_window_geometry` exactly). -/
def C1geo (screen : Screen) (N i : Nat) : Geometry :=
  let master_tile_width := screen.width / (if N ≤ 1 then 1 else 2)
  if i = 0 then
    { x := 0, y := 0, width := master_tile_width, height := screen.height }
  else
    let side := if N > 1 then screen.height / (N - 1) else 0
    if i ≠ N - 1 then
      { x := (screen.width / 2 : Nat), y := ((i : Int) - 1) * side,
        width := screen.width - master_tile_width, height := side }
    else
      { x := (screen.width / 2 : Nat), y := ((i : Int) - 1) * side,
        width := screen.width - screen.width / 2,
        height := ((screen.height : Int) - (side : Int) * (((N - 1 : Nat) : Int) - 1)).toNat }

/-! ## Invariants and reachability for the composite facades -/

/-- The cross-manager invariant of a float-capable pair (`FloatOrTileManager` plus the
`FocusManager` of its facade): the focus component tracks exactly the tiled and
floating windows, the two buckets are disjoint and duplicate-free, and every tiled
window has its original add-time info (keyed by itself) in `originals`. -/
structure FTInv (ft : FloatOrTileManager) (fm : FocusManager) : Prop where
  mem_iff : ∀ v : Window, v ∈ fm.get_windows ↔
    (v ∈ ft.tile_manager.tiles ∨ v ∈ ft.float_manager.get_windows)
  disj : ∀ v : Window, v ∈ ft.tile_manager.tiles → v ∉ ft.float_manager.get_windows
  nodup_focus : fm.get_windows.Nodup
  nodup_tiles : ft.tile_manager.tiles.Nodup
  nodup_floats : ft.float_manager.get_windows.Nodup
  orig : ∀ v ∈ ft.tile_manager.tiles,
    ∃ info, mapGet ft.tile_manager.originals v = some info ∧ info.window = v

/-- `FTInv` for a `FloatWM` facade state. -/
def FloatInv (s : FloatWM) : Prop :=
  FTInv s.float_or_tile_manager s.focus_manager

/-- States of `FloatWM` reachable from `new` by the public operations. -/
inductive FloatReach : FloatWM → Prop where
  | init (screen : Screen) : FloatReach (FloatWM.new screen)
  | add (s : FloatWM) (info : WindowWithInfo) :
      FloatReach s → FloatReach (s.add_window info).2
  | remove (s : FloatWM) (w : Window) :
      FloatReach s → FloatReach (s.remove_window w).2
  | focus (s : FloatWM) (w : Option Window) :
      FloatReach s → FloatReach (s.focus_window w).2
  | cycle (s : FloatWM) (dir : PrevOrNext) :
      FloatReach s → FloatReach (s.cycle_focus dir)
  | swap_master (s : FloatWM) (w : Window) :
      FloatReach s → FloatReach (s.swap_with_master w).2
  | swap (s : FloatWM) (dir : PrevOrNext) :
      FloatReach s → FloatReach (s.swap_windows dir)
  | toggle (s : FloatWM) (w : Window) :
      FloatReach s → FloatReach (s.toggle_floating w).2
  | set_geom (s : FloatWM) (w : Window) (g : Geometry) :
      FloatReach s → FloatReach (s.set_window_geometry w g).2
  | resize (s : FloatWM) (screen : Screen) :
      FloatReach s → FloatReach (s.resize_screen screen)

/-- The cross-manager invariant of a `MinimiseWM` state: the focus component tracks
exactly the tiled, floating and minimised windows, the three buckets are pairwise
disjoint and duplicate-free, and tiled windows have their original infos. -/
structure MInv (m : MinimiseManager) (fm : FocusManager) : Prop where
  mem_iff : ∀ v : Window, v ∈ fm.get_windows ↔
    (v ∈ m.layout_manager.tile_manager.tiles ∨
     v ∈ m.layout_manager.float_manager.get_windows ∨
     v ∈ m.minimise_assistant_manager.get_windows)
  disj_tf : ∀ v : Window, v ∈ m.layout_manager.tile_manager.tiles →
    v ∉ m.layout_manager.float_manager.get_windows
  disj_tm : ∀ v : Window, v ∈ m.layout_manager.tile_manager.tiles →
    v ∉ m.minimise_assistant_manager.get_windows
  disj_fm : ∀ v : Window, v ∈ m.layout_manager.float_manager.get_windows →
    v ∉ m.minimise_assistant_manager.get_windows
  nodup_focus : fm.get_windows.Nodup
  nodup_tiles : m.layout_manager.tile_manager.tiles.Nodup
  nodup_floats : m.layout_manager.float_manager.get_windows.Nodup
  nodup_minis : m.minimise_assistant_manager.get_windows.Nodup
  orig : ∀ v ∈ m.layout_manager.tile_manager.tiles,
    ∃ info, mapGet m.layout_manager.tile_manager.originals v = some info ∧
      info.window = v

/-- `MInv` for a `MinimiseWM` facade state. -/
def MinimiseInv (s : MinimiseWM) : Prop :=
  MInv s.minimise_manager s.focus_manager

/-- States of `MinimiseWM` reachable from `new` by the public operations. -/
inductive MinimiseReach : MinimiseWM → Prop where
  | init (screen : Screen) : MinimiseReach (MinimiseWM.new screen)
  | add (s : MinimiseWM) (info : WindowWithInfo) :
      MinimiseReach s → MinimiseReach (s.add_window info).2
  | remove (s : MinimiseWM) (w : Window) :
      MinimiseReach s → MinimiseReach (s.remove_window w).2
  | focus (s : MinimiseWM) (w : Option Window) :
      MinimiseReach s → MinimiseReach (s.focus_window w).2
  | cycle (s : MinimiseWM) (dir : PrevOrNext) :
      MinimiseReach s → MinimiseReach (s.cycle_focus dir)
  | swap_master (s : MinimiseWM) (w : Window) :
      MinimiseReach s → MinimiseReach (s.swap_with_master w).2
  | swap (s : MinimiseWM) (dir : PrevOrNext) :
      MinimiseReach s → MinimiseReach (s.swap_windows dir)
  | toggle (s : MinimiseWM) (w : Window) :
      MinimiseReach s → MinimiseReach (s.toggle_floating w).2
  | set_geom (s : MinimiseWM) (w : Window) (g : Geometry) :
      MinimiseReach s → MinimiseReach (s.set_window_geometry w g).2
  | resize (s : MinimiseWM) (screen : Screen) :
      MinimiseReach s → MinimiseReach (s.resize_screen screen)
  | toggle_min (s : MinimiseWM) (w : Window) :
      MinimiseReach s → MinimiseReach (s.toggle_minimised w).2

/-! ## Generic list lemmas used throughout -/

theorem findPos_eq_none_iff (l : List Window) (w : Window) :
    findPos l w = none ↔ w ∉ l := by
  induction l with
  | nil => simp [findPos]
  | cons a t ih =>
    by_cases h : a = w
    · simp [findPos, h]
    · simp [findPos, h, ih, Ne.symm h]

theorem findPos_isSome_of_mem {l : List Window} {w : Window} (h : w ∈ l) :
    ∃ i, findPos l w = some i := by
  cases hfp : findPos l w with
  | none => exact absurd h ((findPos_eq_none_iff l w).mp hfp)
  | some i => exact ⟨i, rfl⟩

theorem findPos_cons (a : Window) (t : List Window) (w : Window) :
    findPos (a :: t) w = if a = w then some 0 else (findPos t w).map (fun i => i + 1) :=
  rfl

theorem eraseIdx_of_findPos {l : List Window} {w : Window} {i : Nat}
    (h : findPos l w = some i) : l.eraseIdx i = l.erase w := by
  induction l generalizing i with
  | nil => simp [findPos] at h
  | cons a t ih =>
    rw [findPos_cons] at h
    by_cases ha : a = w
    · rw [if_pos ha, Option.some_inj] at h
      subst h
      simp [List.erase_cons, ha]
    · rw [if_neg ha, Option.map_eq_some'] at h
      rcases h with ⟨j, hj, rfl⟩
      have hbeq : (a == w) = false := by simp [ha]
      simp [List.eraseIdx_cons_succ, List.erase_cons, hbeq, ih hj]

theorem findPos_get_of_nodup (l : List Window) (hnd : l.Nodup) (i : Nat)
    (h : i < l.length) : findPos l (l.get ⟨i, h⟩) = some i := by
  induction l generalizing i with
  | nil => simp at h
  | cons a t ih =>
    cases i with
    | zero => simp [findPos]
    | succ j =>
      have hj : j < t.length := Nat.lt_of_succ_lt_succ h
      have hm : t.get ⟨j, hj⟩ ∈ t := List.get_mem t _ _
      have hne : a ≠ t.get ⟨j, hj⟩ := fun he => ((List.nodup_cons.mp hnd).1 (he ▸ hm))
      simp only [List.get_cons_succ]
      rw [findPos, if_neg hne, ih (List.nodup_cons.mp hnd).2 j hj]
      rfl

theorem findPos_mem_of_some {l : List Window} {w : Window} {i : Nat}
    (h : findPos l w = some i) : w ∈ l := by
  by_contra hmem
  rw [(findPos_eq_none_iff l w).mpr hmem] at h
  cases h

theorem infoFindPos_cons (a : WindowWithInfo) (t : List WindowWithInfo) (w : Window) :
    infoFindPos (a :: t) w =
      if a.window = w then some 0 else (infoFindPos t w).map (fun i => i + 1) :=
  rfl

theorem infoFindPos_eq_none_iff (l : List WindowWithInfo) (w : Window) :
    infoFindPos l w = none ↔ w ∉ l.map (fun i => i.window) := by
  induction l with
  | nil => simp [infoFindPos]
  | cons a t ih =>
    rw [infoFindPos_cons]
    by_cases h : a.window = w
    · simp [h]
    · simp [h, ih, Ne.symm h]

theorem infoFind_eq_none_iff (l : List WindowWithInfo) (w : Window) :
    infoFind l w = none ↔ w ∉ l.map (fun i => i.window) := by
  induction l with
  | nil => simp [infoFind]
  | cons a t ih =>
    by_cases h : a.window = w
    · simp [infoFind, h]
    · simp [infoFind, h, ih, Ne.symm h]

theorem infoFind_some {l : List WindowWithInfo} {w : Window} {info : WindowWithInfo}
    (h : infoFind l w = some info) : info ∈ l ∧ info.window = w := by
  induction l with
  | nil => simp [infoFind] at h
  | cons a t ih =>
    by_cases ha : a.window = w
    · rw [infoFind, if_pos ha, Option.some_inj] at h
      exact ⟨by simp [← h], h ▸ ha⟩
    · rw [infoFind, if_neg ha] at h
      exact ⟨List.mem_cons_of_mem _ (ih h).1, (ih h).2⟩

theorem infoFind_isSome_of_mem {l : List WindowWithInfo} {w : Window}
    (h : w ∈ l.map (fun i => i.window)) : ∃ info, infoFind l w = some info := by
  cases hf : infoFind l w with
  | none => exact absurd h ((infoFind_eq_none_iff l w).mp hf)
  | some info => exact ⟨info, rfl⟩

theorem infoEraseIdx_map_of_findPos {l : List WindowWithInfo} {w : Window} {i : Nat}
    (h : infoFindPos l w = some i) :
    (l.eraseIdx i).map (fun j => j.window) = (l.map (fun j => j.window)).erase w := by
  induction l generalizing i with
  | nil => simp [infoFindPos] at h
  | cons a t ih =>
    rw [infoFindPos_cons] at h
    by_cases ha : a.window = w
    · rw [if_pos ha, Option.some_inj] at h
      subst h
      simp [List.erase_cons, ha]
    · rw [if_neg ha, Option.map_eq_some'] at h
      rcases h with ⟨j, hj, rfl⟩
      have hbeq : (a.window == w) = false := by simp [ha]
      simp [List.eraseIdx_cons_succ, List.erase_cons, hbeq, ih hj]

theorem infoEraseIdx_subset {l : List WindowWithInfo} {i : Nat} {info : WindowWithInfo}
    (h : info ∈ l.eraseIdx i) : info ∈ l := by
  induction l generalizing i with
  | nil => simp [List.eraseIdx] at h
  | cons a t ih =>
    cases i with
    | zero => exact List.mem_cons_of_mem _ (by simpa using h)
    | succ j =>
      rcases List.mem_cons.mp (by simpa using h) with h1 | h2
      · exact h1 ▸ List.mem_cons_self _ _
      · exact List.mem_cons_of_mem _ (ih h2)

/-- The first `infoFind` hit on a window-nodup list is determined by membership. -/
theorem infoFind_eq_of_mem_nodup {l : List WindowWithInfo} {info : WindowWithInfo}
    (hnd : (l.map (fun i => i.window)).Nodup) (hm : info ∈ l) :
    infoFind l info.window = some info := by
  induction l with
  | nil => simp at hm
  | cons a t ih =>
    rcases List.mem_cons.mp hm with h1 | h2
    · rw [infoFind, if_pos (by rw [h1])]
      rw [h1]
    · have ha : a.window ≠ info.window := by
        intro he
        have : info.window ∈ t.map (fun i => i.window) :=
          List.mem_map.mpr ⟨info, h2, rfl⟩
        exact (List.nodup_cons.mp (by simpa using hnd)).1 (he ▸ this)
      rw [infoFind, if_neg ha]
      exact ih (List.nodup_cons.mp (by simpa using hnd)).2 h2

theorem mapGet_mapRemove (m : List (Window × WindowWithInfo)) (w v : Window) :
    mapGet (mapRemove m w) v = if w = v then none else mapGet m v := by
  induction m with
  | nil => simp [mapRemove, mapGet]
  | cons p t ih =>
    by_cases hp : p.1 = w
    · rw [mapRemove, if_pos hp, ih]
      by_cases hv : w = v
      · simp [hv]
      · have : ¬ p.1 = v := fun h => hv (by rw [← hp, h])
        simp [mapGet, hv, this]
    · rw [mapRemove, if_neg hp]
      by_cases hv : p.1 = v
      · have hwv : ¬ w = v := fun h => hp (by rw [h, hv])
        simp [mapGet, hv, hwv]
      · simp [mapGet, hv, ih]

theorem mapGet_mapInsert (m : List (Window × WindowWithInfo)) (w v : Window)
    (i : WindowWithInfo) :
    mapGet (mapInsert m w i) v = if w = v then some i else mapGet m v := by
  by_cases h : w = v
  · simp [mapInsert, mapGet, h]
  · simp only [mapInsert, mapGet, if_neg h]
    rw [mapGet_mapRemove, if_neg h]

/-! ## Claim C7 -/

/-- C7: on a 301×401 screen with tiles 1,2,3,4 added in that order, window 2 is laid
out at x=150, y=0, 151×133 and window 4 — the last side tile — at x=150, y=266,
151×135: its height 135 absorbs the integer-division remainder instead of being 133. -/
theorem claim_C7_irregular_screen_last_tile_height :
    scenarioB.get_window_layout.windows =
      [(1, { x := 0, y := 0, width := 150, height := 401 }),
       (2, { x := 150, y := 0, width := 151, height := 133 }),
       (3, { x := 150, y := 133, width := 151, height := 133 }),
       (4, { x := 150, y := 266, width := 151, height := 135 })] := by
  decide

/-! ## The 32-bit casts on in-range values -/

/-- Below `2^31` the cast `u32 as i32` is the numeric identity. -/
theorem u32_as_i32_eq_of_lt {n : Nat} (h : n < 2147483648) : u32_as_i32 n = (n : Int) := by
  unfold u32_as_i32
  rw [Nat.mod_eq_of_lt (by omega)]
  rw [if_pos h]

/-- Inside `i32` range, wrapping arithmetic agrees with the unbounded result. -/
theorem i32_wrap_eq_of_range {z : Int} (h1 : -2147483648 ≤ z) (h2 : z < 2147483648) :
    i32_wrap z = z := by
  unfold i32_wrap
  omega

/-- On a non-negative in-range value the cast `i32 as u32` is `Int.toNat`. -/
theorem i32_as_u32_eq_toNat {z : Int} (h1 : 0 ≤ z) (h2 : z < 4294967296) :
    i32_as_u32 z = z.toNat := by
  unfold i32_as_u32
  rw [Int.emod_eq_of_lt h1 h2]

/-! ## Claim C10 -/

/-- C10 counterexample: gap 0 is not the identity on geometries. A single tile on a
`2147483648×100` screen gets the full-width rectangle from `VerticalLayout`, but
`GapLayout` with gap 0 maps it to width 0: the source computes
`max(0, geometry.width as i32 - 0) as u32`, and `2147483648u32 as i32` is
`i32::MIN`, which the `max` floors to 0. -/
theorem claim_C10_counterexample :
    VerticalLayout.get_window_geometry 1 { width := 2147483648, height := 100 } [1] =
      Except.ok { x := 0, y := 0, width := 2147483648, height := 100 } ∧
    (GapLayout 0 VerticalLayout).get_window_geometry 1
        { width := 2147483648, height := 100 } [1] =
      Except.ok { x := 0, y := 0, width := 0, height := 100 } := by
  exact ⟨rfl, rfl⟩

/-- C10 (amended): `GapLayout` with gap 0 returns exactly the wrapped layout's
geometry whenever that geometry's coordinates fit in `i32` and its dimensions are
below `2^31` (otherwise the `u32 as i32` casts wrap); errors are forwarded verbatim
for every gap, and `get_master_window`, `swap_with_master` and `swap_windows` are
forwarded unchanged for every gap. -/
theorem claim_C10_amended (T : TilingLayoutS) (gap : Nat) (w : Window)
    (screen : Screen) (tiles : List Window) (g : Geometry)
    (hg : T.get_window_geometry w screen tiles = Except.ok g)
    (hx1 : -2147483648 ≤ g.x) (hx2 : g.x < 2147483648)
    (hy1 : -2147483648 ≤ g.y) (hy2 : g.y < 2147483648)
    (hw : g.width < 2147483648) (hh : g.height < 2147483648) :
    (GapLayout 0 T).get_window_geometry w screen tiles =
        T.get_window_geometry w screen tiles ∧
    (∀ w2 s2 t2 e, T.get_window_geometry w2 s2 t2 = Except.error e →
        (GapLayout gap T).get_window_geometry w2 s2 t2 = Except.error e) ∧
    (GapLayout gap T).get_master_window = T.get_master_window ∧
    (GapLayout gap T).swap_with_master = T.swap_with_master ∧
    (GapLayout gap T).swap_windows = T.swap_windows := by
  refine ⟨?_, ?_, rfl, rfl, rfl⟩
  · rw [hg]
    simp only [GapLayout, hg, Except.bind]
    have h20 : i32_wrap (2 * u32_as_i32 0) = 0 := rfl
    have h00 : u32_as_i32 0 = 0 := rfl
    rw [h20, h00, add_zero, add_zero, sub_zero, sub_zero,
        i32_wrap_eq_of_range hx1 hx2, i32_wrap_eq_of_range hy1 hy2,
        u32_as_i32_eq_of_lt hw, u32_as_i32_eq_of_lt hh,
        i32_wrap_eq_of_range (by omega) (by omega : (g.width : Int) < 2147483648),
        i32_wrap_eq_of_range (by omega) (by omega : (g.height : Int) < 2147483648),
        max_eq_right (by omega : (0 : Int) ≤ (g.width : Int)),
        max_eq_right (by omega : (0 : Int) ≤ (g.height : Int)),
        i32_as_u32_eq_toNat (by omega) (by omega),
        i32_as_u32_eq_toNat (by omega) (by omega)]
    simp
  · intro w2 s2 t2 e he
    simp [GapLayout, he, Except.bind]

/-- Witness for the amended C10 at `VerticalLayout`, gap 7, a `200×401` screen and
the single tile `[1]`: the hypotheses hold at the geometry `(0,0) 200×401` and gap 0
reproduces it. -/
theorem claim_C10_witness :
    VerticalLayout.get_window_geometry 1 { width := 200, height := 401 } [1] =
        Except.ok { x := 0, y := 0, width := 200, height := 401 } ∧
    (GapLayout 0 VerticalLayout).get_window_geometry 1 { width := 200, height := 401 }
        [1] =
      VerticalLayout.get_window_geometry 1 { width := 200, height := 401 } [1] := by
  refine ⟨rfl, ?_⟩
  exact (claim_C10_amended VerticalLayout 7 1 { width := 200, height := 401 } [1]
    { x := 0, y := 0, width := 200, height := 401 } rfl (by decide) (by decide)
    (by decide) (by decide) (by decide) (by decide)).1

/-! ## Claim C9 -/

/-- C9: `FullscreenWM::focus_window(Some(w))` with an unmanaged `w` while `f` is
focused returns `UnknownWindow(w)` but still mutates the state: afterwards nothing
is focused and `f` sits at the back of the window sequence — the operation is not
atomic on error. -/
theorem claim_C9_focus_window_not_atomic_on_error (wm : FullscreenWM) (f w : Window)
    (hf : wm.focused_window = some f) (hw : w ∉ wm.get_windows) :
    (wm.focus_window (some w)).1 = Except.error (StandardError.UnknownWindow w) ∧
    (wm.focus_window (some w)).2.get_focused_window = none ∧
    (wm.focus_window (some w)).2.windows = wm.windows ++ [f] := by
  have hpushed : wm.windows ++ wm.focused_window.toList = wm.windows ++ [f] := by
    rw [hf]; rfl
  have hnone : findPos (wm.windows ++ [f]) w = none := by
    rw [findPos_eq_none_iff, ← hpushed]
    simpa [FullscreenWM.get_windows] using hw
  simp [FullscreenWM.focus_window, FullscreenWM.get_focused_window, hpushed, hnone]

/-! ## Claim C1 -/

theorem geomOverlap_comm {a b : Geometry} (h : geomOverlap a b) : geomOverlap b a :=
  ⟨h.2.1, h.1, h.2.2.2, h.2.2.1⟩

/-- The stacked side-tile heights below the last one never exceed the screen
height. -/
theorem side_height_mul_le (H N : Nat) (hN : 2 ≤ N) :
    H / (N - 1) * (N - 2) ≤ H := by
  calc H / (N - 1) * (N - 2) ≤ H / (N - 1) * (N - 1) :=
        Nat.mul_le_mul_left _ (by omega)
    _ ≤ H := Nat.div_mul_le_self H (N - 1)

/-- On a duplicate-free tile list, when the screen dimensions and tile count are
small enough that no 32-bit cast or `i32` operation wraps, the geometry of the
`i`-th tile is `C1geo` at `i`. -/
theorem vertical_geometry_eq_C1geo (screen : Screen) (tiles : List Window)
    (hnd : tiles.Nodup) (i : Nat) (h : i < tiles.length)
    (hW : screen.width < 4294967296) (hH : screen.height < 2147483648)
    (hN : tiles.length < 2147483648) :
    VerticalLayoutDef.get_window_geometry (tiles.get ⟨i, h⟩) screen tiles =
      Except.ok (C1geo screen tiles.length i) := by
  unfold VerticalLayoutDef.get_window_geometry C1geo
  rw [findPos_get_of_nodup tiles hnd i h]
  by_cases h0 : i = 0
  · subst h0
    simp
  · have hN2 : 2 ≤ tiles.length := by omega
    have hside_le : screen.height / (tiles.length - 1) ≤ screen.height :=
      Nat.div_le_self _ _
    have hsm : screen.height / (tiles.length - 1) * (tiles.length - 2) ≤ screen.height :=
      side_height_mul_le screen.height tiles.length hN2
    have him : i - 1 ≤ tiles.length - 2 := by omega
    have hym : (i - 1) * (screen.height / (tiles.length - 1)) ≤ screen.height :=
      le_trans (Nat.mul_le_mul_right _ him)
        (by rw [Nat.mul_comm]; exact hsm)
    have hx : u32_as_i32 (screen.width / 2) = ((screen.width / 2 : Nat) : Int) :=
      u32_as_i32_eq_of_lt (by omega)
    have hui : u32_as_i32 i = (i : Int) := u32_as_i32_eq_of_lt (by omega)
    have hus : u32_as_i32 (screen.height / (tiles.length - 1)) =
        ((screen.height / (tiles.length - 1) : Nat) : Int) :=
      u32_as_i32_eq_of_lt (by omega)
    have hw1 : i32_wrap ((i : Int) - 1) = (i : Int) - 1 :=
      i32_wrap_eq_of_range (by omega) (by omega)
    have hcast : ((i : Int) - 1) * ((screen.height / (tiles.length - 1) : Nat) : Int) =
        (((i - 1) * (screen.height / (tiles.length - 1)) : Nat) : Int) := by
      push_cast
      rw [Nat.cast_sub (by omega : 1 ≤ i)]
      push_cast
      ring
    have hwy : i32_wrap (((i : Int) - 1) *
        ((screen.height / (tiles.length - 1) : Nat) : Int)) =
        ((i : Int) - 1) * ((screen.height / (tiles.length - 1) : Nat) : Int) := by
      rw [hcast]
      exact i32_wrap_eq_of_range (by omega) (by omega)
    simp only [show tiles.length > 1 from by omega, if_true, h0, if_false,
      show ¬ tiles.length ≤ 1 from by omega, hui, hus, hw1, hwy, hx]
    by_cases hl : i = tiles.length - 1
    · have hul : u32_as_i32 (tiles.length - 1) = ((tiles.length - 1 : Nat) : Int) :=
        u32_as_i32_eq_of_lt (by omega)
      have hsub : ((tiles.length - 1 : Nat) : Int) - 1 = ((tiles.length - 2 : Nat) : Int) := by
        omega
      have hwl : i32_wrap (((tiles.length - 1 : Nat) : Int) - 1) =
          ((tiles.length - 1 : Nat) : Int) - 1 :=
        i32_wrap_eq_of_range (by omega) (by omega)
      have huH : u32_as_i32 screen.height = (screen.height : Int) :=
        u32_as_i32_eq_of_lt hH
      have hcast2 : ((screen.height / (tiles.length - 1) : Nat) : Int) *
          ((tiles.length - 2 : Nat) : Int) =
          ((screen.height / (tiles.length - 1) * (tiles.length - 2) : Nat) : Int) := by
        push_cast; ring
      have hwm : i32_wrap (((screen.height / (tiles.length - 1) : Nat) : Int) *
          (((tiles.length - 1 : Nat) : Int) - 1)) =
          ((screen.height / (tiles.length - 1) : Nat) : Int) *
            (((tiles.length - 1 : Nat) : Int) - 1) := by
        rw [hsub, hcast2]
        exact i32_wrap_eq_of_range (by omega) (by omega)
      have hwd : i32_wrap ((screen.height : Int) -
          ((screen.height / (tiles.length - 1) : Nat) : Int) *
            (((tiles.length - 1 : Nat) : Int) - 1)) =
          (screen.height : Int) -
            ((screen.height / (tiles.length - 1) : Nat) : Int) *
              (((tiles.length - 1 : Nat) : Int) - 1) := by
        rw [hsub, hcast2]
        exact i32_wrap_eq_of_range (by omega) (by omega)
      have hconv : i32_as_u32 ((screen.height : Int) -
          ((screen.height / (tiles.length - 1) : Nat) : Int) *
            (((tiles.length - 1 : Nat) : Int) - 1)) =
          ((screen.height : Int) -
            ((screen.height / (tiles.length - 1) : Nat) : Int) *
              (((tiles.length - 1 : Nat) : Int) - 1)).toNat := by
        rw [hsub, hcast2]
        exact i32_as_u32_eq_toNat (by omega) (by omega)
      simp only [hl, if_true, ite_not, eq_self_iff_true, not_true, if_false,
        hul, hwl, hus, huH, hwm, hwd, hconv]
    · simp only [hl, if_false, ite_not, not_false_eq_true, if_true]

theorem C1geo_master (screen : Screen) (N : Nat) (hN : 1 ≤ N) :
    C1geo screen N 0 =
      { x := 0, y := 0,
        width := if N = 1 then screen.width else screen.width / 2,
        height := screen.height } := by
  unfold C1geo
  by_cases h1 : N = 1
  · simp [h1]
  · have : ¬ N ≤ 1 := by omega
    simp [h1, this]

theorem C1geo_side (screen : Screen) (N i : Nat) (hN : 2 ≤ N) (h0 : 0 < i)
    (hi : i < N) :
    C1geo screen N i =
      { x := (screen.width / 2 : Nat),
        y := ((i : Int) - 1) * ((screen.height / (N - 1) : Nat) : Int),
        width := screen.width - screen.width / 2,
        height := if i < N - 1
                  then screen.height / (N - 1)
                  else screen.height - screen.height / (N - 1) * (N - 2) } := by
  have hle : ¬ N ≤ 1 := by omega
  have hgt : N > 1 := by omega
  unfold C1geo
  rw [if_neg (by omega : ¬ i = 0)]
  simp only [if_neg hle, if_pos hgt]
  by_cases hlast : i = N - 1
  · rw [if_neg (by omega : ¬ i ≠ N - 1), if_neg (by omega : ¬ i < N - 1)]
    congr 1
    have hmul : screen.height / (N - 1) * (N - 2) ≤ screen.height :=
      side_height_mul_le screen.height N hN
    have hcast : ((N - 1 : Nat) : Int) - 1 = ((N - 2 : Nat) : Int) := by omega
    rw [hcast, ← Nat.cast_mul]
    omega
  · rw [if_pos (by omega : i ≠ N - 1), if_pos (by omega : i < N - 1)]

theorem C1geo_area_sum (screen : Screen) (N : Nat) (hN : 1 ≤ N) :
    (Finset.range N).sum
        (fun i => (C1geo screen N i).width * (C1geo screen N i).height)
      = screen.width * screen.height := by
  rcases Nat.lt_or_ge N 2 with h1 | h2
  · have hN1 : N = 1 := by omega
    subst hN1
    simp [C1geo_master screen 1 (by omega)]
  · -- N ≥ 2: split the master off, then the last side tile off
    obtain ⟨K, rfl⟩ : ∃ K, N = K + 1 := ⟨N - 1, by omega⟩
    have hK : 1 ≤ K := by omega
    set W := screen.width with hW
    set H := screen.height with hH
    set s := H / K with hs
    have hKsub : K + 1 - 1 = K := by omega
    have hside : ∀ i, 0 < i → i < K + 1 →
        (C1geo screen (K + 1) i).width * (C1geo screen (K + 1) i).height =
          (W - W / 2) * (if i < K then s else H - s * (K - 1)) := by
      intro i h0 hi
      rw [C1geo_side screen (K + 1) i h2 h0 hi]
      simp only [hKsub, show K + 1 - 2 = K - 1 from by omega]
    rw [Finset.sum_range_succ']
    have hzero : (C1geo screen (K + 1) 0).width * (C1geo screen (K + 1) 0).height =
        W / 2 * H := by
      simp [C1geo_master screen (K + 1) (by omega), show ¬ (K + 1 = 1) from by omega]
    rw [hzero]
    obtain ⟨J, rfl⟩ : ∃ J, K = J + 1 := ⟨K - 1, by omega⟩
    rw [Finset.sum_range_succ]
    have hlast : (C1geo screen (J + 1 + 1) (J + 1)).width *
        (C1geo screen (J + 1 + 1) (J + 1)).height =
          (W - W / 2) * (H - s * J) := by
      rw [hside (J + 1) (by omega) (by omega)]
      simp [show ¬ (J + 1 < J + 1) from by omega]
    have hmid : ∀ i ∈ Finset.range J,
        (C1geo screen (J + 1 + 1) (i + 1)).width *
          (C1geo screen (J + 1 + 1) (i + 1)).height = (W - W / 2) * s := by
      intro i hi
      have hiJ : i < J := Finset.mem_range.mp hi
      rw [hside (i + 1) (by omega) (by omega : i + 1 < J + 1 + 1)]
      simp [show i + 1 < J + 1 from by omega]
    rw [Finset.sum_congr rfl hmid, hlast, Finset.sum_const, Finset.card_range, smul_eq_mul]
    -- arithmetic: J * ((W - W/2) * s) + (W - W/2) * (H - s * J) + W/2 * H = W * H
    have hbound : s * J ≤ H := by
      have := side_height_mul_le H (J + 1 + 1) (by omega)
      simpa [hs, hKsub] using this
    have hWhalf : W / 2 ≤ W := Nat.div_le_self W 2
    calc J * ((W - W / 2) * s) + (W - W / 2) * (H - s * J) + W / 2 * H
        = (W - W / 2) * (s * J) + (W - W / 2) * (H - s * J) + W / 2 * H := by ring_nf
      _ = (W - W / 2) * (s * J + (H - s * J)) + W / 2 * H := by rw [Nat.mul_add]
      _ = (W - W / 2) * H + W / 2 * H := by rw [Nat.add_sub_cancel' hbound]
      _ = (W - W / 2 + W / 2) * H := by rw [Nat.add_mul]
      _ = W * H := by rw [Nat.sub_add_cancel hWhalf]

theorem C1geo_no_overlap_lt (screen : Screen) (N i j : Nat) (hij : i < j)
    (hj : j < N) : ¬ geomOverlap (C1geo screen N i) (C1geo screen N j) := by
  intro hov
  have hN2 : 2 ≤ N := by omega
  have hjside := C1geo_side screen N j hN2 (by omega) hj
  rcases Nat.eq_zero_or_pos i with h0 | hpos
  · -- master vs side tile: the x-extents do not intersect
    subst h0
    have hmaster := C1geo_master screen N (by omega)
    have hx := hov.2.1
    rw [hmaster, hjside] at hx
    simp only [if_neg (by omega : ¬ N = 1)] at hx
    omega
  · -- two side tiles: the y-extents do not intersect
    have hiside := C1geo_side screen N i hN2 hpos (by omega)
    have hy := hov.2.2.2
    rw [hiside, hjside] at hy
    simp only at hy
    rw [if_pos (by omega : i < N - 1)] at hy
    set s := screen.height / (N - 1) with hs
    have hcontra : ((i : Int) - 1) * (s : Int) + (s : Int) ≤ ((j : Int) - 1) * (s : Int) := by
      have h1 : ((i : Int) - 1) * (s : Int) + (s : Int) = (i : Int) * (s : Int) := by ring
      rw [h1]
      exact mul_le_mul_of_nonneg_right (by omega) (Int.natCast_nonneg s)
    exact absurd hy (not_lt.mpr hcontra)

/-- C1 counterexample: the claimed side-tile stacking fails once the `i32`
arithmetic wraps. On a `200×4294967295` screen with tiles `[1,2,3,4]`, the side
tile height is `4294967295/3 = 1431655765` and window 4's `y` should be
`2·1431655765 = 2863311530` for the tiles to stack and partition the screen, but
that product overflows `i32`: the program yields `y = -1431655766` (a debug build
panics), so window 4's rectangle lies outside the screen and the partition fails. -/
theorem claim_C1_counterexample :
    VerticalLayout.get_window_geometry 4 { width := 200, height := 4294967295 }
        [1, 2, 3, 4] =
      Except.ok { x := 100, y := -1431655766, width := 100, height := 1431655765 } ∧
    C1geo { width := 200, height := 4294967295 } 4 3 =
      { x := 100, y := 2863311530, width := 100, height := 1431655765 } ∧
    ((-1431655766 : Int) ≠ 2863311530) := by
  exact ⟨rfl, rfl, by decide⟩

/-- C1 (amended): for every screen `W×H` with `W < 2^32` and `H < 2^31` and every
duplicate-free non-empty tile sequence of `N < 2^31` windows — the range in which
none of the source's 32-bit casts or `i32` operations wraps —
`VerticalLayout::get_window_geometry` (gap 0) gives: the master (position 0)
`x=0, y=0`, width `W/2` (full `W` when `N=1`), height `H`; every side tile `x=W/2`,
width `W - W/2`, stacked heights `H/(N-1)` with the last side tile absorbing the
integer-division remainder; the geometries are pairwise non-overlapping and their
areas sum exactly to `W×H`. -/
theorem claim_C1_amended (screen : Screen) (tiles : List Window)
    (hne : tiles ≠ []) (hnd : tiles.Nodup)
    (hW : screen.width < 4294967296) (hH : screen.height < 2147483648)
    (hN' : tiles.length < 2147483648) :
    (∀ i (h : i < tiles.length),
        VerticalLayout.get_window_geometry (tiles.get ⟨i, h⟩) screen tiles =
          Except.ok (C1geo screen tiles.length i)) ∧
    C1geo screen tiles.length 0 =
      { x := 0, y := 0,
        width := if tiles.length = 1 then screen.width else screen.width / 2,
        height := screen.height } ∧
    (∀ i, 0 < i → i < tiles.length →
        C1geo screen tiles.length i =
          { x := (screen.width / 2 : Nat),
            y := ((i : Int) - 1) * ((screen.height / (tiles.length - 1) : Nat) : Int),
            width := screen.width - screen.width / 2,
            height := if i < tiles.length - 1
                      then screen.height / (tiles.length - 1)
                      else screen.height -
                        screen.height / (tiles.length - 1) * (tiles.length - 2) }) ∧
    (Finset.range tiles.length).sum
        (fun i => (C1geo screen tiles.length i).width *
          (C1geo screen tiles.length i).height)
      = screen.width * screen.height ∧
    (∀ i j, i < tiles.length → j < tiles.length → i ≠ j →
        ¬ geomOverlap (C1geo screen tiles.length i) (C1geo screen tiles.length j)) := by
  have hN : 1 ≤ tiles.length := by
    cases tiles with
    | nil => exact absurd rfl hne
    | cons a t => simp
  refine ⟨fun i h => vertical_geometry_eq_C1geo screen tiles hnd i h hW hH hN',
    C1geo_master screen tiles.length hN,
    fun i h0 hi => C1geo_side screen tiles.length i (by omega) h0 hi,
    C1geo_area_sum screen tiles.length hN, ?_⟩
  intro i j hi hj hne2
  rcases Nat.lt_or_ge i j with h | h
  · exact C1geo_no_overlap_lt screen tiles.length i j h hj
  · have hji : j < i := by omega
    intro hov
    exact C1geo_no_overlap_lt screen tiles.length j i hji hi (geomOverlap_comm hov)

/-- Witness for the amended C1 at screen 301×401, tiles `[1,2,3,4]`: all hypotheses
hold and the computed areas sum to `301*401`. -/
theorem claim_C1_witness :
    ([1, 2, 3, 4] : List Window) ≠ [] ∧ ([1, 2, 3, 4] : List Window).Nodup ∧
    301 < 4294967296 ∧ 401 < 2147483648 ∧ 4 < 2147483648 ∧
    (Finset.range 4).sum
        (fun i => (C1geo { width := 301, height := 401 } 4 i).width *
          (C1geo { width := 301, height := 401 } 4 i).height) = 301 * 401 := by
  refine ⟨by decide, by decide, by decide, by decide, by decide, ?_⟩
  have h := claim_C1_amended { width := 301, height := 401 }
    [1, 2, 3, 4] (by decide) (by decide) (by decide) (by decide) (by decide)
  exact h.2.2.2.1

/-! ## Effect lemmas for `FocusManager` operations -/

namespace FocusManager

theorem focused_mem {fm : FocusManager} {v : Window} (h : fm.focused_window = some v) :
    v ∈ fm.get_windows := by
  simp [get_windows, h]

theorem fm_add_ok {fm : FocusManager} {info : WindowWithInfo}
    (h : info.window ∉ fm.get_windows) :
    fm.add_window info =
      (Except.ok (), { windows := fm.get_windows, focused_window := some info.window }) := by
  have : fm.is_managed info.window = false := by
    simp [is_managed]
    exact h
  simp [add_window, this, get_windows]

theorem fm_add_err {fm : FocusManager} {info : WindowWithInfo}
    (h : info.window ∈ fm.get_windows) :
    fm.add_window info = (Except.error (StandardError.AlReadyManagedWindow info.window), fm) := by
  have : fm.is_managed info.window = true := by
    simp [is_managed]
    exact h
  simp [add_window, this]

theorem fm_add_ok_get_windows {fm : FocusManager} {info : WindowWithInfo}
    (h : info.window ∉ fm.get_windows) :
    (fm.add_window info).2.get_windows = fm.get_windows ++ [info.window] := by
  rw [fm_add_ok h]
  simp [get_windows]

theorem fm_remove_ok {fm : FocusManager} {w : Window} (hnd : fm.get_windows.Nodup)
    (h : w ∈ fm.get_windows) :
    (fm.remove_window w).1 = Except.ok () ∧
    (fm.remove_window w).2.get_windows = fm.get_windows.erase w := by
  by_cases hf : fm.focused_window = some w
  · rw [remove_window, if_pos hf]
    refine ⟨rfl, ?_⟩
    have hgw : fm.get_windows = fm.windows ++ [w] := by simp [get_windows, hf]
    have hwin : w ∉ fm.windows := by
      intro hmem
      rw [hgw] at hnd
      exact (List.disjoint_of_nodup_append hnd) hmem (by simp)
    have h1 : fm.get_windows.erase w = fm.windows := by
      rw [hgw, List.erase_append_right _ hwin]
      simp
    rw [h1]
    simp only [get_windows]
    by_cases hne : fm.windows = []
    · simp [hne]
    · rw [List.getLast?_eq_getLast _ hne]
      simp only [Option.toList_some]
      exact List.dropLast_append_getLast hne
  · have hw : w ∈ fm.windows := by
      have hmem : w ∈ fm.windows ++ fm.focused_window.toList := by
        have := h
        simp only [get_windows] at this
        exact this
      rcases List.mem_append.mp hmem with h1 | h1
      · exact h1
      · exfalso
        cases hfv : fm.focused_window with
        | none => rw [hfv] at h1; simp at h1
        | some v =>
          rw [hfv] at h1
          simp only [Option.toList_some, List.mem_singleton] at h1
          exact hf (by rw [hfv, h1])
    obtain ⟨i, hi⟩ := findPos_isSome_of_mem hw
    rw [remove_window, if_neg hf, hi]
    refine ⟨rfl, ?_⟩
    simp only [get_windows]
    rw [List.erase_append_left _ hw]

theorem fm_remove_err {fm : FocusManager} {w : Window} (h : w ∉ fm.get_windows) :
    fm.remove_window w = (Except.error (StandardError.UnknownWindow w), fm) := by
  have hf : ¬ fm.focused_window = some w := by
    intro hfv
    exact h (focused_mem hfv)
  have hw : w ∉ fm.windows := by
    intro hmem
    exact h (by simp [get_windows, hmem])
  rw [remove_window, if_neg hf, (findPos_eq_none_iff _ _).mpr hw]

theorem focus_some_ok {fm : FocusManager} {w : Window} (h : w ∈ fm.get_windows) :
    (fm.focus_window (some w)).1 = Except.ok () ∧
    (fm.focus_window (some w)).2.focused_window = some w ∧
    (fm.focus_window (some w)).2.get_windows.Perm fm.get_windows := by
  have hp : w ∈ fm.windows ++ fm.focused_window.toList := by
    have := h
    simp only [get_windows] at this
    exact this
  obtain ⟨i, hi⟩ := findPos_isSome_of_mem hp
  simp only [focus_window, hi]
  refine ⟨trivial, trivial, ?_⟩
  simp only [get_windows]
  have h1 : List.Perm ((fm.windows ++ fm.focused_window.toList).erase w ++ [w])
      (w :: (fm.windows ++ fm.focused_window.toList).erase w) :=
    List.perm_append_singleton w _
  exact h1.trans (List.perm_cons_erase hp).symm

theorem focus_some_err {fm : FocusManager} {w : Window} (h : w ∉ fm.get_windows) :
    fm.focus_window (some w) =
      (Except.error (StandardError.UnknownWindow w),
        { windows := fm.get_windows, focused_window := none }) := by
  have hp : w ∉ fm.windows ++ fm.focused_window.toList := by
    intro hmem
    exact h (by simpa only [get_windows] using hmem)
  simp only [focus_window, (findPos_eq_none_iff _ _).mpr hp]
  rfl

theorem focus_none_eq {fm : FocusManager} :
    fm.focus_window none =
      (Except.ok (), { windows := fm.get_windows, focused_window := none }) := by
  simp only [focus_window]
  rfl

theorem focus_get_windows_perm (fm : FocusManager) (w : Option Window) :
    (fm.focus_window w).2.get_windows.Perm fm.get_windows := by
  cases w with
  | none =>
    rw [focus_none_eq]
    simp [get_windows]
  | some v =>
    by_cases h : v ∈ fm.get_windows
    · exact (focus_some_ok h).2.2
    · rw [focus_some_err h]
      simp [get_windows]

theorem cycle_get_windows_perm (fm : FocusManager) (dir : PrevOrNext) :
    (fm.cycle_focus dir).get_windows.Perm fm.get_windows := by
  cases dir with
  | Next =>
    simp only [cycle_focus, get_windows]
    cases hp : fm.windows ++ fm.focused_window.toList with
    | nil => simp
    | cons a t =>
      simp only [List.tail_cons, List.head?_cons, Option.toList_some]
      exact List.perm_append_singleton a t
  | Prev =>
    simp only [cycle_focus, get_windows]
    by_cases hne : fm.focused_window.toList ++ fm.windows = []
    · rcases List.append_eq_nil.mp hne with ⟨h1, h2⟩
      simp [h1, h2]
    · rw [List.getLast?_eq_getLast _ hne]
      simp only [Option.toList_some]
      rw [List.dropLast_append_getLast hne]
      exact List.perm_append_comm

theorem cycle_focused_mem (fm : FocusManager) (dir : PrevOrNext) {v : Window}
    (h : (fm.cycle_focus dir).focused_window = some v) : v ∈ fm.get_windows := by
  have hp := cycle_get_windows_perm fm dir
  exact hp.subset (focused_mem h)

end FocusManager

/-! ## Effect lemmas for `TileManager`, `FloatManager`, `MinimiseAssistantManager` -/

namespace TileManager

theorem tm_is_managed_true {tm : TileManager} {w : Window} (h : w ∈ tm.tiles) :
    tm.is_managed w = true := by
  simpa [is_managed, get_windows] using List.elem_iff.mpr h

theorem tm_is_managed_false {tm : TileManager} {w : Window} (h : w ∉ tm.tiles) :
    tm.is_managed w = false := by
  simp only [is_managed, get_windows]
  simpa [List.elem_iff] using h

theorem tm_add_ok {tm : TileManager} {info : WindowWithInfo} (h : info.window ∉ tm.tiles) :
    tm.add_window info =
      (Except.ok (),
        { tm with tiles := tm.tiles ++ [info.window],
                  originals := mapInsert tm.originals info.window info }) := by
  simp [add_window, tm_is_managed_false h]

theorem tm_add_err {tm : TileManager} {info : WindowWithInfo} (h : info.window ∈ tm.tiles) :
    tm.add_window info =
      (Except.error (StandardError.AlReadyManagedWindow info.window), tm) := by
  simp [add_window, tm_is_managed_true h]

theorem tm_remove_ok {tm : TileManager} {w : Window} (h : w ∈ tm.tiles) :
    tm.remove_window w =
      (Except.ok (),
        { tm with tiles := tm.tiles.erase w, originals := mapRemove tm.originals w }) := by
  obtain ⟨i, hi⟩ := findPos_isSome_of_mem h
  simp [remove_window, hi, eraseIdx_of_findPos hi]

theorem tm_remove_err {tm : TileManager} {w : Window} (h : w ∉ tm.tiles) :
    tm.remove_window w = (Except.error (StandardError.UnknownWindow w), tm) := by
  simp [remove_window, (findPos_eq_none_iff _ _).mpr h]

end TileManager

namespace FloatManager

theorem mem_get_windows {fl : FloatManager} {w : Window} :
    w ∈ fl.get_windows ↔ ∃ info ∈ fl.floaters, info.window = w := by
  simp [get_windows]

theorem fl_is_managed_true {fl : FloatManager} {w : Window} (h : w ∈ fl.get_windows) :
    fl.is_managed w = true := by
  simpa [is_managed] using List.elem_iff.mpr h

theorem fl_is_managed_false {fl : FloatManager} {w : Window} (h : w ∉ fl.get_windows) :
    fl.is_managed w = false := by
  simp only [is_managed]
  simpa [List.elem_iff] using h

theorem fl_add_ok {fl : FloatManager} {info : WindowWithInfo}
    (h : info.window ∉ fl.get_windows) :
    fl.add_window info = (Except.ok (), { fl with floaters := fl.floaters ++ [info] }) := by
  simp [add_window, h]

theorem fl_add_err {fl : FloatManager} {info : WindowWithInfo}
    (h : info.window ∈ fl.get_windows) :
    fl.add_window info =
      (Except.error (FloatWMError.AlReadyManagedWindow info.window), fl) := by
  simp [add_window, h]

theorem fl_add_get_windows {fl : FloatManager} {info : WindowWithInfo}
    (h : info.window ∉ fl.get_windows) :
    ((fl.add_window info).2).get_windows = fl.get_windows ++ [info.window] := by
  rw [fl_add_ok h]
  simp [get_windows]

theorem fl_remove_ok {fl : FloatManager} {w : Window} (h : w ∈ fl.get_windows) :
    ∃ i, infoFindPos fl.floaters w = some i ∧
      fl.remove_window w = (Except.ok (), { fl with floaters := fl.floaters.eraseIdx i }) ∧
      ((fl.remove_window w).2).get_windows = fl.get_windows.erase w := by
  cases hfp : infoFindPos fl.floaters w with
  | none =>
    exact absurd (by simpa [get_windows] using h)
      ((infoFindPos_eq_none_iff fl.floaters w).mp hfp)
  | some i =>
    refine ⟨i, rfl, by simp [remove_window, hfp], ?_⟩
    simp only [remove_window, hfp, get_windows]
    exact infoEraseIdx_map_of_findPos hfp

theorem fl_remove_err {fl : FloatManager} {w : Window} (h : w ∉ fl.get_windows) :
    fl.remove_window w = (Except.error (FloatWMError.UnknownWindow w), fl) := by
  have : infoFindPos fl.floaters w = none :=
    (infoFindPos_eq_none_iff fl.floaters w).mpr (by simpa [get_windows] using h)
  simp [remove_window, this]

theorem fl_get_window_info_ok {fl : FloatManager} {w : Window} (h : w ∈ fl.get_windows) :
    ∃ info, infoFind fl.floaters w = some info ∧
      fl.get_window_info w = Except.ok info ∧ info ∈ fl.floaters ∧ info.window = w := by
  obtain ⟨info, hinfo⟩ := infoFind_isSome_of_mem (by simpa [get_windows] using h)
  obtain ⟨hmem, hwin⟩ := infoFind_some hinfo
  exact ⟨info, hinfo, by simp [get_window_info, hinfo], hmem, hwin⟩

theorem fl_get_window_info_err {fl : FloatManager} {w : Window} (h : w ∉ fl.get_windows) :
    fl.get_window_info w = Except.error (FloatWMError.UnknownWindow w) := by
  have : infoFind fl.floaters w = none :=
    (infoFind_eq_none_iff fl.floaters w).mpr (by simpa [get_windows] using h)
  simp [get_window_info, this]

end FloatManager

namespace MinimiseAssistantManager

theorem ma_is_managed_true {ma : MinimiseAssistantManager} {w : Window}
    (h : w ∈ ma.get_windows) : ma.is_managed w = true := by
  simpa [is_managed] using List.elem_iff.mpr h

theorem ma_is_managed_false {ma : MinimiseAssistantManager} {w : Window}
    (h : w ∉ ma.get_windows) : ma.is_managed w = false := by
  simp only [is_managed]
  simpa [List.elem_iff] using h

theorem ma_add_ok {ma : MinimiseAssistantManager} {info : WindowWithInfo}
    (h : info.window ∉ ma.get_windows) :
    ma.add_window info = (Except.ok (), { minis := ma.minis ++ [info] }) := by
  simp [add_window, ma_is_managed_false h]

theorem ma_add_get_windows {ma : MinimiseAssistantManager} {info : WindowWithInfo}
    (h : info.window ∉ ma.get_windows) :
    ((ma.add_window info).2).get_windows = ma.get_windows ++ [info.window] := by
  rw [ma_add_ok h]
  simp [get_windows]

theorem ma_remove_ok {ma : MinimiseAssistantManager} {w : Window} (h : w ∈ ma.get_windows) :
    ∃ i, infoFindPos ma.minis w = some i ∧
      ma.remove_window w = (Except.ok (), { minis := ma.minis.eraseIdx i }) ∧
      ((ma.remove_window w).2).get_windows = ma.get_windows.erase w := by
  cases hfp : infoFindPos ma.minis w with
  | none =>
    exact absurd (by simpa [get_windows] using h)
      ((infoFindPos_eq_none_iff ma.minis w).mp hfp)
  | some i =>
    refine ⟨i, rfl, by simp [remove_window, hfp], ?_⟩
    simp only [remove_window, hfp, get_windows]
    exact infoEraseIdx_map_of_findPos hfp

theorem ma_remove_err {ma : MinimiseAssistantManager} {w : Window} (h : w ∉ ma.get_windows) :
    ma.remove_window w = (Except.error (FloatWMError.UnknownWindow w), ma) := by
  have : infoFindPos ma.minis w = none :=
    (infoFindPos_eq_none_iff ma.minis w).mpr (by simpa [get_windows] using h)
  simp [remove_window, this]

theorem ma_get_window_info_ok {ma : MinimiseAssistantManager} {w : Window}
    (h : w ∈ ma.get_windows) :
    ∃ info, infoFind ma.minis w = some info ∧
      ma.get_window_info w = Except.ok info ∧ info ∈ ma.minis ∧ info.window = w := by
  obtain ⟨info, hinfo⟩ := infoFind_isSome_of_mem (by simpa [get_windows] using h)
  obtain ⟨hmem, hwin⟩ := infoFind_some hinfo
  exact ⟨info, hinfo, by simp [get_window_info, hinfo], hmem, hwin⟩

theorem ma_get_window_info_err {ma : MinimiseAssistantManager} {w : Window}
    (h : w ∉ ma.get_windows) :
    ma.get_window_info w = Except.error (FloatWMError.UnknownWindow w) := by
  have : infoFind ma.minis w = none :=
    (infoFind_eq_none_iff ma.minis w).mpr (by simpa [get_windows] using h)
  simp [get_window_info, this]

end MinimiseAssistantManager

/-! ## Permutation lemmas for the deque swap operations -/

theorem findPos_some_get {l : List Window} {w : Window} {i : Nat}
    (h : findPos l w = some i) : ∃ hi : i < l.length, l.get ⟨i, hi⟩ = w := by
  induction l generalizing i with
  | nil => simp [findPos] at h
  | cons a t ih =>
    rw [findPos_cons] at h
    by_cases ha : a = w
    · rw [if_pos ha, Option.some_inj] at h
      subst h
      exact ⟨by simp, ha⟩
    · rw [if_neg ha, Option.map_eq_some'] at h
      rcases h with ⟨j, hj, rfl⟩
      obtain ⟨hjl, hget⟩ := ih hj
      exact ⟨by simpa using Nat.succ_lt_succ hjl, by simpa using hget⟩

theorem cons_set_perm (l : List Window) (i : Nat) (hi : i < l.length) (b : Window) :
    ((l.get ⟨i, hi⟩) :: l.set i b).Perm (b :: l) := by
  rw [List.perm_iff_count]
  intro x
  have hmem : l[i] ∈ l := List.getElem_mem hi
  rw [List.count_cons, List.count_cons, List.count_set _ _ _ _ hi]
  simp only [List.get_eq_getElem]
  have hcnt : l[i] = x → 1 ≤ List.count x l := fun he =>
    List.count_pos_iff.mpr (he ▸ hmem)
  by_cases h1 : l[i] = x
  · have hge := hcnt h1
    by_cases h2 : b = x <;> simp [h1, h2] <;> try omega
  · by_cases h2 : b = x <;> simp [h1, h2] <;> try omega

theorem listSwap_perm (l : List Window) (i j : Nat) : (listSwap l i j).Perm l := by
  unfold listSwap
  cases hgi : l.get? i with
  | none => exact List.Perm.refl l
  | some a =>
    cases hgj : l.get? j with
    | none => exact List.Perm.refl l
    | some b =>
      obtain ⟨hi, hai⟩ := List.get?_eq_some.mp hgi
      obtain ⟨hj, hbj⟩ := List.get?_eq_some.mp hgj
      simp only [List.get_eq_getElem] at hai hbj
      rw [List.perm_iff_count]
      intro x
      have hj2 : j < (l.set i b).length := by simpa using hj
      rw [List.count_set _ _ _ _ hj2, List.count_set _ _ _ _ hi]
      have hset : (l.set i b)[j] = if i = j then b else l[j] := List.getElem_set hj2
      have hmema : a ∈ l := hai ▸ List.getElem_mem hi
      have hmemb : b ∈ l := hbj ▸ List.getElem_mem hj
      have hca : a = x → 1 ≤ List.count x l := fun he =>
        List.count_pos_iff.mpr (he ▸ hmema)
      have hcb : b = x → 1 ≤ List.count x l := fun he =>
        List.count_pos_iff.mpr (he ▸ hmemb)
      rw [hset]
      by_cases hij : i = j
      · subst hij
        rw [if_pos rfl, hai]
        have hab : a = b := by rw [← hai, ← hbj]
        subst hab
        by_cases h1 : a = x
        · have hge := hca h1
          simp [h1]
          try omega
        · simp [h1]
      · rw [if_neg hij, hai, hbj]
        by_cases h1 : a = x <;> by_cases h2 : b = x
        · have hge := hca h1
          simp [h1, h2]
          try omega
        · have hge := hca h1
          simp [h1, h2]
          try omega
        · have hge := hcb h2
          simp [h1, h2]
          try omega
        · simp [h1, h2]

theorem vertical_swap_with_master_ok {l : List Window} {w : Window} (hne : l ≠ [])
    (hw : w ∈ l) :
    ∃ l2, VerticalLayoutDef.swap_with_master w l = Except.ok l2 ∧
      l2.Perm l ∧ l2.head? = some w := by
  obtain ⟨i, hi⟩ := findPos_isSome_of_mem hw
  obtain ⟨hil, hget⟩ := findPos_some_get hi
  have hmaster : ∃ m, VerticalLayoutDef.get_master_window l = some m := by
    cases l with
    | nil => exact absurd rfl hne
    | cons h t => exact ⟨h, rfl⟩
  obtain ⟨m, hm⟩ := hmaster
  refine ⟨w :: swapRemoveFront l i, ?_, ?_, rfl⟩
  · rw [VerticalLayoutDef.swap_with_master, hm, hi]
  · cases l with
    | nil => exact absurd rfl hne
    | cons h t =>
      cases i with
      | zero =>
        simp only [swapRemoveFront]
        have hwh : w = h := by simpa using hget.symm
        subst hwh
        exact List.Perm.refl _
      | succ j =>
        have hjt : j < t.length := by simpa using hil
        have hwj : t.get ⟨j, hjt⟩ = w := by simpa using hget
        simp only [swapRemoveFront]
        have hperm := cons_set_perm t j hjt h
        rw [hwj] at hperm
        exact hperm.trans (List.Perm.refl _)

theorem vertical_swap_with_master_err_absent {l : List Window} {w : Window}
    (hw : w ∉ l) :
    VerticalLayoutDef.swap_with_master w l =
      Except.error (StandardError.UnknownWindow w) := by
  cases l with
  | nil => rfl
  | cons h t =>
    rw [VerticalLayoutDef.swap_with_master]
    simp only [VerticalLayoutDef.get_master_window, List.head?_cons]
    rw [(findPos_eq_none_iff _ _).mpr hw]

theorem vertical_swap_windows_perm (w : Window) (dir : PrevOrNext) (l : List Window) :
    (VerticalLayoutDef.swap_windows w dir l).Perm l := by
  rw [VerticalLayoutDef.swap_windows]
  cases hfp : findPos l w with
  | none => exact List.Perm.refl l
  | some i => exact listSwap_perm l i _

/-! ## More `FloatManager` spec lemmas -/

theorem setGeomAt_map_window (l : List WindowWithInfo) (i : Nat) (g : Geometry) :
    (setGeomAt l i g).map (fun j => j.window) = l.map (fun j => j.window) := by
  induction l generalizing i with
  | nil => rfl
  | cons a t ih =>
    cases i with
    | zero => simp [setGeomAt]
    | succ j => simp [setGeomAt, ih j]

theorem infoFind_setGeomAt {l : List WindowWithInfo} {w : Window} {i : Nat}
    (h : infoFindPos l w = some i) (g : Geometry) :
    ∃ info, infoFind l w = some info ∧
      infoFind (setGeomAt l i g) w = some { info with geometry := g } := by
  induction l generalizing i with
  | nil => simp [infoFindPos] at h
  | cons a t ih =>
    rw [infoFindPos_cons] at h
    by_cases ha : a.window = w
    · rw [if_pos ha, Option.some_inj] at h
      subst h
      refine ⟨a, by simp [infoFind, ha], ?_⟩
      simp [setGeomAt, infoFind, ha]
    · rw [if_neg ha, Option.map_eq_some'] at h
      rcases h with ⟨j, hj, rfl⟩
      obtain ⟨info, h1, h2⟩ := ih hj
      refine ⟨info, by simp [infoFind, ha, h1], ?_⟩
      simpa [setGeomAt, infoFind, ha] using h2

namespace FloatManager

theorem remove_spec {fl : FloatManager} {w : Window} (h : w ∈ fl.get_windows) :
    (fl.remove_window w).1 = Except.ok () ∧
    ((fl.remove_window w).2).get_windows = fl.get_windows.erase w ∧
    ((fl.remove_window w).2).screen = fl.screen := by
  obtain ⟨i, hfp, heq, hwin⟩ := fl_remove_ok h
  exact ⟨by rw [heq], hwin, by rw [heq]⟩

theorem set_geometry_ok {fl : FloatManager} {w : Window} {g : Geometry}
    (h : w ∈ fl.get_windows) :
    ∃ info, infoFind fl.floaters w = some info ∧
      (fl.set_window_geometry w g).1 = Except.ok () ∧
      ((fl.set_window_geometry w g).2).get_windows = fl.get_windows ∧
      ((fl.set_window_geometry w g).2).screen = fl.screen ∧
      infoFind ((fl.set_window_geometry w g).2).floaters w =
        some { info with geometry := g } := by
  cases hfp : infoFindPos fl.floaters w with
  | none =>
    exact absurd (by simpa [get_windows] using h)
      ((infoFindPos_eq_none_iff fl.floaters w).mp hfp)
  | some i =>
    obtain ⟨info, h1, h2⟩ := infoFind_setGeomAt hfp g
    refine ⟨info, h1, ?_, ?_, ?_, ?_⟩
    · simp [set_window_geometry, hfp]
    · simp [set_window_geometry, hfp, get_windows, setGeomAt_map_window]
    · simp [set_window_geometry, hfp]
    · simpa [set_window_geometry, hfp] using h2

theorem set_geometry_err {fl : FloatManager} {w : Window} {g : Geometry}
    (h : w ∉ fl.get_windows) :
    fl.set_window_geometry w g = (Except.error (FloatWMError.UnknownWindow w), fl) := by
  have hfp : infoFindPos fl.floaters w = none :=
    (infoFindPos_eq_none_iff fl.floaters w).mpr (by simpa [get_windows] using h)
  simp [set_window_geometry, hfp]

theorem focus_shifted_some_spec {fl : FloatManager} {w : Window}
    (h : w ∈ fl.get_windows) (hnd : fl.get_windows.Nodup) :
    (fl.focus_shifted (some w)).1 = Except.ok () ∧
    ((fl.focus_shifted (some w)).2).get_windows = fl.get_windows.erase w ++ [w] ∧
    ((fl.focus_shifted (some w)).2).screen = fl.screen := by
  obtain ⟨info, hfind, hok, hmem, hwin⟩ := fl_get_window_info_ok h
  obtain ⟨i, hfp, heq, hwins⟩ := fl_remove_ok h
  have hnotin : info.window ∉
      ({ fl with floaters := fl.floaters.eraseIdx i } : FloatManager).get_windows := by
    show info.window ∉ (fl.floaters.eraseIdx i).map (fun j => j.window)
    rw [infoEraseIdx_map_of_findPos hfp, hwin]
    exact List.Nodup.not_mem_erase hnd
  have hadd := fl_add_ok hnotin
  simp only [focus_shifted, hok, heq, hadd]
  refine ⟨trivial, ?_, trivial⟩
  show ((fl.floaters.eraseIdx i) ++ [info]).map (fun j => j.window) = _
  rw [List.map_append, infoEraseIdx_map_of_findPos hfp]
  simp [get_windows, hwin]

end FloatManager


/-- Witness for C9 at a concrete state: window 2 focused, window 1 in the sequence,
window 3 unmanaged. -/
theorem claim_C9_witness :
    let wm : FullscreenWM :=
      { windows := [1], focused_window := some 2,
        screen := { width := 800, height := 600 }, window_to_info := [] }
    (wm.focus_window (some 3)).1 = Except.error (StandardError.UnknownWindow 3) ∧
    (wm.focus_window (some 3)).2.get_focused_window = none ∧
    (wm.focus_window (some 3)).2.windows = wm.windows ++ [2] := by
  exact claim_C9_focus_window_not_atomic_on_error _ 2 3 (by decide) (by decide)

/-! ## Spec lemmas for `FloatOrTileManager` (layout fixed to `VerticalLayout`) -/

namespace FloatOrTileManager

theorem add_tile_ok {ft : FloatOrTileManager} {info : WindowWithInfo}
    (hmode : info.float_or_tile = FloatOrTile.Tile)
    (h : info.window ∉ ft.tile_manager.tiles) :
    ft.add_window info =
      (Except.ok (),
        { ft with tile_manager :=
            { ft.tile_manager with
                tiles := ft.tile_manager.tiles ++ [info.window],
                originals := mapInsert ft.tile_manager.originals info.window info } }) := by
  simp [add_window, hmode, TileManager.tm_add_ok h, Except.mapError]

theorem add_float_ok {ft : FloatOrTileManager} {info : WindowWithInfo}
    (hmode : info.float_or_tile = FloatOrTile.Float)
    (h : info.window ∉ ft.float_manager.get_windows) :
    ft.add_window info =
      (Except.ok (),
        { ft with float_manager :=
            { ft.float_manager with
                floaters := ft.float_manager.floaters ++ [info] } }) := by
  simp [add_window, hmode, FloatManager.fl_add_ok h]

theorem remove_tile_ok {ft : FloatOrTileManager} {w : Window}
    (h : w ∈ ft.tile_manager.tiles) :
    ft.remove_window w =
      (Except.ok (),
        { ft with tile_manager :=
            { ft.tile_manager with
                tiles := ft.tile_manager.tiles.erase w,
                originals := mapRemove ft.tile_manager.originals w } }) := by
  simp [remove_window, TileManager.tm_remove_ok h]

theorem remove_float_ok {ft : FloatOrTileManager} {w : Window}
    (ht : w ∉ ft.tile_manager.tiles) (hf : w ∈ ft.float_manager.get_windows) :
    (ft.remove_window w).1 = Except.ok () ∧
    ((ft.remove_window w).2).tile_manager = ft.tile_manager ∧
    ((ft.remove_window w).2).float_manager.get_windows =
      ft.float_manager.get_windows.erase w ∧
    ((ft.remove_window w).2).float_manager.screen = ft.float_manager.screen := by
  obtain ⟨h1, h2, h3⟩ := FloatManager.remove_spec hf
  simp only [remove_window, TileManager.tm_remove_err ht]
  cases hrm : ft.float_manager.remove_window w with
  | mk r fl1 =>
    rw [hrm] at h1 h2 h3
    cases r with
    | error e => simp at h1
    | ok u => exact ⟨rfl, trivial, h2, h3⟩

theorem remove_err {ft : FloatOrTileManager} {w : Window}
    (ht : w ∉ ft.tile_manager.tiles) (hf : w ∉ ft.float_manager.get_windows) :
    ft.remove_window w = (Except.error (FloatWMError.UnknownWindow w), ft) := by
  simp [remove_window, TileManager.tm_remove_err ht, FloatManager.fl_remove_err hf]

theorem set_geometry_float_ok {ft : FloatOrTileManager} {w : Window} {g : Geometry}
    (hf : w ∈ ft.float_manager.get_windows) :
    ∃ info, infoFind ft.float_manager.floaters w = some info ∧
      (ft.set_window_geometry w g).1 = Except.ok () ∧
      ((ft.set_window_geometry w g).2).tile_manager = ft.tile_manager ∧
      ((ft.set_window_geometry w g).2).float_manager.get_windows =
        ft.float_manager.get_windows ∧
      infoFind ((ft.set_window_geometry w g).2).float_manager.floaters w =
        some { info with geometry := g } := by
  obtain ⟨info, h1, h2, h3, h4, h5⟩ := FloatManager.set_geometry_ok (g := g) hf
  refine ⟨info, h1, ?_⟩
  simp only [set_window_geometry]
  cases hset : ft.float_manager.set_window_geometry w g with
  | mk r fl1 =>
    rw [hset] at h2 h3 h4 h5
    cases r with
    | error e => simp at h2
    | ok u => exact ⟨rfl, rfl, h3, h5⟩

theorem set_geometry_tiled_err {ft : FloatOrTileManager} {w : Window} {g : Geometry}
    (hf : w ∉ ft.float_manager.get_windows) (ht : w ∈ ft.tile_manager.tiles) :
    ft.set_window_geometry w g =
      (Except.error (FloatWMError.NotFloatingWindow w), ft) := by
  simp [set_window_geometry, FloatManager.set_geometry_err hf, TileManager.tm_is_managed_true ht]

theorem set_geometry_unknown_err {ft : FloatOrTileManager} {w : Window} {g : Geometry}
    (hf : w ∉ ft.float_manager.get_windows) (ht : w ∉ ft.tile_manager.tiles) :
    ft.set_window_geometry w g =
      (Except.error (FloatWMError.UnknownWindow w), ft) := by
  simp [set_window_geometry, FloatManager.set_geometry_err hf, TileManager.tm_is_managed_false ht]

theorem focus_shifted_none {ft : FloatOrTileManager} :
    ft.focus_shifted none = (Except.ok (), ft) := rfl

theorem focus_shifted_not_float {ft : FloatOrTileManager} {v : Window}
    (h : v ∉ ft.float_manager.get_windows) :
    ft.focus_shifted (some v) = (Except.ok (), ft) := by
  simp [focus_shifted, FloatManager.fl_is_managed_false h]

theorem focus_shifted_float_spec {ft : FloatOrTileManager} {v : Window}
    (h : v ∈ ft.float_manager.get_windows) (hnd : ft.float_manager.get_windows.Nodup) :
    (ft.focus_shifted (some v)).1 = Except.ok () ∧
    ((ft.focus_shifted (some v)).2).tile_manager = ft.tile_manager ∧
    ((ft.focus_shifted (some v)).2).float_manager.get_windows =
      ft.float_manager.get_windows.erase v ++ [v] ∧
    ((ft.focus_shifted (some v)).2).float_manager.screen = ft.float_manager.screen := by
  obtain ⟨h1, h2, h3⟩ := FloatManager.focus_shifted_some_spec h hnd
  simp only [focus_shifted, FloatManager.fl_is_managed_true h]
  cases hfs : ft.float_manager.focus_shifted (some v) with
  | mk r fl1 =>
    rw [hfs] at h1 h2 h3
    cases r with
    | error e => simp at h1
    | ok u => exact ⟨rfl, rfl, h2, h3⟩

theorem get_window_info_tiled {ft : FloatOrTileManager} {w : Window}
    (ht : w ∈ ft.tile_manager.tiles) :
    ∃ g, ft.tile_manager.get_window_geometry VerticalLayout w = Except.ok g ∧
      ft.get_window_info VerticalLayout w =
        Except.ok { window := w, geometry := g,
                    float_or_tile := FloatOrTile.Tile, fullscreen := false } := by
  obtain ⟨i, hi⟩ := findPos_isSome_of_mem ht
  have : ∃ g, ft.tile_manager.get_window_geometry VerticalLayout w = Except.ok g := by
    unfold TileManager.get_window_geometry
    show ∃ g, VerticalLayoutDef.get_window_geometry w _ ft.tile_manager.tiles = _
    unfold VerticalLayoutDef.get_window_geometry
    rw [hi]
    by_cases h0 : i = 0
    · subst h0
      simp
    · simp only [if_neg h0]
      by_cases hl : i ≠ ft.tile_manager.tiles.length - 1 <;> simp [hl]
  obtain ⟨g, hg⟩ := this
  refine ⟨g, hg, ?_⟩
  simp [get_window_info, TileManager.get_window_info, hg, Except.bind]

theorem get_window_info_float {ft : FloatOrTileManager} {w : Window}
    (ht : w ∉ ft.tile_manager.tiles) (hf : w ∈ ft.float_manager.get_windows) :
    ∃ info, infoFind ft.float_manager.floaters w = some info ∧
      ft.get_window_info VerticalLayout w = Except.ok info ∧
      info.window = w := by
  obtain ⟨info, h1, h2, hmem, hwin⟩ := FloatManager.fl_get_window_info_ok hf
  have htile : ft.tile_manager.get_window_info VerticalLayout w =
      Except.error (StandardError.UnknownWindow w) := by
    unfold TileManager.get_window_info TileManager.get_window_geometry
    show (VerticalLayoutDef.get_window_geometry w _ ft.tile_manager.tiles).bind _ = _
    unfold VerticalLayoutDef.get_window_geometry
    rw [(findPos_eq_none_iff _ _).mpr ht]
    rfl
  refine ⟨info, h1, ?_, hwin⟩
  simp [get_window_info, htile, h2]

theorem get_window_info_unknown {ft : FloatOrTileManager} {w : Window}
    (ht : w ∉ ft.tile_manager.tiles) (hf : w ∉ ft.float_manager.get_windows) :
    ft.get_window_info VerticalLayout w =
      Except.error (FloatWMError.UnknownWindow w) := by
  have htile : ft.tile_manager.get_window_info VerticalLayout w =
      Except.error (StandardError.UnknownWindow w) := by
    unfold TileManager.get_window_info TileManager.get_window_geometry
    show (VerticalLayoutDef.get_window_geometry w _ ft.tile_manager.tiles).bind _ = _
    unfold VerticalLayoutDef.get_window_geometry
    rw [(findPos_eq_none_iff _ _).mpr ht]
    rfl
  simp [get_window_info, htile, FloatManager.fl_get_window_info_err hf]

end FloatOrTileManager


/-! ## Spec lemmas for `FloatOrTileManager::toggle_floating` -/

theorem infoFind_append_of_none {l1 l2 : List WindowWithInfo} {w : Window}
    (h : infoFind l1 w = none) : infoFind (l1 ++ l2) w = infoFind l2 w := by
  induction l1 with
  | nil => rfl
  | cons a t ih =>
    by_cases ha : a.window = w
    · rw [infoFind, if_pos ha] at h
      cases h
    · rw [infoFind, if_neg ha] at h
      rw [List.cons_append, infoFind, if_neg ha]
      exact ih h

theorem FocusManager.focus_some_ok_eq {fm : FocusManager} {w : Window}
    (h : w ∈ fm.get_windows) :
    ∃ fm1, fm.focus_window (some w) = (Except.ok (), fm1) ∧
      fm1.focused_window = some w ∧ fm1.get_windows.Perm fm.get_windows ∧
      fm1 = (fm.focus_window (some w)).2 := by
  obtain ⟨h1, h2, h3⟩ := FocusManager.focus_some_ok h
  cases hf : fm.focus_window (some w) with
  | mk r fm1 =>
    rw [hf] at h1 h2 h3
    cases r with
    | error e => simp at h1
    | ok u => exact ⟨fm1, by cases u; rfl, h2, h3, rfl⟩

namespace FloatOrTileManager

theorem toggle_unmanaged {ft : FloatOrTileManager} {w : Window} {fm : FocusManager}
    (hfm : w ∉ fm.get_windows) :
    ft.toggle_floating w fm =
      (Except.error (FloatWMError.UnknownWindow w), ft,
        { windows := fm.get_windows, focused_window := none }) := by
  simp [toggle_floating, FocusManager.focus_some_err hfm, StandardError.to_float_error]

theorem toggle_float_to_tile {ft : FloatOrTileManager} {w : Window} {fm : FocusManager}
    (hfm : w ∈ fm.get_windows) (hfl : w ∈ ft.float_manager.get_windows)
    (ht : w ∉ ft.tile_manager.tiles) :
    ∃ info, infoFind ft.float_manager.floaters w = some info ∧ info.window = w ∧
      (ft.toggle_floating w fm).1 = Except.ok () ∧
      (ft.toggle_floating w fm).2.1.tile_manager.tiles =
        ft.tile_manager.tiles ++ [w] ∧
      (ft.toggle_floating w fm).2.1.tile_manager.originals =
        mapInsert ft.tile_manager.originals w
          { window := w, geometry := info.geometry,
            float_or_tile := FloatOrTile.Tile, fullscreen := info.fullscreen } ∧
      (ft.toggle_floating w fm).2.1.tile_manager.screen = ft.tile_manager.screen ∧
      (ft.toggle_floating w fm).2.1.float_manager.get_windows =
        ft.float_manager.get_windows.erase w ∧
      (ft.toggle_floating w fm).2.1.float_manager.screen = ft.float_manager.screen ∧
      (ft.toggle_floating w fm).2.2 = (fm.focus_window (some w)).2 := by
  obtain ⟨fm1, hfeq, hfoc, hperm, hfm2⟩ := FocusManager.focus_some_ok_eq hfm
  obtain ⟨info, hfind, hok, hmem, hwin⟩ := FloatManager.fl_get_window_info_ok hfl
  obtain ⟨i, hfp, hrm, hrmwin⟩ := FloatManager.fl_remove_ok hfl
  have hadd := @TileManager.tm_add_ok ft.tile_manager
    ⟨w, info.geometry, FloatOrTile.Tile, info.fullscreen⟩
    (by simpa using ht)
  refine ⟨info, hfind, hwin, ?_⟩
  rw [hrm] at hrmwin
  simp only [toggle_floating, hfeq, FloatManager.fl_is_managed_true hfl, hok, hrm, hwin,
    eq_self_iff_true, if_true, hadd, Except.mapError]
  simp only at hrmwin
  refine ⟨trivial, trivial, trivial, trivial, ?_, trivial, trivial⟩
  simpa [FloatManager.get_windows] using hrmwin

theorem toggle_tile_to_float {ft : FloatOrTileManager} {w : Window} {fm : FocusManager}
    {oinfo : WindowWithInfo}
    (hfm : w ∈ fm.get_windows) (hfl : w ∉ ft.float_manager.get_windows)
    (ht : w ∈ ft.tile_manager.tiles)
    (horig : mapGet ft.tile_manager.originals w = some oinfo)
    (hwino : oinfo.window = w) :
    (ft.toggle_floating w fm).1 = Except.ok () ∧
    (ft.toggle_floating w fm).2.1.tile_manager.tiles = ft.tile_manager.tiles.erase w ∧
    (ft.toggle_floating w fm).2.1.tile_manager.originals =
      mapRemove ft.tile_manager.originals w ∧
    (ft.toggle_floating w fm).2.1.tile_manager.screen = ft.tile_manager.screen ∧
    (ft.toggle_floating w fm).2.1.float_manager.floaters =
      ft.float_manager.floaters ++
        [{ window := oinfo.window, geometry := oinfo.geometry,
           float_or_tile := FloatOrTile.Float, fullscreen := oinfo.fullscreen }] ∧
    (ft.toggle_floating w fm).2.1.float_manager.screen = ft.float_manager.screen ∧
    (ft.toggle_floating w fm).2.2 = (fm.focus_window (some w)).2 := by
  obtain ⟨fm1, hfeq, hfoc, hperm, hfm2⟩ := FocusManager.focus_some_ok_eq hfm
  have hoinfo : ft.tile_manager.get_original_window_info w = Except.ok oinfo := by
    simp [TileManager.get_original_window_info, horig]
  have hrm := TileManager.tm_remove_ok ht
  have hadd := @FloatManager.fl_add_ok ft.float_manager
    ⟨oinfo.window, oinfo.geometry, FloatOrTile.Float, oinfo.fullscreen⟩
    (by simpa [hwino] using hfl)
  simp only [toggle_floating, hfeq, FloatManager.fl_is_managed_false hfl,
    TileManager.tm_is_managed_true ht, hoinfo, hrm, hadd, Except.mapError]
  refine ⟨?_, ?_, ?_, ?_, ?_, ?_, ?_⟩ <;> first | trivial | rfl

theorem toggle_neither {ft : FloatOrTileManager} {w : Window} {fm : FocusManager}
    (hfm : w ∈ fm.get_windows) (hfl : w ∉ ft.float_manager.get_windows)
    (ht : w ∉ ft.tile_manager.tiles) :
    ft.toggle_floating w fm =
      (Except.error (FloatWMError.UnknownWindow w), ft, (fm.focus_window (some w)).2) := by
  obtain ⟨fm1, hfeq, hfoc, hperm, hfm2⟩ := FocusManager.focus_some_ok_eq hfm
  simp only [toggle_floating, hfeq, FloatManager.fl_is_managed_false hfl,
    TileManager.tm_is_managed_false ht, Bool.false_eq_true, if_false]

end FloatOrTileManager

/-! ## `FloatWM`: invariant preservation -/

theorem FocusManager.get_windows_mk (l : List Window) (f : Option Window) :
    ({ windows := l, focused_window := f } : FocusManager).get_windows = l ++ f.toList :=
  rfl

theorem FloatInv_new (screen : Screen) : FloatInv (FloatWM.new screen) := by
  constructor <;>
    simp [FloatWM.new, FloatOrTileManager.new, TileManager.new, FloatManager.new,
      FocusManager.new, FocusManager.get_windows, FloatManager.get_windows,
      TileManager.get_windows]

theorem FloatInv_add (s : FloatWM) (info : WindowWithInfo) (h : FloatInv s) :
    FloatInv (s.add_window info).2 := by
  obtain ⟨hmem, hdisj, hnf, hnt, hnfl, horig⟩ := h
  by_cases hm : info.window ∈ s.focus_manager.get_windows
  · simp only [FloatWM.add_window, FocusManager.fm_add_err hm]
    exact ⟨hmem, hdisj, hnf, hnt, hnfl, horig⟩
  · have hfmeq := FocusManager.fm_add_ok hm
    have hnotT : info.window ∉ s.float_or_tile_manager.tile_manager.tiles :=
      fun hc => hm ((hmem _).mpr (Or.inl hc))
    have hnotF : info.window ∉ s.float_or_tile_manager.float_manager.get_windows :=
      fun hc => hm ((hmem _).mpr (Or.inr hc))
    have hnods : (s.focus_manager.get_windows ++ [info.window]).Nodup := by
      refine List.Nodup.append hnf (by simp) ?_
      intro a ha hb
      rw [List.mem_singleton] at hb
      exact hm (hb ▸ ha)
    cases hmode : info.float_or_tile with
    | Tile =>
      have haddt := FloatOrTileManager.add_tile_ok hmode hnotT
      simp only [FloatWM.add_window, hfmeq, haddt]
      refine ⟨?_, ?_, ?_, ?_, ?_, ?_⟩
      · intro v
        rw [FocusManager.get_windows_mk]
        simp only [List.mem_append, Option.toList_some, List.mem_singleton]
        have := hmem v
        tauto
      · intro v hv
        rcases List.mem_append.mp hv with h1 | h1
        · exact hdisj v h1
        · rw [List.mem_singleton] at h1
          exact h1 ▸ hnotF
      · rw [FocusManager.get_windows_mk]
        exact hnods
      · refine List.Nodup.append hnt (by simp) ?_
        intro a ha hb
        rw [List.mem_singleton] at hb
        exact hnotT (hb ▸ ha)
      · exact hnfl
      · intro v hv
        rw [mapGet_mapInsert]
        by_cases hvw : info.window = v
        · exact ⟨info, by rw [if_pos hvw], hvw⟩
        · rw [if_neg hvw]
          rcases List.mem_append.mp hv with h1 | h1
          · exact horig v h1
          · rw [List.mem_singleton] at h1
            exact absurd h1.symm hvw
    | Float =>
      have haddf := FloatOrTileManager.add_float_ok hmode hnotF
      simp only [FloatWM.add_window, hfmeq, haddf]
      have hfw : (({ s.float_or_tile_manager.float_manager with
          floaters := s.float_or_tile_manager.float_manager.floaters ++ [info] } :
            FloatManager)).get_windows =
          s.float_or_tile_manager.float_manager.get_windows ++ [info.window] := by
        simp [FloatManager.get_windows]
      refine ⟨?_, ?_, ?_, ?_, ?_, ?_⟩
      · intro v
        rw [FocusManager.get_windows_mk, hfw]
        simp only [List.mem_append, Option.toList_some, List.mem_singleton]
        have := hmem v
        tauto
      · intro v hv
        rw [hfw]
        intro hc
        rcases List.mem_append.mp hc with h1 | h1
        · exact hdisj v hv h1
        · rw [List.mem_singleton] at h1
          exact hnotT (h1 ▸ hv)
      · rw [FocusManager.get_windows_mk]
        exact hnods
      · exact hnt
      · rw [hfw]
        refine List.Nodup.append hnfl (by simp) ?_
        intro a ha hb
        rw [List.mem_singleton] at hb
        exact hnotF (hb ▸ ha)
      · exact horig

theorem FocusManager.remove_ok_eq {fm : FocusManager} {w : Window}
    (hnd : fm.get_windows.Nodup) (h : w ∈ fm.get_windows) :
    ∃ fm1, fm.remove_window w = (Except.ok (), fm1) ∧
      fm1.get_windows = fm.get_windows.erase w := by
  obtain ⟨h1, h2⟩ := FocusManager.fm_remove_ok hnd h
  cases hf : fm.remove_window w with
  | mk r fm1 =>
    rw [hf] at h1 h2
    cases r with
    | error e => simp at h1
    | ok u => exact ⟨fm1, by cases u; rfl, h2⟩

theorem FloatInv_remove (s : FloatWM) (w : Window) (h : FloatInv s) :
    FloatInv (s.remove_window w).2 := by
  obtain ⟨hmem, hdisj, hnf, hnt, hnfl, horig⟩ := h
  by_cases hm : w ∈ s.focus_manager.get_windows
  · obtain ⟨fm1, hfmeq, hfmw⟩ := FocusManager.remove_ok_eq hnf hm
    have hnf1 : fm1.get_windows.Nodup := hfmw ▸ hnf.erase w
    have hwmem1 : w ∉ fm1.get_windows := hfmw ▸ hnf.not_mem_erase
    rcases (hmem w).mp hm with hT | hF
    · -- tiled window removed
      have hremt := FloatOrTileManager.remove_tile_ok hT
      simp only [FloatWM.remove_window, hfmeq, hremt]
      refine ⟨?_, ?_, ?_, ?_, ?_, ?_⟩
      · intro v
        by_cases hvw : v = w
        · subst hvw
          rw [hfmw]
          simp only [hnf.not_mem_erase, false_iff]
          push_neg
          exact ⟨hnt.not_mem_erase, hdisj v hT⟩
        · rw [hfmw, List.mem_erase_of_ne hvw]
          show _ ↔ v ∈ _ ∨ _
          rw [List.mem_erase_of_ne hvw]
          exact hmem v
      · intro v hv
        exact hdisj v (List.mem_of_mem_erase hv)
      · exact hnf1
      · exact hnt.erase w
      · exact hnfl
      · intro v hv
        rw [mapGet_mapRemove]
        have hvw : ¬ w = v := by
          intro hwv
          subst hwv
          exact hnt.not_mem_erase hv
        rw [if_neg hvw]
        exact horig v (List.mem_of_mem_erase hv)
    · -- floating window removed
      have hTn : w ∉ s.float_or_tile_manager.tile_manager.tiles :=
        fun hc => hdisj w hc hF
      obtain ⟨hr1, hr2, hr3, hr4⟩ := FloatOrTileManager.remove_float_ok hTn hF
      have hstate : (s.remove_window w).2 =
          { focus_manager := fm1,
            float_or_tile_manager := (s.float_or_tile_manager.remove_window w).2 } := by
        simp only [FloatWM.remove_window, hfmeq]
      rw [hstate]
      refine ⟨?_, ?_, ?_, ?_, ?_, ?_⟩
      · intro v
        rw [hr2, hr3]
        by_cases hvw : v = w
        · subst hvw
          rw [hfmw]
          simp only [hnf.not_mem_erase, false_iff]
          push_neg
          exact ⟨hTn, hnfl.not_mem_erase⟩
        · rw [hfmw, List.mem_erase_of_ne hvw]
          show _ ↔ _ ∨ v ∈ _
          rw [List.mem_erase_of_ne hvw]
          exact hmem v
      · intro v hv
        rw [hr2] at hv
        rw [hr3]
        intro hc
        exact hdisj v hv (List.mem_of_mem_erase hc)
      · exact hnf1
      · rw [hr2]
        exact hnt
      · rw [hr3]
        exact hnfl.erase w
      · intro v hv
        rw [hr2] at hv ⊢
        exact horig v hv
  · rw [show s.remove_window w =
        (Except.error (StandardError.UnknownWindow w).to_float_error, s) from by
      simp only [FloatWM.remove_window, FocusManager.fm_remove_err hm]]
    exact ⟨hmem, hdisj, hnf, hnt, hnfl, horig⟩

/-! ## `FTInv`-level preservation lemmas -/

theorem mem_erase_append_singleton_iff {l : List Window} {v u : Window} (hv : v ∈ l) :
    u ∈ l.erase v ++ [v] ↔ u ∈ l := by
  by_cases huv : u = v
  · subst huv
    simp [hv]
  · rw [List.mem_append, List.mem_singleton, List.mem_erase_of_ne huv]
    simp [huv]

theorem nodup_erase_append_singleton {l : List Window} {v : Window} (hnd : l.Nodup) :
    (l.erase v ++ [v]).Nodup := by
  refine List.Nodup.append (hnd.erase v) (by simp) ?_
  intro a ha hb
  rw [List.mem_singleton] at hb
  exact hnd.not_mem_erase (hb ▸ ha)

theorem FTInv_focus_shifted {ft : FloatOrTileManager} {fm fm1 : FocusManager}
    (h : FTInv ft fm) (hperm : fm1.get_windows.Perm fm.get_windows) (w : Option Window) :
    FTInv (ft.focus_shifted w).2 fm1 := by
  obtain ⟨hmem, hdisj, hnf, hnt, hnfl, horig⟩ := h
  have hnf1 : fm1.get_windows.Nodup := hperm.nodup_iff.mpr hnf
  have hmem1 : ∀ v, v ∈ fm1.get_windows ↔ v ∈ fm.get_windows := fun v => hperm.mem_iff
  cases w with
  | none =>
    rw [FloatOrTileManager.focus_shifted_none]
    exact ⟨fun v => (hmem1 v).trans (hmem v), hdisj, hnf1, hnt, hnfl, horig⟩
  | some v =>
    by_cases hvf : v ∈ ft.float_manager.get_windows
    · obtain ⟨h1, h2, h3, h4⟩ := FloatOrTileManager.focus_shifted_float_spec hvf hnfl
      have haux : ∀ u, u ∈ ((ft.focus_shifted (some v)).2).float_manager.get_windows ↔
          u ∈ ft.float_manager.get_windows := by
        intro u
        rw [h3]
        exact mem_erase_append_singleton_iff hvf
      refine ⟨?_, ?_, hnf1, ?_, ?_, ?_⟩
      · intro u
        rw [hmem1 u, hmem u, h2, haux u]
      · intro u hu
        rw [h2] at hu
        rw [haux u]
        exact hdisj u hu
      · rw [h2]
        exact hnt
      · rw [h3]
        exact nodup_erase_append_singleton hnfl
      · intro u hu
        rw [h2] at hu ⊢
        exact horig u hu
    · rw [FloatOrTileManager.focus_shifted_not_float hvf]
      exact ⟨fun u => (hmem1 u).trans (hmem u), hdisj, hnf1, hnt, hnfl, horig⟩

theorem FTInv_toggle {ft : FloatOrTileManager} {fm : FocusManager} (w : Window)
    (h : FTInv ft fm) :
    FTInv (ft.toggle_floating w fm).2.1 (ft.toggle_floating w fm).2.2 := by
  obtain ⟨hmem, hdisj, hnf, hnt, hnfl, horig⟩ := h
  by_cases hfm : w ∈ fm.get_windows
  · by_cases hfl : w ∈ ft.float_manager.get_windows
    · -- float → tile
      have ht : w ∉ ft.tile_manager.tiles := fun hc => hdisj w hc hfl
      obtain ⟨info, hfind, hwin, hr, htl, hor, hsc, hflw, hfsc, hfm2⟩ :=
        FloatOrTileManager.toggle_float_to_tile hfm hfl ht
      obtain ⟨fm1, hfeq, hfoc, hperm, hfm1⟩ := FocusManager.focus_some_ok_eq hfm
      rw [← hfm1] at hfm2
      have hnf1 : (ft.toggle_floating w fm).2.2.get_windows.Nodup := by
        rw [hfm2]
        exact hperm.nodup_iff.mpr hnf
      refine ⟨?_, ?_, hnf1, ?_, ?_, ?_⟩
      · intro v
        rw [hfm2, htl, hflw]
        rw [hperm.mem_iff, hmem v]
        by_cases hvw : v = w
        · subst hvw
          simp [hfl]
        · rw [List.mem_erase_of_ne hvw, List.mem_append, List.mem_singleton]
          simp [hvw]
      · intro v hv
        rw [htl] at hv
        rw [hflw]
        rcases List.mem_append.mp hv with h1 | h1
        · intro hc
          exact hdisj v h1 (List.mem_of_mem_erase hc)
        · rw [List.mem_singleton] at h1
          subst h1
          exact hnfl.not_mem_erase
      · rw [htl]
        refine List.Nodup.append hnt (by simp) ?_
        intro a ha hb
        rw [List.mem_singleton] at hb
        exact ht (hb ▸ ha)
      · rw [hflw]
        exact hnfl.erase w
      · intro v hv
        rw [htl] at hv
        rw [hor, mapGet_mapInsert]
        by_cases hvw : w = v
        · exact ⟨_, by rw [if_pos hvw], hvw⟩
        · rw [if_neg hvw]
          rcases List.mem_append.mp hv with h1 | h1
          · exact horig v h1
          · rw [List.mem_singleton] at h1
            exact absurd h1.symm hvw
    · by_cases ht : w ∈ ft.tile_manager.tiles
      · -- tile → float
        obtain ⟨oinfo, horigw, hkey⟩ := horig w ht
        obtain ⟨hr, htl, hor, hsc, hflw, hfsc, hfm2⟩ :=
          FloatOrTileManager.toggle_tile_to_float hfm hfl ht horigw hkey
        obtain ⟨fm1, hfeq, hfoc, hperm, hfm1⟩ := FocusManager.focus_some_ok_eq hfm
        rw [← hfm1] at hfm2
        have hfwin : (ft.toggle_floating w fm).2.1.float_manager.get_windows =
            ft.float_manager.get_windows ++ [w] := by
          show ((ft.toggle_floating w fm).2.1.float_manager.floaters).map
            (fun j => j.window) = _
          rw [hflw]
          simp [FloatManager.get_windows, hkey]
        have hnf1 : (ft.toggle_floating w fm).2.2.get_windows.Nodup := by
          rw [hfm2]
          exact hperm.nodup_iff.mpr hnf
        refine ⟨?_, ?_, hnf1, ?_, ?_, ?_⟩
        · intro v
          rw [hfm2, htl, hfwin]
          rw [hperm.mem_iff, hmem v]
          by_cases hvw : v = w
          · subst hvw
            simp [ht]
          · rw [List.mem_erase_of_ne hvw, List.mem_append, List.mem_singleton]
            simp [hvw]
        · intro v hv
          rw [htl] at hv
          rw [hfwin]
          intro hc
          rcases List.mem_append.mp hc with h1 | h1
          · exact hdisj v (List.mem_of_mem_erase hv) h1
          · rw [List.mem_singleton] at h1
            subst h1
            exact hnt.not_mem_erase hv
        · rw [htl]
          exact hnt.erase w
        · rw [hfwin]
          refine List.Nodup.append hnfl (by simp) ?_
          intro a ha hb
          rw [List.mem_singleton] at hb
          exact hfl (hb ▸ ha)
        · intro v hv
          rw [htl] at hv
          rw [hor, mapGet_mapRemove]
          have hvw : ¬ w = v := by
            intro hwv
            subst hwv
            exact hnt.not_mem_erase hv
          rw [if_neg hvw]
          exact horig v (List.mem_of_mem_erase hv)
      · -- neither: unknown window, only the focus manager is disturbed (a no-op there)
        rw [FloatOrTileManager.toggle_neither hfm hfl ht]
        obtain ⟨fm1, hfeq, hfoc, hperm, hfm1⟩ := FocusManager.focus_some_ok_eq hfm
        rw [← hfm1]
        exact ⟨fun v => hperm.mem_iff.trans (hmem v), hdisj,
          hperm.nodup_iff.mpr hnf, hnt, hnfl, horig⟩
  · rw [FloatOrTileManager.toggle_unmanaged hfm]
    refine ⟨?_, hdisj, ?_, hnt, hnfl, horig⟩
    · intro v
      rw [FocusManager.get_windows_mk]
      simpa using hmem v
    · rw [FocusManager.get_windows_mk]
      simpa using hnf

theorem FloatOrTileManager.is_floating_true {ft : FloatOrTileManager} {w : Window}
    (h : w ∈ ft.float_manager.get_windows) : ft.is_floating w = true := by
  simpa [FloatOrTileManager.is_floating, FloatOrTileManager.get_floating_windows]
    using List.elem_iff.mpr h

theorem FloatOrTileManager.is_floating_false {ft : FloatOrTileManager} {w : Window}
    (h : w ∉ ft.float_manager.get_windows) : ft.is_floating w = false := by
  simp only [FloatOrTileManager.is_floating, FloatOrTileManager.get_floating_windows]
  exact (Bool.not_eq_true _).mp (fun hc => h (List.elem_iff.mp hc))

theorem FloatOrTileManager.is_tiled_true {ft : FloatOrTileManager} {w : Window}
    (h : w ∈ ft.tile_manager.tiles) : ft.is_tiled w = true := by
  simpa [FloatOrTileManager.is_tiled, FloatOrTileManager.get_tiled_windows,
    TileManager.get_windows] using List.elem_iff.mpr h

theorem FloatOrTileManager.is_tiled_false {ft : FloatOrTileManager} {w : Window}
    (h : w ∉ ft.tile_manager.tiles) : ft.is_tiled w = false := by
  simp only [FloatOrTileManager.is_tiled, FloatOrTileManager.get_tiled_windows,
    TileManager.get_windows]
  exact (Bool.not_eq_true _).mp (fun hc => h (List.elem_iff.mp hc))

theorem VerticalLayout_swap_with_master_eq :
    VerticalLayout.swap_with_master = VerticalLayoutDef.swap_with_master := rfl

theorem VerticalLayout_swap_windows_eq :
    VerticalLayout.swap_windows = VerticalLayoutDef.swap_windows := rfl

theorem FTInv_tm_swap_master {ft : FloatOrTileManager} {fm : FocusManager} (w : Window)
    (h : FTInv ft fm) :
    FTInv { ft with
        tile_manager := (ft.tile_manager.swap_with_master VerticalLayout w fm).2.1 }
      (ft.tile_manager.swap_with_master VerticalLayout w fm).2.2 := by
  obtain ⟨hmem, hdisj, hnf, hnt, hnfl, horig⟩ := h
  by_cases ht : w ∈ ft.tile_manager.tiles
  · have hne : ft.tile_manager.tiles ≠ [] := by
      intro hc
      rw [hc] at ht
      exact absurd ht (List.not_mem_nil w)
    obtain ⟨l2, hok, hperm, hhead⟩ := vertical_swap_with_master_ok hne ht
    have hfmw : w ∈ fm.get_windows := (hmem w).mpr (Or.inl ht)
    obtain ⟨fm1, hfeq, hfoc, hfperm, hfm1⟩ := FocusManager.focus_some_ok_eq hfmw
    have hswap : ft.tile_manager.swap_with_master VerticalLayout w fm =
        ((fm.focus_window (some w)).1,
          { ft.tile_manager with tiles := l2 }, (fm.focus_window (some w)).2) := by
      rw [TileManager.swap_with_master, VerticalLayout_swap_with_master_eq, hok]
    rw [hswap, ← hfm1]
    refine ⟨?_, ?_, ?_, ?_, hnfl, ?_⟩
    · intro v
      show v ∈ fm1.get_windows ↔ v ∈ l2 ∨ _
      rw [hfperm.mem_iff, hperm.mem_iff]
      exact hmem v
    · intro v hv
      exact hdisj v (hperm.mem_iff.mp hv)
    · exact hfperm.nodup_iff.mpr hnf
    · exact hperm.nodup_iff.mpr hnt
    · intro v hv
      exact horig v (hperm.mem_iff.mp hv)
  · have hswap : ft.tile_manager.swap_with_master VerticalLayout w fm =
        (Except.error (StandardError.UnknownWindow w), ft.tile_manager, fm) := by
      rw [TileManager.swap_with_master, VerticalLayout_swap_with_master_eq,
        vertical_swap_with_master_err_absent ht]
    rw [hswap]
    exact ⟨hmem, hdisj, hnf, hnt, hnfl, horig⟩

theorem FTInv_swap_windows {ft : FloatOrTileManager} {fm : FocusManager}
    (dir : PrevOrNext) (h : FTInv ft fm) :
    FTInv (ft.swap_windows VerticalLayout dir fm) fm := by
  obtain ⟨hmem, hdisj, hnf, hnt, hnfl, horig⟩ := h
  cases hfoc : fm.get_focused_window with
  | none =>
    rw [FloatOrTileManager.swap_windows, hfoc]
    exact ⟨hmem, hdisj, hnf, hnt, hnfl, horig⟩
  | some v =>
    by_cases htl : ft.is_tiled v = true
    · have hswap : ft.swap_windows VerticalLayout dir fm =
          { ft with tile_manager :=
              { ft.tile_manager with
                tiles := VerticalLayoutDef.swap_windows v dir ft.tile_manager.tiles } } := by
        simp only [FloatOrTileManager.swap_windows, hfoc, htl, if_true,
          TileManager.swap_windows, VerticalLayout_swap_windows_eq]
      have hperm := vertical_swap_windows_perm v dir ft.tile_manager.tiles
      rw [hswap]
      refine ⟨?_, ?_, hnf, ?_, hnfl, ?_⟩
      · intro u
        show u ∈ fm.get_windows ↔ u ∈ VerticalLayoutDef.swap_windows v dir _ ∨ _
        rw [hperm.mem_iff]
        exact hmem u
      · intro u hu
        exact hdisj u (hperm.mem_iff.mp hu)
      · exact hperm.nodup_iff.mpr hnt
      · intro u hu
        exact horig u (hperm.mem_iff.mp hu)
    · have htl2 : ft.is_tiled v = false := (Bool.not_eq_true _).mp htl
      rw [show ft.swap_windows VerticalLayout dir fm = ft from by
        simp only [FloatOrTileManager.swap_windows, hfoc, htl2,
          Bool.false_eq_true, if_false]]
      exact ⟨hmem, hdisj, hnf, hnt, hnfl, horig⟩

theorem FTInv_set_geom {ft : FloatOrTileManager} {fm : FocusManager}
    (w : Window) (g : Geometry) (h : FTInv ft fm) :
    FTInv (ft.set_window_geometry w g).2 fm := by
  obtain ⟨hmem, hdisj, hnf, hnt, hnfl, horig⟩ := h
  by_cases hf : w ∈ ft.float_manager.get_windows
  · obtain ⟨info, h1, h2, h3, h4, h5⟩ := FloatOrTileManager.set_geometry_float_ok (g := g) hf
    refine ⟨?_, ?_, hnf, ?_, ?_, ?_⟩
    · intro v
      rw [h3, h4]
      exact hmem v
    · intro v hv
      rw [h3] at hv
      rw [h4]
      exact hdisj v hv
    · rw [h3]
      exact hnt
    · rw [h4]
      exact hnfl
    · intro v hv
      rw [h3] at hv ⊢
      exact horig v hv
  · by_cases ht : w ∈ ft.tile_manager.tiles
    · rw [show (ft.set_window_geometry w g).2 = ft from by
        rw [FloatOrTileManager.set_geometry_tiled_err hf ht]]
      exact ⟨hmem, hdisj, hnf, hnt, hnfl, horig⟩
    · rw [show (ft.set_window_geometry w g).2 = ft from by
        rw [FloatOrTileManager.set_geometry_unknown_err hf ht]]
      exact ⟨hmem, hdisj, hnf, hnt, hnfl, horig⟩

theorem FTInv_resize {ft : FloatOrTileManager} {fm : FocusManager}
    (screen : Screen) (h : FTInv ft fm) :
    FTInv (ft.resize_screen screen) fm := by
  obtain ⟨hmem, hdisj, hnf, hnt, hnfl, horig⟩ := h
  exact ⟨hmem, hdisj, hnf, hnt, hnfl, horig⟩

theorem VerticalLayout_get_master_eq :
    VerticalLayout.get_master_window = VerticalLayoutDef.get_master_window := rfl

theorem FTInv_swap_master {ft : FloatOrTileManager} {fm : FocusManager} (w : Window)
    (h : FTInv ft fm) :
    FTInv (ft.swap_with_master VerticalLayout w fm).2.1
      (ft.swap_with_master VerticalLayout w fm).2.2 := by
  by_cases hfl : w ∈ ft.float_manager.get_windows
  · -- floating window: tile it, swap it into master, float the old master
    have hflb := FloatOrTileManager.is_floating_true hfl
    have hfm : w ∈ fm.get_windows := (h.mem_iff w).mpr (Or.inr hfl)
    have ht : w ∉ ft.tile_manager.tiles := fun hc => h.disj w hc hfl
    obtain ⟨info, hfind, hwin, hr, htl, hor, hsc, hflw, hfsc, hfm2⟩ :=
      FloatOrTileManager.toggle_float_to_tile hfm hfl ht
    have hInv1 : FTInv (ft.toggle_floating w fm).2.1 (ft.toggle_floating w fm).2.2 :=
      FTInv_toggle w h
    have htogeq : ft.toggle_floating w fm =
        (Except.ok (), (ft.toggle_floating w fm).2.1, (ft.toggle_floating w fm).2.2) := by
      rw [← hr]
    have hw1 : w ∈ (ft.toggle_floating w fm).2.1.tile_manager.tiles := by
      rw [htl]
      simp
    have hne1 : (ft.toggle_floating w fm).2.1.tile_manager.tiles ≠ [] := by
      rw [htl]
      simp
    have hfmw1 : w ∈ (ft.toggle_floating w fm).2.2.get_windows :=
      (hInv1.mem_iff w).mpr (Or.inl hw1)
    obtain ⟨l2, hok, hperm2, hhead2⟩ := vertical_swap_with_master_ok hne1 hw1
    obtain ⟨fm2, hfeq2, hfoc2, hfperm2, hfm2e⟩ := FocusManager.focus_some_ok_eq hfmw1
    have hs2eq : (ft.toggle_floating w fm).2.1.tile_manager.swap_with_master
        VerticalLayout w (ft.toggle_floating w fm).2.2 =
        (Except.ok (), { (ft.toggle_floating w fm).2.1.tile_manager with tiles := l2 },
          fm2) := by
      rw [TileManager.swap_with_master, VerticalLayout_swap_with_master_eq, hok, hfeq2]
    have hmaster : ∃ m, (ft.toggle_floating w fm).2.1.get_master_window VerticalLayout =
        some m := by
      rw [FloatOrTileManager.get_master_window, TileManager.get_master_window,
        VerticalLayout_get_master_eq, VerticalLayoutDef.get_master_window]
      cases hcase : (ft.toggle_floating w fm).2.1.tile_manager.tiles with
      | nil => exact absurd hcase hne1
      | cons a t => exact ⟨a, rfl⟩
    obtain ⟨master, hmm⟩ := hmaster
    have hInv2 : FTInv { (ft.toggle_floating w fm).2.1 with tile_manager :=
        { (ft.toggle_floating w fm).2.1.tile_manager with tiles := l2 } } fm2 := by
      have h2 := FTInv_tm_swap_master w hInv1
      rw [hs2eq] at h2
      exact h2
    have hfinal := FTInv_toggle master hInv2
    simp only [FloatOrTileManager.swap_with_master, hflb, if_true]
    rw [htogeq]
    simp only [hmm, hs2eq]
    exact hfinal
  · have hflb := FloatOrTileManager.is_floating_false hfl
    cases hts : ft.tile_manager.swap_with_master VerticalLayout w fm with
    | mk r p =>
      obtain ⟨tm1, fm1⟩ := p
      have key := FTInv_tm_swap_master w h
      rw [hts] at key
      simp only [FloatOrTileManager.swap_with_master, hflb, Bool.false_eq_true,
        if_false, hts]
      exact key

/-! ## `FloatWM`: preservation for the remaining facade operations -/

theorem FloatInv_focus (s : FloatWM) (w : Option Window) (h : FloatInv s) :
    FloatInv (s.focus_window w).2 := by
  cases w with
  | none =>
    have hstate : (s.focus_window none).2 =
        { focus_manager :=
            { windows := s.focus_manager.get_windows, focused_window := none },
          float_or_tile_manager := (s.float_or_tile_manager.focus_shifted none).2 } := by
      simp only [FloatWM.focus_window, FocusManager.focus_none_eq]
    rw [hstate]
    exact FTInv_focus_shifted h (by rw [FocusManager.get_windows_mk]; simp) none
  | some v =>
    by_cases hv : v ∈ s.focus_manager.get_windows
    · obtain ⟨fm1, hfeq, hfoc, hperm, hfm1⟩ := FocusManager.focus_some_ok_eq hv
      have hstate : (s.focus_window (some v)).2 =
          { focus_manager := fm1,
            float_or_tile_manager :=
              (s.float_or_tile_manager.focus_shifted (some v)).2 } := by
        simp only [FloatWM.focus_window, hfeq]
      rw [hstate]
      exact FTInv_focus_shifted h hperm (some v)
    · have hstate : (s.focus_window (some v)).2 =
          { focus_manager :=
              { windows := s.focus_manager.get_windows, focused_window := none },
            float_or_tile_manager := (s.float_or_tile_manager.focus_shifted none).2 } := by
        simp only [FloatWM.focus_window, FocusManager.focus_some_err hv]
        rfl
      rw [hstate]
      exact FTInv_focus_shifted h (by rw [FocusManager.get_windows_mk]; simp) none

theorem FloatInv_cycle (s : FloatWM) (dir : PrevOrNext) (h : FloatInv s) :
    FloatInv (s.cycle_focus dir) := by
  show FTInv (s.float_or_tile_manager.focus_shifted
      (s.focus_manager.cycle_focus dir).get_focused_window).2
    (s.focus_manager.cycle_focus dir)
  exact FTInv_focus_shifted h (FocusManager.cycle_get_windows_perm s.focus_manager dir) _

theorem FloatInv_swap_master (s : FloatWM) (w : Window) (h : FloatInv s) :
    FloatInv (s.swap_with_master w).2 :=
  FTInv_swap_master w h

theorem FloatInv_swap (s : FloatWM) (dir : PrevOrNext) (h : FloatInv s) :
    FloatInv (s.swap_windows dir) :=
  FTInv_swap_windows dir h

theorem FloatInv_toggle (s : FloatWM) (w : Window) (h : FloatInv s) :
    FloatInv (s.toggle_floating w).2 :=
  FTInv_toggle w h

theorem FloatInv_set_geom (s : FloatWM) (w : Window) (g : Geometry) (h : FloatInv s) :
    FloatInv (s.set_window_geometry w g).2 :=
  FTInv_set_geom w g h

theorem FloatInv_resize (s : FloatWM) (screen : Screen) (h : FloatInv s) :
    FloatInv (s.resize_screen screen) :=
  FTInv_resize screen h

/-- Every reachable `FloatWM` state satisfies the cross-manager invariant. -/
theorem FloatInv_of_reach {s : FloatWM} (h : FloatReach s) : FloatInv s := by
  induction h with
  | init screen => exact FloatInv_new screen
  | add s info _ ih => exact FloatInv_add s info ih
  | remove s w _ ih => exact FloatInv_remove s w ih
  | focus s w _ ih => exact FloatInv_focus s w ih
  | cycle s dir _ ih => exact FloatInv_cycle s dir ih
  | swap_master s w _ ih => exact FloatInv_swap_master s w ih
  | swap s dir _ ih => exact FloatInv_swap s dir ih
  | toggle s w _ ih => exact FloatInv_toggle s w ih
  | set_geom s w g _ ih => exact FloatInv_set_geom s w g ih
  | resize s screen _ ih => exact FloatInv_resize s screen ih

/-! ## `MinimiseWM`: invariant preservation -/

theorem MInv_layout_change {m : MinimiseManager} {fm : FocusManager}
    {lm1 : FloatOrTileManager} {fm1 : FocusManager}
    (h : MInv m fm)
    (hunion : ∀ v, (v ∈ lm1.tile_manager.tiles ∨ v ∈ lm1.float_manager.get_windows) ↔
      (v ∈ m.layout_manager.tile_manager.tiles ∨
       v ∈ m.layout_manager.float_manager.get_windows))
    (hdisj : ∀ v, v ∈ lm1.tile_manager.tiles → v ∉ lm1.float_manager.get_windows)
    (hndT : lm1.tile_manager.tiles.Nodup)
    (hndF : lm1.float_manager.get_windows.Nodup)
    (hfm : fm1.get_windows.Perm fm.get_windows)
    (horig : ∀ v ∈ lm1.tile_manager.tiles,
      ∃ info, mapGet lm1.tile_manager.originals v = some info ∧ info.window = v) :
    MInv { m with layout_manager := lm1 } fm1 := by
  refine ⟨?_, hdisj, ?_, ?_, hfm.nodup_iff.mpr h.nodup_focus, hndT, hndF,
    h.nodup_minis, horig⟩
  · intro v
    rw [hfm.mem_iff, h.mem_iff v]
    have := hunion v
    tauto
  · intro v hv
    rcases (hunion v).mp (Or.inl hv) with h1 | h1
    · exact h.disj_tm v h1
    · exact h.disj_fm v h1
  · intro v hv
    rcases (hunion v).mp (Or.inr hv) with h1 | h1
    · exact h.disj_tm v h1
    · exact h.disj_fm v h1

theorem MinimiseInv_new (screen : Screen) : MinimiseInv (MinimiseWM.new screen) := by
  constructor <;>
    simp [MinimiseWM.new, MinimiseManager.new, FloatOrTileManager.new, TileManager.new,
      FloatManager.new, MinimiseAssistantManager.new, FocusManager.new,
      FocusManager.get_windows, FloatManager.get_windows, TileManager.get_windows,
      MinimiseAssistantManager.get_windows]

theorem MinimiseInv_add (s : MinimiseWM) (info : WindowWithInfo) (h : MinimiseInv s) :
    MinimiseInv (s.add_window info).2 := by
  obtain ⟨hmem, hdtf, hdtm, hdfm, hnf, hnt, hnfl, hnm, horig⟩ := h
  by_cases hm : info.window ∈ s.focus_manager.get_windows
  · simp only [MinimiseWM.add_window, FocusManager.fm_add_err hm]
    exact ⟨hmem, hdtf, hdtm, hdfm, hnf, hnt, hnfl, hnm, horig⟩
  · have hfmeq := FocusManager.fm_add_ok hm
    have hnotT : info.window ∉ s.minimise_manager.layout_manager.tile_manager.tiles :=
      fun hc => hm ((hmem _).mpr (Or.inl hc))
    have hnotF :
        info.window ∉ s.minimise_manager.layout_manager.float_manager.get_windows :=
      fun hc => hm ((hmem _).mpr (Or.inr (Or.inl hc)))
    have hnotM : info.window ∉ s.minimise_manager.minimise_assistant_manager.get_windows :=
      fun hc => hm ((hmem _).mpr (Or.inr (Or.inr hc)))
    have hnods : (s.focus_manager.get_windows ++ [info.window]).Nodup := by
      refine List.Nodup.append hnf (by simp) ?_
      intro a ha hb
      rw [List.mem_singleton] at hb
      exact hm (hb ▸ ha)
    cases hmode : info.float_or_tile with
    | Tile =>
      have haddt := FloatOrTileManager.add_tile_ok hmode hnotT
      simp only [MinimiseWM.add_window, hfmeq, MinimiseManager.add_window, haddt]
      refine ⟨?_, ?_, ?_, ?_, ?_, ?_, hnfl, hnm, ?_⟩
      · intro v
        rw [FocusManager.get_windows_mk]
        simp only [List.mem_append, Option.toList_some, List.mem_singleton]
        have := hmem v
        tauto
      · intro v hv
        rcases List.mem_append.mp hv with h1 | h1
        · exact hdtf v h1
        · rw [List.mem_singleton] at h1
          exact h1 ▸ hnotF
      · intro v hv
        rcases List.mem_append.mp hv with h1 | h1
        · exact hdtm v h1
        · rw [List.mem_singleton] at h1
          exact h1 ▸ hnotM
      · exact hdfm
      · rw [FocusManager.get_windows_mk]
        exact hnods
      · refine List.Nodup.append hnt (by simp) ?_
        intro a ha hb
        rw [List.mem_singleton] at hb
        exact hnotT (hb ▸ ha)
      · intro v hv
        rw [mapGet_mapInsert]
        by_cases hvw : info.window = v
        · exact ⟨info, by rw [if_pos hvw], hvw⟩
        · rw [if_neg hvw]
          rcases List.mem_append.mp hv with h1 | h1
          · exact horig v h1
          · rw [List.mem_singleton] at h1
            exact absurd h1.symm hvw
    | Float =>
      have haddf := FloatOrTileManager.add_float_ok hmode hnotF
      simp only [MinimiseWM.add_window, hfmeq, MinimiseManager.add_window, haddf]
      have hfw : (({ s.minimise_manager.layout_manager.float_manager with
          floaters := s.minimise_manager.layout_manager.float_manager.floaters ++
            [info] } : FloatManager)).get_windows =
          s.minimise_manager.layout_manager.float_manager.get_windows ++
            [info.window] := by
        simp [FloatManager.get_windows]
      refine ⟨?_, ?_, hdtm, ?_, ?_, hnt, ?_, hnm, horig⟩
      · intro v
        rw [FocusManager.get_windows_mk, hfw]
        simp only [List.mem_append, Option.toList_some, List.mem_singleton]
        have := hmem v
        tauto
      · intro v hv
        rw [hfw]
        intro hc
        rcases List.mem_append.mp hc with h1 | h1
        · exact hdtf v hv h1
        · rw [List.mem_singleton] at h1
          exact hnotT (h1 ▸ hv)
      · intro v hv
        rw [hfw] at hv
        rcases List.mem_append.mp hv with h1 | h1
        · exact hdfm v h1
        · rw [List.mem_singleton] at h1
          exact h1 ▸ hnotM
      · rw [FocusManager.get_windows_mk]
        exact hnods
      · rw [hfw]
        refine List.Nodup.append hnfl (by simp) ?_
        intro a ha hb
        rw [List.mem_singleton] at hb
        exact hnotF (hb ▸ ha)

theorem MinimiseInv_remove (s : MinimiseWM) (w : Window) (h : MinimiseInv s) :
    MinimiseInv (s.remove_window w).2 := by
  obtain ⟨hmem, hdtf, hdtm, hdfm, hnf, hnt, hnfl, hnm, horig⟩ := h
  by_cases hm : w ∈ s.focus_manager.get_windows
  · obtain ⟨fm1, hfmeq, hfmw⟩ := FocusManager.remove_ok_eq hnf hm
    have hnf1 : fm1.get_windows.Nodup := hfmw ▸ hnf.erase w
    rcases (hmem w).mp hm with hT | hF | hM
    · -- tiled window removed
      have hremt := FloatOrTileManager.remove_tile_ok hT
      simp only [MinimiseWM.remove_window, hfmeq, MinimiseManager.remove_window, hremt]
      refine ⟨?_, ?_, ?_, hdfm, hnf1, hnt.erase w, hnfl, hnm, ?_⟩
      · intro v
        by_cases hvw : v = w
        · subst hvw
          rw [hfmw]
          simp only [hnf.not_mem_erase, false_iff]
          push_neg
          exact ⟨hnt.not_mem_erase, hdtf v hT, hdtm v hT⟩
        · rw [hfmw, List.mem_erase_of_ne hvw]
          show _ ↔ v ∈ _ ∨ _
          rw [List.mem_erase_of_ne hvw]
          exact hmem v
      · intro v hv
        exact hdtf v (List.mem_of_mem_erase hv)
      · intro v hv
        exact hdtm v (List.mem_of_mem_erase hv)
      · intro v hv
        rw [mapGet_mapRemove]
        have hvw : ¬ w = v := by
          intro hwv
          subst hwv
          exact hnt.not_mem_erase hv
        rw [if_neg hvw]
        exact horig v (List.mem_of_mem_erase hv)
    · -- floating window removed
      have hTn : w ∉ s.minimise_manager.layout_manager.tile_manager.tiles :=
        fun hc => hdtf w hc hF
      obtain ⟨hr1, hr2, hr3, hr4⟩ := FloatOrTileManager.remove_float_ok hTn hF
      have hmmeq : s.minimise_manager.remove_window w =
          (Except.ok (), { s.minimise_manager with layout_manager :=
            (s.minimise_manager.layout_manager.remove_window w).2 }) := by
        rw [MinimiseManager.remove_window]
        rw [show s.minimise_manager.layout_manager.remove_window w =
          (Except.ok (), (s.minimise_manager.layout_manager.remove_window w).2) from by
            rw [← hr1]]
      have hstate : (s.remove_window w).2 =
          { focus_manager := fm1,
            minimise_manager := { s.minimise_manager with layout_manager :=
              (s.minimise_manager.layout_manager.remove_window w).2 } } := by
        simp only [MinimiseWM.remove_window, hfmeq, hmmeq]
      rw [hstate]
      refine ⟨?_, ?_, ?_, ?_, hnf1, ?_, ?_, hnm, ?_⟩
      · intro v
        rw [hr2, hr3]
        by_cases hvw : v = w
        · subst hvw
          rw [hfmw]
          simp only [hnf.not_mem_erase, false_iff]
          push_neg
          exact ⟨hTn, hnfl.not_mem_erase, hdfm v hF⟩
        · rw [hfmw, List.mem_erase_of_ne hvw]
          show _ ↔ _ ∨ v ∈ _ ∨ _
          rw [List.mem_erase_of_ne hvw]
          exact hmem v
      · intro v hv
        rw [hr2] at hv
        rw [hr3]
        intro hc
        exact hdtf v hv (List.mem_of_mem_erase hc)
      · intro v hv
        rw [hr2] at hv
        exact hdtm v hv
      · intro v hv
        rw [hr3] at hv
        exact hdfm v (List.mem_of_mem_erase hv)
      · rw [hr2]
        exact hnt
      · rw [hr3]
        exact hnfl.erase w
      · intro v hv
        rw [hr2] at hv ⊢
        exact horig v hv
    · -- minimised window removed through the fallback
      have hTn : w ∉ s.minimise_manager.layout_manager.tile_manager.tiles :=
        fun hc => hdtm w hc hM
      have hFn : w ∉ s.minimise_manager.layout_manager.float_manager.get_windows :=
        fun hc => hdfm w hc hM
      obtain ⟨i, hfp, hrm, hrmw⟩ := MinimiseAssistantManager.ma_remove_ok hM
      have hmmeq : s.minimise_manager.remove_window w =
          (Except.ok (), { s.minimise_manager with minimise_assistant_manager :=
            (s.minimise_manager.minimise_assistant_manager.remove_window w).2 }) := by
        rw [MinimiseManager.remove_window, FloatOrTileManager.remove_err hTn hFn]
        rw [show s.minimise_manager.minimise_assistant_manager.remove_window w =
          (Except.ok (),
            (s.minimise_manager.minimise_assistant_manager.remove_window w).2) from by
            rw [hrm]]
      have hstate : (s.remove_window w).2 =
          { focus_manager := fm1,
            minimise_manager := { s.minimise_manager with minimise_assistant_manager :=
              (s.minimise_manager.minimise_assistant_manager.remove_window w).2 } } := by
        simp only [MinimiseWM.remove_window, hfmeq, hmmeq]
      rw [hstate]
      refine ⟨?_, hdtf, ?_, ?_, hnf1, hnt, hnfl, ?_, horig⟩
      · intro v
        rw [hrmw]
        by_cases hvw : v = w
        · subst hvw
          rw [hfmw]
          simp only [hnf.not_mem_erase, false_iff]
          push_neg
          exact ⟨hTn, hFn, hnm.not_mem_erase⟩
        · rw [hfmw, List.mem_erase_of_ne hvw]
          show _ ↔ _ ∨ _ ∨ v ∈ _
          rw [List.mem_erase_of_ne hvw]
          exact hmem v
      · intro v hv
        rw [hrmw]
        intro hc
        exact hdtm v hv (List.mem_of_mem_erase hc)
      · intro v hv
        rw [hrmw]
        intro hc
        exact hdfm v hv (List.mem_of_mem_erase hc)
      · rw [hrmw]
        exact hnm.erase w
  · rw [show s.remove_window w =
        (Except.error (StandardError.UnknownWindow w).to_float_error, s) from by
      simp only [MinimiseWM.remove_window, FocusManager.fm_remove_err hm]]
    exact ⟨hmem, hdtf, hdtm, hdfm, hnf, hnt, hnfl, hnm, horig⟩

/-! ## Spec lemmas for `MinimiseManager::toggle_minimised` -/

theorem MinimiseManager.toggle_min_restore {m : MinimiseManager} {w : Window}
    {fm : FocusManager}
    (hM : w ∈ m.minimise_assistant_manager.get_windows)
    (hT : w ∉ m.layout_manager.tile_manager.tiles)
    (hF : w ∉ m.layout_manager.float_manager.get_windows)
    (hfm : w ∈ fm.get_windows) :
    ∃ info, infoFind m.minimise_assistant_manager.minis w = some info ∧
      info.window = w ∧
      (m.toggle_minimised VerticalLayout w fm).1 = Except.ok () ∧
      (m.toggle_minimised VerticalLayout w fm).2.1 =
        { layout_manager := (m.layout_manager.add_window info).2,
          minimise_assistant_manager :=
            (m.minimise_assistant_manager.remove_window w).2 } ∧
      (m.toggle_minimised VerticalLayout w fm).2.2 = (fm.focus_window (some w)).2 ∧
      ((m.toggle_minimised VerticalLayout w fm).2.1).minimise_assistant_manager.get_windows =
        m.minimise_assistant_manager.get_windows.erase w ∧
      (m.layout_manager.add_window info).1 = Except.ok () := by
  obtain ⟨info, hfind, hok, hmemi, hwin⟩ := MinimiseAssistantManager.ma_get_window_info_ok hM
  obtain ⟨i, hfp, hrm, hrmw⟩ := MinimiseAssistantManager.ma_remove_ok hM
  have haddok : (m.layout_manager.add_window info).1 = Except.ok () := by
    cases hmode : info.float_or_tile with
    | Tile =>
      rw [FloatOrTileManager.add_tile_ok hmode (by rw [hwin]; exact hT)]
    | Float =>
      rw [FloatOrTileManager.add_float_ok hmode (by rw [hwin]; exact hF)]
  obtain ⟨fm1, hfeq, hfoc, hperm, hfm1⟩ := FocusManager.focus_some_ok_eq hfm
  cases hadd : m.layout_manager.add_window info with
  | mk r2 lm1 =>
    rw [hadd] at haddok
    simp only at haddok
    subst haddok
    rw [hrm] at hrmw
    refine ⟨info, hfind, hwin, ?_, ?_, ?_, ?_, by rw [hadd]⟩ <;>
      simp only [MinimiseManager.toggle_minimised,
        MinimiseAssistantManager.ma_is_managed_true hM, if_true, hok, hrm, hadd, hfeq,
        Except.mapError]
    exact hrmw

theorem MinimiseManager.toggle_min_minimise {m : MinimiseManager} {w : Window}
    {fm : FocusManager} {info : WindowWithInfo}
    (hM : w ∉ m.minimise_assistant_manager.get_windows)
    (hinfo : m.layout_manager.get_window_info VerticalLayout w = Except.ok info)
    (hwin : info.window = w)
    (hrok : (m.layout_manager.remove_window w).1 = Except.ok ()) :
    (m.toggle_minimised VerticalLayout w fm).1 = Except.ok () ∧
    (m.toggle_minimised VerticalLayout w fm).2.1 =
      { layout_manager := (m.layout_manager.remove_window w).2,
        minimise_assistant_manager :=
          (m.minimise_assistant_manager.add_window info).2 } ∧
    (fm.get_focused_window = some w →
      (m.toggle_minimised VerticalLayout w fm).2.2 =
        { windows := fm.get_windows, focused_window := none }) ∧
    (¬ fm.get_focused_window = some w →
      (m.toggle_minimised VerticalLayout w fm).2.2 = fm) ∧
    ((m.toggle_minimised VerticalLayout w fm).2.1).minimise_assistant_manager.get_windows =
      m.minimise_assistant_manager.get_windows ++ [w] := by
  have hmf : m.minimise_assistant_manager.is_managed w = false :=
    MinimiseAssistantManager.ma_is_managed_false hM
  have haddma := MinimiseAssistantManager.ma_add_ok (by rw [hwin]; exact hM)
  have hmagw : (({ minis := m.minimise_assistant_manager.minis ++ [info] } :
      MinimiseAssistantManager)).get_windows =
      m.minimise_assistant_manager.get_windows ++ [w] := by
    simp [MinimiseAssistantManager.get_windows, hwin]
  cases hrem : m.layout_manager.remove_window w with
  | mk r1 lm1 =>
    rw [hrem] at hrok
    simp only at hrok
    subst hrok
    cases hfoc : fm.get_focused_window with
    | none =>
      have hstep : m.toggle_minimised VerticalLayout w fm =
          (Except.ok (),
            { layout_manager := lm1,
              minimise_assistant_manager :=
                { minis := m.minimise_assistant_manager.minis ++ [info] } }, fm) := by
        simp only [MinimiseManager.toggle_minimised, hmf, Bool.false_eq_true, if_false,
          hinfo, hrem, haddma, hfoc]
      rw [hstep, haddma]
      refine ⟨rfl, rfl, ?_, fun h2 => rfl, hmagw⟩
      intro hc
      simp at hc
    | some v =>
      by_cases hwv : w = v
      · subst hwv
        have hstep : m.toggle_minimised VerticalLayout w fm =
            (Except.ok (),
              ({ layout_manager := lm1,
                   minimise_assistant_manager :=
                     { minis := m.minimise_assistant_manager.minis ++ [info] } } :
                MinimiseManager),
              ({ windows := fm.get_windows, focused_window := none } :
                FocusManager)) := by
          simp only [MinimiseManager.toggle_minimised, hmf, Bool.false_eq_true,
            if_false, hinfo, hrem, haddma, hfoc, eq_self_iff_true, if_true,
            FocusManager.focus_none_eq, Except.mapError]
        rw [hstep, haddma]
        refine ⟨rfl, rfl, fun h1 => rfl, ?_, hmagw⟩
        intro hc
        exact absurd rfl hc
      · have hstep : m.toggle_minimised VerticalLayout w fm =
            (Except.ok (),
              ({ layout_manager := lm1,
                   minimise_assistant_manager :=
                     { minis := m.minimise_assistant_manager.minis ++ [info] } } :
                MinimiseManager), fm) := by
          simp only [MinimiseManager.toggle_minimised, hmf, Bool.false_eq_true,
            if_false, hinfo, hrem, haddma, hfoc, if_neg hwv]
        rw [hstep, haddma]
        refine ⟨rfl, rfl, ?_, fun h2 => rfl, hmagw⟩
        intro hc
        exact absurd (Option.some_inj.mp hc).symm hwv

theorem MinimiseManager.toggle_min_err {m : MinimiseManager} {w : Window}
    {fm : FocusManager}
    (hM : w ∉ m.minimise_assistant_manager.get_windows)
    (hT : w ∉ m.layout_manager.tile_manager.tiles)
    (hF : w ∉ m.layout_manager.float_manager.get_windows) :
    m.toggle_minimised VerticalLayout w fm =
      (Except.error (FloatWMError.UnknownWindow w), m, fm) := by
  simp [MinimiseManager.toggle_minimised, MinimiseAssistantManager.ma_is_managed_false hM,
    FloatOrTileManager.get_window_info_unknown hT hF]

theorem MInv_fm_perm {m : MinimiseManager} {fm fm1 : FocusManager}
    (h : MInv m fm) (hperm : fm1.get_windows.Perm fm.get_windows) : MInv m fm1 :=
  ⟨fun v => hperm.mem_iff.trans (h.mem_iff v), h.disj_tf, h.disj_tm, h.disj_fm,
    hperm.nodup_iff.mpr h.nodup_focus, h.nodup_tiles, h.nodup_floats, h.nodup_minis,
    h.orig⟩

theorem MInv_restore_core {m : MinimiseManager} {fm : FocusManager} {w : Window}
    {info : WindowWithInfo} (h : MInv m fm)
    (hM : w ∈ m.minimise_assistant_manager.get_windows)
    (hwin : info.window = w) :
    MInv { layout_manager := (m.layout_manager.add_window info).2,
           minimise_assistant_manager :=
             (m.minimise_assistant_manager.remove_window w).2 } fm := by
  obtain ⟨hmem, hdtf, hdtm, hdfm, hnf, hnt, hnfl, hnm, horig⟩ := h
  have hT : w ∉ m.layout_manager.tile_manager.tiles := fun hc => hdtm w hc hM
  have hF : w ∉ m.layout_manager.float_manager.get_windows := fun hc => hdfm w hc hM
  have hfm : w ∈ fm.get_windows := (hmem w).mpr (Or.inr (Or.inr hM))
  obtain ⟨i, hfp, hrm, hrmw⟩ := MinimiseAssistantManager.ma_remove_ok hM
  subst hwin
  have hgw : ((m.minimise_assistant_manager.remove_window info.window).2).get_windows =
      m.minimise_assistant_manager.get_windows.erase info.window := hrmw
  cases hmode : info.float_or_tile with
  | Tile =>
    have haddt := FloatOrTileManager.add_tile_ok hmode hT
    rw [haddt]
    refine ⟨?_, ?_, ?_, ?_, hnf, ?_, hnfl, ?_, ?_⟩
    · intro v
      rw [hgw]
      by_cases hvw : v = info.window
      · subst hvw
        simp only [hfm, true_iff]
        exact Or.inl (by simp)
      · rw [List.mem_erase_of_ne hvw]
        rw [hmem v]
        simp only [List.mem_append, List.mem_singleton, hvw, or_false]
    · intro v hv
      rcases List.mem_append.mp hv with h1 | h1
      · exact hdtf v h1
      · rw [List.mem_singleton] at h1
        exact h1 ▸ hF
    · intro v hv
      rw [hgw]
      rcases List.mem_append.mp hv with h1 | h1
      · exact fun hc => hdtm v h1 (List.mem_of_mem_erase hc)
      · rw [List.mem_singleton] at h1
        subst h1
        exact hnm.not_mem_erase
    · intro v hv
      rw [hgw]
      exact fun hc => hdfm v hv (List.mem_of_mem_erase hc)
    · refine List.Nodup.append hnt (by simp) ?_
      intro a ha hb
      rw [List.mem_singleton] at hb
      exact hT (hb ▸ ha)
    · rw [hgw]
      exact hnm.erase _
    · intro v hv
      rw [mapGet_mapInsert]
      by_cases hvw : info.window = v
      · exact ⟨info, by rw [if_pos hvw], hvw⟩
      · rw [if_neg hvw]
        rcases List.mem_append.mp hv with h1 | h1
        · exact horig v h1
        · rw [List.mem_singleton] at h1
          exact absurd h1.symm hvw
  | Float =>
    have haddf := FloatOrTileManager.add_float_ok hmode hF
    rw [haddf]
    have hfgw : (({ m.layout_manager.float_manager with
        floaters := m.layout_manager.float_manager.floaters ++ [info] } :
          FloatManager)).get_windows =
        m.layout_manager.float_manager.get_windows ++ [info.window] := by
      simp [FloatManager.get_windows]
    refine ⟨?_, ?_, ?_, ?_, hnf, hnt, ?_, ?_, horig⟩
    · intro v
      rw [hgw, hfgw]
      by_cases hvw : v = info.window
      · subst hvw
        simp only [hfm, true_iff]
        exact Or.inr (Or.inl (by simp))
      · rw [List.mem_erase_of_ne hvw]
        rw [hmem v]
        simp only [List.mem_append, List.mem_singleton, hvw, or_false]
    · intro v hv
      rw [hfgw]
      intro hc
      rcases List.mem_append.mp hc with h1 | h1
      · exact hdtf v hv h1
      · rw [List.mem_singleton] at h1
        exact hT (h1 ▸ hv)
    · intro v hv
      rw [hgw]
      exact fun hc => hdtm v hv (List.mem_of_mem_erase hc)
    · intro v hv
      rw [hfgw] at hv
      rw [hgw]
      rcases List.mem_append.mp hv with h1 | h1
      · exact fun hc => hdfm v h1 (List.mem_of_mem_erase hc)
      · rw [List.mem_singleton] at h1
        subst h1
        exact hnm.not_mem_erase
    · rw [hfgw]
      refine List.Nodup.append hnfl (by simp) ?_
      intro a ha hb
      rw [List.mem_singleton] at hb
      exact hF (hb ▸ ha)
    · rw [hgw]
      exact hnm.erase _

theorem MInv_toggle_min {m : MinimiseManager} {fm : FocusManager} (w : Window)
    (h : MInv m fm) :
    MInv (m.toggle_minimised VerticalLayout w fm).2.1
      (m.toggle_minimised VerticalLayout w fm).2.2 := by
  obtain ⟨hmem, hdtf, hdtm, hdfm, hnf, hnt, hnfl, hnm, horig⟩ := h
  by_cases hM : w ∈ m.minimise_assistant_manager.get_windows
  · -- restore branch
    have hT : w ∉ m.layout_manager.tile_manager.tiles := fun hc => hdtm w hc hM
    have hF : w ∉ m.layout_manager.float_manager.get_windows := fun hc => hdfm w hc hM
    have hfm : w ∈ fm.get_windows := (hmem w).mpr (Or.inr (Or.inr hM))
    obtain ⟨info, hfind, hwin, hr, hstate, hfm2, hmagw2, haddok⟩ :=
      MinimiseManager.toggle_min_restore hM hT hF hfm
    obtain ⟨fm1, hfeq, hfoc1, hperm, hfm1⟩ := FocusManager.focus_some_ok_eq hfm
    rw [← hfm1] at hfm2
    obtain ⟨i, hfp, hrm, hrmw⟩ := MinimiseAssistantManager.ma_remove_ok hM
    subst hwin
    cases hmode : info.float_or_tile with
    | Tile =>
      have haddt := FloatOrTileManager.add_tile_ok hmode hT
      rw [hstate, hfm2, haddt, hrm]
      have hgw : (({ minis := m.minimise_assistant_manager.minis.eraseIdx i } :
          MinimiseAssistantManager)).get_windows =
          m.minimise_assistant_manager.get_windows.erase info.window := by
        rw [hrm] at hrmw
        simpa using hrmw
      refine ⟨?_, ?_, ?_, ?_, hperm.nodup_iff.mpr hnf, ?_, hnfl, ?_, ?_⟩
      · intro v
        rw [hperm.mem_iff, hgw]
        by_cases hvw : v = info.window
        · subst hvw
          simp only [hfm, true_iff]
          exact Or.inl (by simp)
        · rw [List.mem_erase_of_ne hvw]
          rw [hmem v]
          simp only [List.mem_append, List.mem_singleton, hvw, or_false]
      · intro v hv
        rcases List.mem_append.mp hv with h1 | h1
        · exact hdtf v h1
        · rw [List.mem_singleton] at h1
          exact h1 ▸ hF
      · intro v hv
        rw [hgw]
        rcases List.mem_append.mp hv with h1 | h1
        · exact fun hc => hdtm v h1 (List.mem_of_mem_erase hc)
        · rw [List.mem_singleton] at h1
          subst h1
          exact hnm.not_mem_erase
      · intro v hv
        rw [hgw]
        exact fun hc => hdfm v hv (List.mem_of_mem_erase hc)
      · refine List.Nodup.append hnt (by simp) ?_
        intro a ha hb
        rw [List.mem_singleton] at hb
        exact hT (hb ▸ ha)
      · rw [hgw]
        exact hnm.erase _
      · intro v hv
        rw [mapGet_mapInsert]
        by_cases hvw : info.window = v
        · exact ⟨info, by rw [if_pos hvw], hvw⟩
        · rw [if_neg hvw]
          rcases List.mem_append.mp hv with h1 | h1
          · exact horig v h1
          · rw [List.mem_singleton] at h1
            exact absurd h1.symm hvw
    | Float =>
      have haddf := FloatOrTileManager.add_float_ok hmode hF
      rw [hstate, hfm2, haddf, hrm]
      have hgw : (({ minis := m.minimise_assistant_manager.minis.eraseIdx i } :
          MinimiseAssistantManager)).get_windows =
          m.minimise_assistant_manager.get_windows.erase info.window := by
        rw [hrm] at hrmw
        simpa using hrmw
      have hfgw : (({ m.layout_manager.float_manager with
          floaters := m.layout_manager.float_manager.floaters ++ [info] } :
            FloatManager)).get_windows =
          m.layout_manager.float_manager.get_windows ++ [info.window] := by
        simp [FloatManager.get_windows]
      refine ⟨?_, ?_, ?_, ?_, hperm.nodup_iff.mpr hnf, hnt, ?_, ?_, horig⟩
      · intro v
        rw [hperm.mem_iff, hgw, hfgw]
        by_cases hvw : v = info.window
        · subst hvw
          simp only [hfm, true_iff]
          exact Or.inr (Or.inl (by simp))
        · rw [List.mem_erase_of_ne hvw]
          rw [hmem v]
          simp only [List.mem_append, List.mem_singleton, hvw, or_false]
      · intro v hv
        rw [hfgw]
        intro hc
        rcases List.mem_append.mp hc with h1 | h1
        · exact hdtf v hv h1
        · rw [List.mem_singleton] at h1
          exact hT (h1 ▸ hv)
      · intro v hv
        rw [hgw]
        exact fun hc => hdtm v hv (List.mem_of_mem_erase hc)
      · intro v hv
        rw [hfgw] at hv
        rw [hgw]
        rcases List.mem_append.mp hv with h1 | h1
        · exact fun hc => hdfm v h1 (List.mem_of_mem_erase hc)
        · rw [List.mem_singleton] at h1
          subst h1
          exact hnm.not_mem_erase
      · rw [hfgw]
        refine List.Nodup.append hnfl (by simp) ?_
        intro a ha hb
        rw [List.mem_singleton] at hb
        exact hF (hb ▸ ha)
      · rw [hgw]
        exact hnm.erase _
  · by_cases hT : w ∈ m.layout_manager.tile_manager.tiles
    · -- minimise a tiled window
      obtain ⟨g, hg, hinfo⟩ := FloatOrTileManager.get_window_info_tiled hT
      have hrok : (m.layout_manager.remove_window w).1 = Except.ok () := by
        rw [FloatOrTileManager.remove_tile_ok hT]
      obtain ⟨hr, hstate, hfw1, hfw2, hmagw2⟩ :=
        MinimiseManager.toggle_min_minimise hM hinfo rfl hrok
      have hfm2perm : ((m.toggle_minimised VerticalLayout w fm).2.2).get_windows.Perm
          fm.get_windows := by
        by_cases hfw : fm.get_focused_window = some w
        · rw [hfw1 hfw, FocusManager.get_windows_mk]
          simp
        · rw [hfw2 hfw]
      have hfm2nd : ((m.toggle_minimised VerticalLayout w fm).2.2).get_windows.Nodup :=
        hfm2perm.nodup_iff.mpr hnf
      have hma : ((m.toggle_minimised VerticalLayout w fm).2.1).minimise_assistant_manager.get_windows =
          m.minimise_assistant_manager.get_windows ++ [w] := hmagw2
      have hlt : ((m.toggle_minimised VerticalLayout w fm).2.1).layout_manager =
          (m.layout_manager.remove_window w).2 := by
        rw [hstate]
      rw [FloatOrTileManager.remove_tile_ok hT] at hlt
      refine ⟨?_, ?_, ?_, ?_, hfm2nd, ?_, ?_, ?_, ?_⟩
      · intro v
        rw [hfm2perm.mem_iff, hlt, hma]
        by_cases hvw : v = w
        · subst hvw
          simp only [(hmem v).mpr (Or.inl hT), true_iff]
          exact Or.inr (Or.inr (by simp))
        · rw [hmem v]
          simp only [List.mem_erase_of_ne hvw, List.mem_append, List.mem_singleton,
            hvw, or_false]
      · intro v hv
        rw [hlt] at hv ⊢
        exact hdtf v (List.mem_of_mem_erase hv)
      · intro v hv
        rw [hlt] at hv
        rw [hma]
        intro hc
        rcases List.mem_append.mp hc with h1 | h1
        · exact hdtm v (List.mem_of_mem_erase hv) h1
        · rw [List.mem_singleton] at h1
          subst h1
          exact hnt.not_mem_erase hv
      · intro v hv
        rw [hlt] at hv
        rw [hma]
        intro hc
        rcases List.mem_append.mp hc with h1 | h1
        · exact hdfm v hv h1
        · rw [List.mem_singleton] at h1
          subst h1
          exact hdtf v hT hv
      · rw [hlt]
        exact hnt.erase w
      · rw [hlt]
        exact hnfl
      · rw [hma]
        refine List.Nodup.append hnm (by simp) ?_
        intro a ha hb
        rw [List.mem_singleton] at hb
        exact hM (hb ▸ ha)
      · intro v hv
        rw [hlt] at hv ⊢
        rw [mapGet_mapRemove]
        have hvw : ¬ w = v := by
          intro hwv
          subst hwv
          exact hnt.not_mem_erase hv
        rw [if_neg hvw]
        exact horig v (List.mem_of_mem_erase hv)
    · by_cases hF : w ∈ m.layout_manager.float_manager.get_windows
      · -- minimise a floating window
        obtain ⟨info, hfind, hinfo, hwin⟩ := FloatOrTileManager.get_window_info_float hT hF
        obtain ⟨hr1, hr2, hr3, hr4⟩ := FloatOrTileManager.remove_float_ok hT hF
        obtain ⟨hr, hstate, hfw1, hfw2, hmagw2⟩ :=
          MinimiseManager.toggle_min_minimise hM hinfo hwin hr1
        have hfm2perm : ((m.toggle_minimised VerticalLayout w fm).2.2).get_windows.Perm
            fm.get_windows := by
          by_cases hfw : fm.get_focused_window = some w
          · rw [hfw1 hfw, FocusManager.get_windows_mk]
            simp
          · rw [hfw2 hfw]
        have hlt : ((m.toggle_minimised VerticalLayout w fm).2.1).layout_manager =
            (m.layout_manager.remove_window w).2 := by
          rw [hstate]
        have hma : ((m.toggle_minimised VerticalLayout w fm).2.1).minimise_assistant_manager.get_windows =
            m.minimise_assistant_manager.get_windows ++ [w] := hmagw2
        refine ⟨?_, ?_, ?_, ?_, hfm2perm.nodup_iff.mpr hnf, ?_, ?_, ?_, ?_⟩
        · intro v
          rw [hfm2perm.mem_iff, hlt, hr2, hr3, hma]
          by_cases hvw : v = w
          · subst hvw
            simp only [(hmem v).mpr (Or.inr (Or.inl hF)), true_iff]
            exact Or.inr (Or.inr (by simp))
          · rw [hmem v]
            simp only [List.mem_erase_of_ne hvw, List.mem_append, List.mem_singleton,
              hvw, or_false]
        · intro v hv
          rw [hlt, hr2] at hv
          rw [hlt, hr3]
          exact fun hc => hdtf v hv (List.mem_of_mem_erase hc)
        · intro v hv
          rw [hlt, hr2] at hv
          rw [hma]
          intro hc
          rcases List.mem_append.mp hc with h1 | h1
          · exact hdtm v hv h1
          · rw [List.mem_singleton] at h1
            subst h1
            exact hT hv
        · intro v hv
          rw [hlt, hr3] at hv
          rw [hma]
          intro hc
          rcases List.mem_append.mp hc with h1 | h1
          · exact hdfm v (List.mem_of_mem_erase hv) h1
          · rw [List.mem_singleton] at h1
            subst h1
            exact hnfl.not_mem_erase hv
        · rw [hlt, hr2]
          exact hnt
        · rw [hlt, hr3]
          exact hnfl.erase w
        · rw [hma]
          refine List.Nodup.append hnm (by simp) ?_
          intro a ha hb
          rw [List.mem_singleton] at hb
          exact hM (hb ▸ ha)
        · intro v hv
          rw [hlt, hr2] at hv ⊢
          exact horig v hv
      · -- unknown window: everything unchanged
        rw [MinimiseManager.toggle_min_err hM hT hF]
        exact ⟨hmem, hdtf, hdtm, hdfm, hnf, hnt, hnfl, hnm, horig⟩

theorem MInv_fot_focus_shifted {m : MinimiseManager} {fm fm1 : FocusManager}
    (w : Option Window) (h : MInv m fm)
    (hperm : fm1.get_windows.Perm fm.get_windows) :
    MInv { m with layout_manager := (m.layout_manager.focus_shifted w).2 } fm1 := by
  cases w with
  | none =>
    have hrefl : (m.layout_manager.focus_shifted none).2 = m.layout_manager := rfl
    rw [hrefl]
    exact MInv_fm_perm h hperm
  | some v =>
    by_cases hvf : v ∈ m.layout_manager.float_manager.get_windows
    · obtain ⟨h1, h2, h3, h4⟩ :=
        FloatOrTileManager.focus_shifted_float_spec hvf h.nodup_floats
      refine MInv_layout_change h ?_ ?_ ?_ ?_ hperm ?_
      · intro u
        rw [h2, h3, mem_erase_append_singleton_iff hvf]
      · intro u hu
        rw [h2] at hu
        rw [h3, mem_erase_append_singleton_iff hvf]
        exact h.disj_tf u hu
      · rw [h2]
        exact h.nodup_tiles
      · rw [h3]
        exact nodup_erase_append_singleton h.nodup_floats
      · intro u hu
        rw [h2] at hu ⊢
        exact h.orig u hu
    · have heq : (m.layout_manager.focus_shifted (some v)).2 = m.layout_manager := by
        rw [FloatOrTileManager.focus_shifted_not_float hvf]
      rw [heq]
      exact MInv_fm_perm h hperm

theorem MinimiseManager.focus_shifted_min {m : MinimiseManager} {v : Window}
    (hM : v ∈ m.minimise_assistant_manager.get_windows)
    (hT : v ∉ m.layout_manager.tile_manager.tiles)
    (hF : v ∉ m.layout_manager.float_manager.get_windows) :
    ∃ info, infoFind m.minimise_assistant_manager.minis v = some info ∧
      info.window = v ∧
      (m.focus_shifted (some v)).2 =
        { layout_manager :=
            (((m.layout_manager.add_window info).2).focus_shifted (some v)).2,
          minimise_assistant_manager :=
            (m.minimise_assistant_manager.remove_window v).2 } := by
  obtain ⟨info, hfind, hok, hmemi, hwin⟩ := MinimiseAssistantManager.ma_get_window_info_ok hM
  obtain ⟨i, hfp, hrm, hrmw⟩ := MinimiseAssistantManager.ma_remove_ok hM
  have haddok : (m.layout_manager.add_window info).1 = Except.ok () := by
    cases hmode : info.float_or_tile with
    | Tile =>
      rw [FloatOrTileManager.add_tile_ok hmode (by rw [hwin]; exact hT)]
    | Float =>
      rw [FloatOrTileManager.add_float_ok hmode (by rw [hwin]; exact hF)]
  refine ⟨info, hfind, hwin, ?_⟩
  cases hadd : m.layout_manager.add_window info with
  | mk r2 lm1 =>
    rw [hadd] at haddok
    simp only at haddok
    subst haddok
    simp only [MinimiseManager.focus_shifted,
      MinimiseAssistantManager.ma_is_managed_true hM, if_true, hok, hrm, hadd]

theorem MinimiseManager.focus_shifted_not_min_eq {m : MinimiseManager}
    {w : Option Window}
    (hnm : ∀ v, w = some v → v ∉ m.minimise_assistant_manager.get_windows) :
    (m.focus_shifted w).2 =
      { m with layout_manager := (m.layout_manager.focus_shifted w).2 } := by
  cases w with
  | none => rfl
  | some v =>
    simp only [MinimiseManager.focus_shifted,
      MinimiseAssistantManager.ma_is_managed_false (hnm v rfl), Bool.false_eq_true,
      if_false]

theorem MInv_mm_focus_shifted {m : MinimiseManager} {fm fm1 : FocusManager}
    (w : Option Window) (h : MInv m fm)
    (hperm : fm1.get_windows.Perm fm.get_windows) :
    MInv (m.focus_shifted w).2 fm1 := by
  cases w with
  | none =>
    rw [MinimiseManager.focus_shifted_not_min_eq (by intro v hv; cases hv)]
    exact MInv_fot_focus_shifted none h hperm
  | some v =>
    by_cases hM : v ∈ m.minimise_assistant_manager.get_windows
    · have hT : v ∉ m.layout_manager.tile_manager.tiles := fun hc => h.disj_tm v hc hM
      have hF : v ∉ m.layout_manager.float_manager.get_windows :=
        fun hc => h.disj_fm v hc hM
      obtain ⟨info, hfind, hwin, hstate⟩ := MinimiseManager.focus_shifted_min hM hT hF
      rw [hstate]
      exact MInv_fot_focus_shifted (some v) (MInv_restore_core h hM hwin) hperm
    · rw [MinimiseManager.focus_shifted_not_min_eq
        (by intro u hu; rw [Option.some_inj] at hu; subst hu; exact hM)]
      exact MInv_fot_focus_shifted (some v) h hperm

theorem MInv_fot_toggle {m : MinimiseManager} {fm : FocusManager} (w : Window)
    (h : MInv m fm) :
    MInv { m with layout_manager := (m.layout_manager.toggle_floating w fm).2.1 }
      ((m.layout_manager.toggle_floating w fm).2.2) := by
  by_cases hfm : w ∈ fm.get_windows
  · by_cases hfl : w ∈ m.layout_manager.float_manager.get_windows
    · -- float → tile
      have ht : w ∉ m.layout_manager.tile_manager.tiles := fun hc => h.disj_tf w hc hfl
      obtain ⟨info, hfind, hwin, hr, htl, hor, hsc, hflw, hfsc, hfm2⟩ :=
        FloatOrTileManager.toggle_float_to_tile hfm hfl ht
      obtain ⟨fm1, hfeq, hfoc, hperm, hfm1⟩ := FocusManager.focus_some_ok_eq hfm
      rw [← hfm1] at hfm2
      rw [hfm2]
      refine MInv_layout_change h ?_ ?_ ?_ ?_ hperm ?_
      · intro v
        rw [htl, hflw]
        by_cases hvw : v = w
        · subst hvw
          simp [hfl]
        · rw [List.mem_erase_of_ne hvw]
          simp [List.mem_append, List.mem_singleton, hvw]
      · intro v hv
        rw [htl] at hv
        rw [hflw]
        rcases List.mem_append.mp hv with h1 | h1
        · exact fun hc => h.disj_tf v h1 (List.mem_of_mem_erase hc)
        · rw [List.mem_singleton] at h1
          subst h1
          exact h.nodup_floats.not_mem_erase
      · rw [htl]
        refine List.Nodup.append h.nodup_tiles (by simp) ?_
        intro a ha hb
        rw [List.mem_singleton] at hb
        exact ht (hb ▸ ha)
      · rw [hflw]
        exact h.nodup_floats.erase w
      · intro v hv
        rw [htl] at hv
        rw [hor, mapGet_mapInsert]
        by_cases hvw : w = v
        · exact ⟨_, by rw [if_pos hvw], hvw⟩
        · rw [if_neg hvw]
          rcases List.mem_append.mp hv with h1 | h1
          · exact h.orig v h1
          · rw [List.mem_singleton] at h1
            exact absurd h1.symm hvw
    · by_cases ht : w ∈ m.layout_manager.tile_manager.tiles
      · -- tile → float
        obtain ⟨oinfo, horigw, hkey⟩ := h.orig w ht
        obtain ⟨hr, htl, hor, hsc, hflw, hfsc, hfm2⟩ :=
          FloatOrTileManager.toggle_tile_to_float hfm hfl ht horigw hkey
        obtain ⟨fm1, hfeq, hfoc, hperm, hfm1⟩ := FocusManager.focus_some_ok_eq hfm
        rw [← hfm1] at hfm2
        rw [hfm2]
        have hfwin : ((m.layout_manager.toggle_floating w fm).2.1).float_manager.get_windows =
            m.layout_manager.float_manager.get_windows ++ [w] := by
          show (((m.layout_manager.toggle_floating w fm).2.1).float_manager.floaters).map
            (fun j => j.window) = _
          rw [hflw]
          simp [FloatManager.get_windows, hkey]
        refine MInv_layout_change h ?_ ?_ ?_ ?_ hperm ?_
        · intro v
          rw [htl, hfwin]
          by_cases hvw : v = w
          · subst hvw
            simp [ht]
          · rw [List.mem_erase_of_ne hvw]
            simp [List.mem_append, List.mem_singleton, hvw]
        · intro v hv
          rw [htl] at hv
          rw [hfwin]
          intro hc
          rcases List.mem_append.mp hc with h1 | h1
          · exact h.disj_tf v (List.mem_of_mem_erase hv) h1
          · rw [List.mem_singleton] at h1
            subst h1
            exact h.nodup_tiles.not_mem_erase hv
        · rw [htl]
          exact h.nodup_tiles.erase w
        · rw [hfwin]
          refine List.Nodup.append h.nodup_floats (by simp) ?_
          intro a ha hb
          rw [List.mem_singleton] at hb
          exact hfl (hb ▸ ha)
        · intro v hv
          rw [htl] at hv
          rw [hor, mapGet_mapRemove]
          have hvw : ¬ w = v := by
            intro hwv
            subst hwv
            exact h.nodup_tiles.not_mem_erase hv
          rw [if_neg hvw]
          exact h.orig v (List.mem_of_mem_erase hv)
      · -- unknown to the layout side
        have heq := @FloatOrTileManager.toggle_neither m.layout_manager w fm hfm hfl ht
        have h21 : (m.layout_manager.toggle_floating w fm).2.1 = m.layout_manager := by
          rw [heq]
        have h22 : (m.layout_manager.toggle_floating w fm).2.2 =
            (fm.focus_window (some w)).2 := by
          rw [heq]
        rw [h21, h22]
        exact MInv_fm_perm h (FocusManager.focus_get_windows_perm fm (some w))
  · have heq := @FloatOrTileManager.toggle_unmanaged m.layout_manager w fm hfm
    have h21 : (m.layout_manager.toggle_floating w fm).2.1 = m.layout_manager := by
      rw [heq]
    have h22 : (m.layout_manager.toggle_floating w fm).2.2 =
        { windows := fm.get_windows, focused_window := none } := by
      rw [heq]
    rw [h21, h22]
    exact MInv_fm_perm h (by rw [FocusManager.get_windows_mk]; simp)

theorem MInv_fot_tm_swap_master {m : MinimiseManager} {fm : FocusManager} (w : Window)
    (h : MInv m fm) :
    MInv { m with layout_manager := { m.layout_manager with
        tile_manager :=
          (m.layout_manager.tile_manager.swap_with_master VerticalLayout w fm).2.1 } }
      (m.layout_manager.tile_manager.swap_with_master VerticalLayout w fm).2.2 := by
  by_cases ht : w ∈ m.layout_manager.tile_manager.tiles
  · have hne : m.layout_manager.tile_manager.tiles ≠ [] := by
      intro hc
      rw [hc] at ht
      exact absurd ht (List.not_mem_nil w)
    obtain ⟨l2, hok, hperm, hhead⟩ := vertical_swap_with_master_ok hne ht
    have hfmw : w ∈ fm.get_windows := (h.mem_iff w).mpr (Or.inl ht)
    obtain ⟨fm1, hfeq, hfoc, hfperm, hfm1⟩ := FocusManager.focus_some_ok_eq hfmw
    have hswap : m.layout_manager.tile_manager.swap_with_master VerticalLayout w fm =
        ((fm.focus_window (some w)).1,
          { m.layout_manager.tile_manager with tiles := l2 },
          (fm.focus_window (some w)).2) := by
      rw [TileManager.swap_with_master, VerticalLayout_swap_with_master_eq, hok]
    rw [hswap, ← hfm1]
    refine MInv_layout_change h ?_ ?_ ?_ h.nodup_floats hfperm ?_
    · intro v
      show v ∈ l2 ∨ _ ↔ _
      rw [hperm.mem_iff]
    · intro v hv
      exact h.disj_tf v (hperm.mem_iff.mp hv)
    · exact hperm.nodup_iff.mpr h.nodup_tiles
    · intro v hv
      exact h.orig v (hperm.mem_iff.mp hv)
  · have hswap : m.layout_manager.tile_manager.swap_with_master VerticalLayout w fm =
        (Except.error (StandardError.UnknownWindow w),
          m.layout_manager.tile_manager, fm) := by
      rw [TileManager.swap_with_master, VerticalLayout_swap_with_master_eq,
        vertical_swap_with_master_err_absent ht]
    rw [hswap]
    exact MInv_fm_perm h (List.Perm.refl _)

theorem MInv_fot_swap_master {m : MinimiseManager} {fm : FocusManager} (w : Window)
    (h : MInv m fm) :
    MInv { m with layout_manager :=
        (m.layout_manager.swap_with_master VerticalLayout w fm).2.1 }
      (m.layout_manager.swap_with_master VerticalLayout w fm).2.2 := by
  by_cases hfl : w ∈ m.layout_manager.float_manager.get_windows
  · have hflb := FloatOrTileManager.is_floating_true hfl
    have hfm : w ∈ fm.get_windows := (h.mem_iff w).mpr (Or.inr (Or.inl hfl))
    have ht : w ∉ m.layout_manager.tile_manager.tiles := fun hc => h.disj_tf w hc hfl
    obtain ⟨info, hfind, hwin, hr, htl, hor, hsc, hflw, hfsc, hfm2⟩ :=
      FloatOrTileManager.toggle_float_to_tile hfm hfl ht
    have hInv1 := MInv_fot_toggle w h
    have htogeq : m.layout_manager.toggle_floating w fm =
        (Except.ok (), (m.layout_manager.toggle_floating w fm).2.1,
          (m.layout_manager.toggle_floating w fm).2.2) := by
      rw [← hr]
    have hw1 : w ∈ ((m.layout_manager.toggle_floating w fm).2.1).tile_manager.tiles := by
      rw [htl]
      simp
    have hne1 : ((m.layout_manager.toggle_floating w fm).2.1).tile_manager.tiles ≠ [] := by
      rw [htl]
      simp
    have hfmw1 : w ∈ ((m.layout_manager.toggle_floating w fm).2.2).get_windows :=
      (hInv1.mem_iff w).mpr (Or.inl hw1)
    obtain ⟨l2, hok, hperm2, hhead2⟩ := vertical_swap_with_master_ok hne1 hw1
    obtain ⟨fm2, hfeq2, hfoc2, hfperm2, hfm2e⟩ := FocusManager.focus_some_ok_eq hfmw1
    have hs2eq : ((m.layout_manager.toggle_floating w fm).2.1).tile_manager.swap_with_master
        VerticalLayout w ((m.layout_manager.toggle_floating w fm).2.2) =
        (Except.ok (),
          { ((m.layout_manager.toggle_floating w fm).2.1).tile_manager with tiles := l2 },
          fm2) := by
      rw [TileManager.swap_with_master, VerticalLayout_swap_with_master_eq, hok, hfeq2]
    have hmaster : ∃ mw,
        ((m.layout_manager.toggle_floating w fm).2.1).get_master_window VerticalLayout =
          some mw := by
      rw [FloatOrTileManager.get_master_window, TileManager.get_master_window,
        VerticalLayout_get_master_eq, VerticalLayoutDef.get_master_window]
      cases hcase : ((m.layout_manager.toggle_floating w fm).2.1).tile_manager.tiles with
      | nil => exact absurd hcase hne1
      | cons a t => exact ⟨a, rfl⟩
    obtain ⟨master, hmm⟩ := hmaster
    have hInv2 : MInv { m with layout_manager :=
        { (m.layout_manager.toggle_floating w fm).2.1 with tile_manager :=
          { ((m.layout_manager.toggle_floating w fm).2.1).tile_manager with
              tiles := l2 } } } fm2 := by
      have h2 := @MInv_fot_tm_swap_master { m with layout_manager :=
          (m.layout_manager.toggle_floating w fm).2.1 }
        ((m.layout_manager.toggle_floating w fm).2.2) w hInv1
      rw [hs2eq] at h2
      exact h2
    have hfinal := MInv_fot_toggle (m := { m with layout_manager :=
        { (m.layout_manager.toggle_floating w fm).2.1 with tile_manager :=
          { ((m.layout_manager.toggle_floating w fm).2.1).tile_manager with
              tiles := l2 } } }) master hInv2
    simp only [FloatOrTileManager.swap_with_master, hflb, if_true]
    rw [htogeq]
    simp only [hmm, hs2eq]
    exact hfinal
  · have hflb := FloatOrTileManager.is_floating_false hfl
    cases hts : m.layout_manager.tile_manager.swap_with_master VerticalLayout w fm with
    | mk r p =>
      obtain ⟨tm1, fm1⟩ := p
      have key := MInv_fot_tm_swap_master w h
      rw [hts] at key
      simp only [FloatOrTileManager.swap_with_master, hflb, Bool.false_eq_true,
        if_false, hts]
      exact key

theorem MInv_maximise {m : MinimiseManager} {fm : FocusManager} (w : Window)
    (h : MInv m fm) :
    MInv (m.maximise_if_minimised VerticalLayout w fm).2.1
      (m.maximise_if_minimised VerticalLayout w fm).2.2 := by
  by_cases hM : w ∈ m.minimise_assistant_manager.get_windows
  · simp only [MinimiseManager.maximise_if_minimised,
      MinimiseAssistantManager.ma_is_managed_true hM, if_true]
    exact MInv_toggle_min w h
  · simp only [MinimiseManager.maximise_if_minimised,
      MinimiseAssistantManager.ma_is_managed_false hM, Bool.false_eq_true, if_false]
    exact h

theorem MInv_mm_toggle {m : MinimiseManager} {fm : FocusManager} (w : Window)
    (h : MInv m fm) :
    MInv (m.toggle_floating VerticalLayout w fm).2.1
      (m.toggle_floating VerticalLayout w fm).2.2 := by
  have hmax := MInv_maximise w h
  cases hmx : m.maximise_if_minimised VerticalLayout w fm with
  | mk r0 p =>
    obtain ⟨m1, fm1⟩ := p
    rw [hmx] at hmax
    simp only at hmax
    cases r0 with
    | error e =>
      simp only [MinimiseManager.toggle_floating, hmx]
      exact hmax
    | ok u =>
      cases u
      have key := MInv_fot_toggle w hmax
      cases htg : m1.layout_manager.toggle_floating w fm1 with
      | mk r q =>
        obtain ⟨lm1, fm2⟩ := q
        rw [htg] at key
        simp only at key
        simp only [MinimiseManager.toggle_floating, hmx, htg]
        exact key

theorem MInv_mm_swap_master {m : MinimiseManager} {fm : FocusManager} (w : Window)
    (h : MInv m fm) :
    MInv (m.swap_with_master VerticalLayout w fm).2.1
      (m.swap_with_master VerticalLayout w fm).2.2 := by
  have hmax := MInv_maximise w h
  cases hmx : m.maximise_if_minimised VerticalLayout w fm with
  | mk r0 p =>
    obtain ⟨m1, fm1⟩ := p
    rw [hmx] at hmax
    simp only at hmax
    cases r0 with
    | error e =>
      simp only [MinimiseManager.swap_with_master, hmx]
      exact hmax
    | ok u =>
      cases u
      have key := MInv_fot_swap_master w hmax
      cases hsw : m1.layout_manager.swap_with_master VerticalLayout w fm1 with
      | mk r q =>
        obtain ⟨lm1, fm2⟩ := q
        rw [hsw] at key
        simp only at key
        simp only [MinimiseManager.swap_with_master, hmx, hsw]
        exact key

theorem MInv_mm_swap {m : MinimiseManager} {fm : FocusManager} (dir : PrevOrNext)
    (h : MInv m fm) :
    MInv (m.swap_windows VerticalLayout dir fm) fm := by
  show MInv { m with layout_manager :=
    m.layout_manager.swap_windows VerticalLayout dir fm } fm
  cases hfoc : fm.get_focused_window with
  | none =>
    have heq : m.layout_manager.swap_windows VerticalLayout dir fm =
        m.layout_manager := by
      rw [FloatOrTileManager.swap_windows, hfoc]
    rw [heq]
    exact h
  | some v =>
    by_cases htl : m.layout_manager.is_tiled v = true
    · have hswap : m.layout_manager.swap_windows VerticalLayout dir fm =
          { m.layout_manager with tile_manager :=
              { m.layout_manager.tile_manager with
                tiles := VerticalLayoutDef.swap_windows v dir
                  m.layout_manager.tile_manager.tiles } } := by
        simp only [FloatOrTileManager.swap_windows, hfoc, htl, if_true,
          TileManager.swap_windows, VerticalLayout_swap_windows_eq]
      have hperm := vertical_swap_windows_perm v dir m.layout_manager.tile_manager.tiles
      rw [hswap]
      refine MInv_layout_change h ?_ ?_ ?_ h.nodup_floats (List.Perm.refl _) ?_
      · intro u
        show u ∈ VerticalLayoutDef.swap_windows v dir _ ∨ _ ↔ _
        rw [hperm.mem_iff]
      · intro u hu
        exact h.disj_tf u (hperm.mem_iff.mp hu)
      · exact hperm.nodup_iff.mpr h.nodup_tiles
      · intro u hu
        exact h.orig u (hperm.mem_iff.mp hu)
    · have htl2 : m.layout_manager.is_tiled v = false := (Bool.not_eq_true _).mp htl
      have heq : m.layout_manager.swap_windows VerticalLayout dir fm =
          m.layout_manager := by
        simp only [FloatOrTileManager.swap_windows, hfoc, htl2, Bool.false_eq_true,
          if_false]
      rw [heq]
      exact h

theorem MInv_mm_set_geom {m : MinimiseManager} {fm : FocusManager} (w : Window)
    (g : Geometry) (h : MInv m fm) :
    MInv (m.set_window_geometry w g).2 fm := by
  show MInv { m with layout_manager :=
    (m.layout_manager.set_window_geometry w g).2 } fm
  by_cases hf : w ∈ m.layout_manager.float_manager.get_windows
  · obtain ⟨info, h1, h2, h3, h4, h5⟩ :=
      FloatOrTileManager.set_geometry_float_ok (g := g) hf
    refine MInv_layout_change h ?_ ?_ ?_ ?_ (List.Perm.refl _) ?_
    · intro u
      rw [h3, h4]
    · intro u hu
      rw [h3] at hu
      rw [h4]
      exact h.disj_tf u hu
    · rw [h3]
      exact h.nodup_tiles
    · rw [h4]
      exact h.nodup_floats
    · intro u hu
      rw [h3] at hu ⊢
      exact h.orig u hu
  · by_cases ht : w ∈ m.layout_manager.tile_manager.tiles
    · have heq : (m.layout_manager.set_window_geometry w g).2 = m.layout_manager := by
        rw [FloatOrTileManager.set_geometry_tiled_err hf ht]
      rw [heq]
      exact h
    · have heq : (m.layout_manager.set_window_geometry w g).2 = m.layout_manager := by
        rw [FloatOrTileManager.set_geometry_unknown_err hf ht]
      rw [heq]
      exact h

theorem MInv_mm_resize {m : MinimiseManager} {fm : FocusManager} (screen : Screen)
    (h : MInv m fm) : MInv (m.resize_screen screen) fm :=
  ⟨h.mem_iff, h.disj_tf, h.disj_tm, h.disj_fm, h.nodup_focus, h.nodup_tiles,
    h.nodup_floats, h.nodup_minis, h.orig⟩

/-! ## `MinimiseWM` facade preservation -/

theorem MinimiseInv_focus (s : MinimiseWM) (w : Option Window) (h : MinimiseInv s) :
    MinimiseInv (s.focus_window w).2 := by
  cases w with
  | none =>
    have hstate : (s.focus_window none).2 =
        { focus_manager :=
            { windows := s.focus_manager.get_windows, focused_window := none },
          minimise_manager := (s.minimise_manager.focus_shifted none).2 } := by
      simp only [MinimiseWM.focus_window, FocusManager.focus_none_eq]
    rw [hstate]
    exact MInv_mm_focus_shifted none h (by rw [FocusManager.get_windows_mk]; simp)
  | some v =>
    have hmax := MInv_maximise v h
    cases hmx : s.minimise_manager.maximise_if_minimised VerticalLayout v
        s.focus_manager with
    | mk r0 p =>
      obtain ⟨mm1, fm1⟩ := p
      rw [hmx] at hmax
      simp only at hmax
      cases r0 with
      | error e =>
        simp only [MinimiseWM.focus_window, hmx]
        exact hmax
      | ok u =>
        cases u
        by_cases hv : v ∈ fm1.get_windows
        · obtain ⟨fm2, hfeq, hfoc, hperm, hfm2⟩ := FocusManager.focus_some_ok_eq hv
          have hstate : (s.focus_window (some v)).2 =
              { focus_manager := fm2,
                minimise_manager := (mm1.focus_shifted (some v)).2 } := by
            simp only [MinimiseWM.focus_window, hmx, hfeq]
          rw [hstate]
          exact MInv_mm_focus_shifted (some v) hmax hperm
        · have hstate : (s.focus_window (some v)).2 =
              { focus_manager :=
                  { windows := fm1.get_windows, focused_window := none },
                minimise_manager := mm1 } := by
            simp only [MinimiseWM.focus_window, hmx, FocusManager.focus_some_err hv]
          rw [hstate]
          exact MInv_fm_perm hmax (by rw [FocusManager.get_windows_mk]; simp)

theorem MinimiseInv_cycle (s : MinimiseWM) (dir : PrevOrNext) (h : MinimiseInv s) :
    MinimiseInv (s.cycle_focus dir) := by
  show MInv (s.minimise_manager.focus_shifted
      (s.focus_manager.cycle_focus dir).get_focused_window).2
    (s.focus_manager.cycle_focus dir)
  exact MInv_mm_focus_shifted _ h (FocusManager.cycle_get_windows_perm s.focus_manager dir)

theorem MinimiseInv_swap_master (s : MinimiseWM) (w : Window) (h : MinimiseInv s) :
    MinimiseInv (s.swap_with_master w).2 :=
  MInv_mm_swap_master w h

theorem MinimiseInv_swap (s : MinimiseWM) (dir : PrevOrNext) (h : MinimiseInv s) :
    MinimiseInv (s.swap_windows dir) :=
  MInv_mm_swap dir h

theorem MinimiseInv_toggle (s : MinimiseWM) (w : Window) (h : MinimiseInv s) :
    MinimiseInv (s.toggle_floating w).2 :=
  MInv_mm_toggle w h

theorem MinimiseInv_set_geom (s : MinimiseWM) (w : Window) (g : Geometry)
    (h : MinimiseInv s) : MinimiseInv (s.set_window_geometry w g).2 :=
  MInv_mm_set_geom w g h

theorem MinimiseInv_resize (s : MinimiseWM) (screen : Screen) (h : MinimiseInv s) :
    MinimiseInv (s.resize_screen screen) :=
  MInv_mm_resize screen h

theorem MinimiseInv_toggle_min (s : MinimiseWM) (w : Window) (h : MinimiseInv s) :
    MinimiseInv (s.toggle_minimised w).2 :=
  MInv_toggle_min w h

/-- Every reachable `MinimiseWM` state satisfies the cross-manager invariant. -/
theorem MinimiseInv_of_reach {s : MinimiseWM} (h : MinimiseReach s) : MinimiseInv s := by
  induction h with
  | init screen => exact MinimiseInv_new screen
  | add s info _ ih => exact MinimiseInv_add s info ih
  | remove s w _ ih => exact MinimiseInv_remove s w ih
  | focus s w _ ih => exact MinimiseInv_focus s w ih
  | cycle s dir _ ih => exact MinimiseInv_cycle s dir ih
  | swap_master s w _ ih => exact MinimiseInv_swap_master s w ih
  | swap s dir _ ih => exact MinimiseInv_swap s dir ih
  | toggle s w _ ih => exact MinimiseInv_toggle s w ih
  | set_geom s w g _ ih => exact MinimiseInv_set_geom s w g ih
  | resize s screen _ ih => exact MinimiseInv_resize s screen ih
  | toggle_min s w _ ih => exact MinimiseInv_toggle_min s w ih

theorem MinimiseManager.is_managed_iff (m : MinimiseManager) (v : Window) :
    m.is_managed v = true ↔ v ∈ m.get_windows := by
  simp [MinimiseManager.is_managed, List.elem_iff]

/-- C2: in every `MinimiseWM` state reachable from `new` by public operations, the
tiled, floating and minimised buckets are pairwise disjoint, and a window is managed
by the composite manager exactly when it appears in the focus component's window
set. -/
theorem claim_C2_minimise_buckets_invariant (s : MinimiseWM) (h : MinimiseReach s) :
    (∀ v ∈ s.minimise_manager.get_tiled_windows,
        v ∉ s.minimise_manager.get_floating_windows) ∧
    (∀ v ∈ s.minimise_manager.get_tiled_windows, v ∉ s.get_minimised_windows) ∧
    (∀ v ∈ s.minimise_manager.get_floating_windows, v ∉ s.get_minimised_windows) ∧
    (∀ v, s.minimise_manager.is_managed v = true ↔ v ∈ s.get_windows) := by
  have inv := MinimiseInv_of_reach h
  refine ⟨inv.disj_tf, inv.disj_tm, inv.disj_fm, ?_⟩
  intro v
  rw [MinimiseManager.is_managed_iff]
  show v ∈ _ ++ _ ↔ _
  simp only [MinimiseManager.get_windows, FloatOrTileManager.get_windows,
    TileManager.get_windows, List.mem_append]
  rw [show (v ∈ s.get_windows) = (v ∈ s.focus_manager.get_windows) from rfl,
    inv.mem_iff v]
  tauto

/-- Witness for C2: the invariant holds at the reachable state obtained by adding one
tiled window to a fresh 800×600 manager. -/
theorem claim_C2_witness :
    (∀ v ∈ (((MinimiseWM.new { width := 800, height := 600 }).add_window
        (WindowWithInfo.new_tiled 1
          { x := 0, y := 0, width := 100, height := 100 })).2).minimise_manager.get_tiled_windows,
      v ∉ (((MinimiseWM.new { width := 800, height := 600 }).add_window
        (WindowWithInfo.new_tiled 1
          { x := 0, y := 0, width := 100, height := 100 })).2).minimise_manager.get_floating_windows) ∧
    (∀ v ∈ (((MinimiseWM.new { width := 800, height := 600 }).add_window
        (WindowWithInfo.new_tiled 1
          { x := 0, y := 0, width := 100, height := 100 })).2).minimise_manager.get_tiled_windows,
      v ∉ (((MinimiseWM.new { width := 800, height := 600 }).add_window
        (WindowWithInfo.new_tiled 1
          { x := 0, y := 0, width := 100, height := 100 })).2).get_minimised_windows) ∧
    (∀ v ∈ (((MinimiseWM.new { width := 800, height := 600 }).add_window
        (WindowWithInfo.new_tiled 1
          { x := 0, y := 0, width := 100, height := 100 })).2).minimise_manager.get_floating_windows,
      v ∉ (((MinimiseWM.new { width := 800, height := 600 }).add_window
        (WindowWithInfo.new_tiled 1
          { x := 0, y := 0, width := 100, height := 100 })).2).get_minimised_windows) ∧
    (∀ v, (((MinimiseWM.new { width := 800, height := 600 }).add_window
        (WindowWithInfo.new_tiled 1
          { x := 0, y := 0, width := 100, height := 100 })).2).minimise_manager.is_managed v = true ↔
      v ∈ (((MinimiseWM.new { width := 800, height := 600 }).add_window
        (WindowWithInfo.new_tiled 1
          { x := 0, y := 0, width := 100, height := 100 })).2).get_windows) :=
  claim_C2_minimise_buckets_invariant _
    (MinimiseReach.add _ _ (MinimiseReach.init _))

/-- C5: in reachable `MinimiseWM` states, minimising the focused (non-minimised)
window clears the focus; focusing a minimised window — explicitly via `focus_window`
or by `cycle_focus` landing on it — un-minimises it (and for `focus_window` leaves it
focused); and scenario C behaves exactly as specified. -/
theorem claim_C5_focus_minimise_coupling
    (s1 : MinimiseWM) (w1 : Window) (h1 : MinimiseReach s1)
    (hfoc1 : s1.get_focused_window = some w1)
    (hmin1 : w1 ∉ s1.get_minimised_windows)
    (s2 : MinimiseWM) (w2 : Window) (h2 : MinimiseReach s2)
    (hmin2 : w2 ∈ s2.get_minimised_windows)
    (s3 : MinimiseWM) (dir : PrevOrNext) (v3 : Window) (h3 : MinimiseReach s3)
    (hfoc3 : (s3.cycle_focus dir).get_focused_window = some v3) :
    ((s1.toggle_minimised w1).2.get_focused_window = none ∧
      w1 ∈ (s1.toggle_minimised w1).2.get_minimised_windows) ∧
    ((s2.focus_window (some w2)).2.get_focused_window = some w2 ∧
      w2 ∉ (s2.focus_window (some w2)).2.get_minimised_windows) ∧
    v3 ∉ (s3.cycle_focus dir).get_minimised_windows ∧
    (scenarioC2.get_focused_window = none ∧ scenarioC2.is_minimised 1 = true ∧
      scenarioC3.get_focused_window = some 1 ∧ scenarioC3.is_minimised 1 = false) := by
  refine ⟨?_, ?_, ?_, by decide⟩
  · have inv := MinimiseInv_of_reach h1
    have hfm : w1 ∈ s1.focus_manager.get_windows := FocusManager.focused_mem hfoc1
    have hMn : w1 ∉ s1.minimise_manager.minimise_assistant_manager.get_windows := hmin1
    have hTF : w1 ∈ s1.minimise_manager.layout_manager.tile_manager.tiles ∨
        w1 ∈ s1.minimise_manager.layout_manager.float_manager.get_windows := by
      rcases (inv.mem_iff w1).mp hfm with hT | hF | hM
      · exact Or.inl hT
      · exact Or.inr hF
      · exact absurd hM hMn
    obtain ⟨info, hinfo, hwin, hrok⟩ : ∃ info,
        s1.minimise_manager.layout_manager.get_window_info VerticalLayout w1 =
          Except.ok info ∧ info.window = w1 ∧
        (s1.minimise_manager.layout_manager.remove_window w1).1 = Except.ok () := by
      by_cases hT : w1 ∈ s1.minimise_manager.layout_manager.tile_manager.tiles
      · obtain ⟨g, hg, hi⟩ := FloatOrTileManager.get_window_info_tiled hT
        exact ⟨_, hi, rfl, by rw [FloatOrTileManager.remove_tile_ok hT]⟩
      · have hF := hTF.resolve_left hT
        obtain ⟨info, hfind, hi, hwin⟩ := FloatOrTileManager.get_window_info_float hT hF
        exact ⟨info, hi, hwin, (FloatOrTileManager.remove_float_ok hT hF).1⟩
    obtain ⟨hr, hstate, hfw1, hfw2, hmagw⟩ :=
      @MinimiseManager.toggle_min_minimise s1.minimise_manager w1 s1.focus_manager _
        hMn hinfo hwin hrok
    constructor
    · show ((s1.minimise_manager.toggle_minimised VerticalLayout w1
          s1.focus_manager).2.2).get_focused_window = none
      rw [hfw1 hfoc1]
      rfl
    · show w1 ∈ ((s1.minimise_manager.toggle_minimised VerticalLayout w1
          s1.focus_manager).2.1).minimise_assistant_manager.get_windows
      rw [hmagw]
      simp
  · have inv := MinimiseInv_of_reach h2
    have hMw : w2 ∈ s2.minimise_manager.minimise_assistant_manager.get_windows := hmin2
    have hT : w2 ∉ s2.minimise_manager.layout_manager.tile_manager.tiles :=
      fun hc => inv.disj_tm w2 hc hMw
    have hF : w2 ∉ s2.minimise_manager.layout_manager.float_manager.get_windows :=
      fun hc => inv.disj_fm w2 hc hMw
    have hfm : w2 ∈ s2.focus_manager.get_windows :=
      (inv.mem_iff w2).mpr (Or.inr (Or.inr hMw))
    obtain ⟨info, hfind, hwin, hr, hstate, hfm2, hmagw, haddok⟩ :=
      MinimiseManager.toggle_min_restore hMw hT hF hfm
    have hmaxeq : s2.minimise_manager.maximise_if_minimised VerticalLayout w2
        s2.focus_manager =
        s2.minimise_manager.toggle_minimised VerticalLayout w2 s2.focus_manager := by
      simp only [MinimiseManager.maximise_if_minimised,
        MinimiseAssistantManager.ma_is_managed_true hMw, if_true]
    have hmax3 : s2.minimise_manager.maximise_if_minimised VerticalLayout w2
        s2.focus_manager =
        (Except.ok (),
          (s2.minimise_manager.toggle_minimised VerticalLayout w2 s2.focus_manager).2.1,
          (s2.minimise_manager.toggle_minimised VerticalLayout w2
            s2.focus_manager).2.2) := by
      rw [hmaxeq, ← hr]
    have hperm1 := FocusManager.focus_get_windows_perm s2.focus_manager (some w2)
    have hw1 : w2 ∈ ((s2.minimise_manager.toggle_minimised VerticalLayout w2
        s2.focus_manager).2.2).get_windows := by
      rw [hfm2]
      exact hperm1.mem_iff.mpr hfm
    obtain ⟨fm2, hfeq2, hfoc2, hperm2, hfm2e⟩ := FocusManager.focus_some_ok_eq hw1
    have hnotmin : w2 ∉ ((s2.minimise_manager.toggle_minimised VerticalLayout w2
        s2.focus_manager).2.1).minimise_assistant_manager.get_windows := by
      rw [hmagw]
      exact inv.nodup_minis.not_mem_erase
    have hfs := MinimiseManager.focus_shifted_not_min_eq
      (m := (s2.minimise_manager.toggle_minimised VerticalLayout w2
        s2.focus_manager).2.1)
      (w := some w2)
      (fun v hv => by
        rw [Option.some_inj] at hv
        subst hv
        exact hnotmin)
    have hstate2 : (s2.focus_window (some w2)).2 =
        { focus_manager := fm2,
          minimise_manager := (((s2.minimise_manager.toggle_minimised VerticalLayout w2
            s2.focus_manager).2.1).focus_shifted (some w2)).2 } := by
      simp only [MinimiseWM.focus_window, hmax3, hfeq2]
    rw [hstate2]
    constructor
    · exact hfoc2
    · show w2 ∉ ((((s2.minimise_manager.toggle_minimised VerticalLayout w2
          s2.focus_manager).2.1).focus_shifted
            (some w2)).2).minimise_assistant_manager.get_windows
      rw [hfs]
      exact hnotmin
  · have inv := MinimiseInv_of_reach h3
    have hfoc3c : (s3.focus_manager.cycle_focus dir).get_focused_window = some v3 :=
      hfoc3
    show v3 ∉ ((s3.minimise_manager.focus_shifted
        ((s3.focus_manager.cycle_focus dir).get_focused_window)).2).minimise_assistant_manager.get_windows
    rw [hfoc3c]
    by_cases hvM : v3 ∈ s3.minimise_manager.minimise_assistant_manager.get_windows
    · have hT : v3 ∉ s3.minimise_manager.layout_manager.tile_manager.tiles :=
        fun hc => inv.disj_tm v3 hc hvM
      have hF : v3 ∉ s3.minimise_manager.layout_manager.float_manager.get_windows :=
        fun hc => inv.disj_fm v3 hc hvM
      obtain ⟨info, hfind, hwin, hstate⟩ := MinimiseManager.focus_shifted_min hvM hT hF
      rw [hstate]
      show v3 ∉ ((s3.minimise_manager.minimise_assistant_manager.remove_window
          v3).2).get_windows
      obtain ⟨i, hfp, hrm, hrmw⟩ := MinimiseAssistantManager.ma_remove_ok hvM
      rw [hrmw]
      exact inv.nodup_minis.not_mem_erase
    · rw [MinimiseManager.focus_shifted_not_min_eq
        (fun v hv => by
          rw [Option.some_inj] at hv
          subst hv
          exact hvM)]
      exact hvM

/-- Witness for C5 at the scenario C states: scenario C step 1 (focused tiled window
`1`), step 2 (window `1` minimised) and `cycle_focus` landing back on `1`. -/
theorem claim_C5_witness :
    (((scenarioC1.toggle_minimised 1).2.get_focused_window = none ∧
      1 ∈ (scenarioC1.toggle_minimised 1).2.get_minimised_windows) ∧
    ((scenarioC2.focus_window (some 1)).2.get_focused_window = some 1 ∧
      1 ∉ (scenarioC2.focus_window (some 1)).2.get_minimised_windows) ∧
    1 ∉ (scenarioC2.cycle_focus PrevOrNext.Next).get_minimised_windows ∧
    (scenarioC2.get_focused_window = none ∧ scenarioC2.is_minimised 1 = true ∧
      scenarioC3.get_focused_window = some 1 ∧ scenarioC3.is_minimised 1 = false)) :=
  claim_C5_focus_minimise_coupling
    scenarioC1 1
    (MinimiseReach.focus _ _ (MinimiseReach.add _ _ (MinimiseReach.init _)))
    (by decide) (by decide)
    scenarioC2 1
    (MinimiseReach.toggle_min _ _
      (MinimiseReach.focus _ _ (MinimiseReach.add _ _ (MinimiseReach.init _))))
    (by decide)
    scenarioC2 PrevOrNext.Next 1
    (MinimiseReach.toggle_min _ _
      (MinimiseReach.focus _ _ (MinimiseReach.add _ _ (MinimiseReach.init _))))
    (by decide)

/-- C3: in any reachable `FloatWM` state where window `w` floats with stored info
`info`, toggling `w` twice restores it to floating mode with bit-for-bit the same
geometry (and fullscreen flag); scenario D is the concrete instance. -/
theorem claim_C3_toggle_floating_involution
    (s : FloatWM) (w : Window) (info : WindowWithInfo)
    (hreach : FloatReach s)
    (hfind : infoFind s.float_or_tile_manager.float_manager.floaters w = some info) :
    ((((s.toggle_floating w).2).toggle_floating w).2).get_window_info w =
      Except.ok { window := w, geometry := info.geometry,
                  float_or_tile := FloatOrTile.Float,
                  fullscreen := info.fullscreen } ∧
    w ∈ ((((s.toggle_floating w).2).toggle_floating w).2).get_floating_windows ∧
    (((scenarioD.toggle_floating 1).2.toggle_floating 1).2.get_window_info 1 =
      Except.ok { window := 1,
                  geometry := { x := 10, y := 20, width := 100, height := 400 },
                  float_or_tile := FloatOrTile.Float, fullscreen := false }) := by
  have inv : FTInv s.float_or_tile_manager s.focus_manager := FloatInv_of_reach hreach
  obtain ⟨hmemi, hwin⟩ := infoFind_some hfind
  have hfl : w ∈ s.float_or_tile_manager.float_manager.get_windows :=
    List.mem_map.mpr ⟨info, hmemi, hwin⟩
  have hfm : w ∈ s.focus_manager.get_windows := (inv.mem_iff w).mpr (Or.inr hfl)
  have ht : w ∉ s.float_or_tile_manager.tile_manager.tiles :=
    fun hc => inv.disj w hc hfl
  obtain ⟨info1, hfind1, hwin1, hr, htl, hor, hsc, hflw, hfsc, hfm2⟩ :=
    FloatOrTileManager.toggle_float_to_tile hfm hfl ht
  have hinfo1 : info = info1 := by
    rw [hfind] at hfind1
    exact Option.some_inj.mp hfind1
  subst hinfo1
  have hInv1 := FTInv_toggle w inv
  have hfm1 : w ∈ ((s.float_or_tile_manager.toggle_floating w
      s.focus_manager).2.2).get_windows := by
    rw [hfm2]
    exact (FocusManager.focus_get_windows_perm s.focus_manager (some w)).mem_iff.mpr hfm
  have hfl1 : w ∉ ((s.float_or_tile_manager.toggle_floating w
      s.focus_manager).2.1).float_manager.get_windows := by
    rw [hflw]
    exact inv.nodup_floats.not_mem_erase
  have ht1 : w ∈ ((s.float_or_tile_manager.toggle_floating w
      s.focus_manager).2.1).tile_manager.tiles := by
    rw [htl]
    simp
  have horig1 : mapGet ((s.float_or_tile_manager.toggle_floating w
      s.focus_manager).2.1).tile_manager.originals w =
      some { window := w, geometry := info.geometry,
             float_or_tile := FloatOrTile.Tile, fullscreen := info.fullscreen } := by
    rw [hor, mapGet_mapInsert, if_pos rfl]
  obtain ⟨hr2, htl2, hor2, hsc2, hflw2, hfsc2, hfm22⟩ :=
    FloatOrTileManager.toggle_tile_to_float hfm1 hfl1 ht1 horig1 rfl
  have ht2 : w ∉ ((((s.float_or_tile_manager.toggle_floating w
      s.focus_manager).2.1).toggle_floating w
        ((s.float_or_tile_manager.toggle_floating w
          s.focus_manager).2.2)).2.1).tile_manager.tiles := by
    rw [htl2]
    exact hInv1.nodup_tiles.not_mem_erase
  have hf2 : w ∈ ((((s.float_or_tile_manager.toggle_floating w
      s.focus_manager).2.1).toggle_floating w
        ((s.float_or_tile_manager.toggle_floating w
          s.focus_manager).2.2)).2.1).float_manager.get_windows := by
    show w ∈ (((((s.float_or_tile_manager.toggle_floating w
      s.focus_manager).2.1).toggle_floating w
        ((s.float_or_tile_manager.toggle_floating w
          s.focus_manager).2.2)).2.1).float_manager.floaters).map (fun j => j.window)
    rw [hflw2]
    simp
  obtain ⟨info3, hfind3, hok3, hwin3⟩ := FloatOrTileManager.get_window_info_float ht2 hf2
  have hnone : infoFind (((s.float_or_tile_manager.toggle_floating w
      s.focus_manager).2.1).float_manager.floaters) w = none :=
    (infoFind_eq_none_iff _ _).mpr hfl1
  have hinfo3 : info3 =
      { window := w, geometry := info.geometry,
        float_or_tile := FloatOrTile.Float, fullscreen := info.fullscreen } := by
    rw [hflw2, infoFind_append_of_none hnone] at hfind3
    simp [infoFind] at hfind3
    exact hfind3.symm
  subst hinfo3
  exact ⟨hok3, hf2, by rfl⟩

/-- Witness for C3: the scenario D base state with window `1` floating at
`(10,20) 100×400`. -/
theorem claim_C3_witness :
    ((((scenarioD.toggle_floating 1).2).toggle_floating 1).2).get_window_info 1 =
      Except.ok { window := 1,
                  geometry := { x := 10, y := 20, width := 100, height := 400 },
                  float_or_tile := FloatOrTile.Float, fullscreen := false } ∧
    1 ∈ ((((scenarioD.toggle_floating 1).2).toggle_floating 1).2).get_floating_windows ∧
    (((scenarioD.toggle_floating 1).2.toggle_floating 1).2.get_window_info 1 =
      Except.ok { window := 1,
                  geometry := { x := 10, y := 20, width := 100, height := 400 },
                  float_or_tile := FloatOrTile.Float, fullscreen := false }) :=
  claim_C3_toggle_floating_involution scenarioD 1
    { window := 1, geometry := { x := 10, y := 20, width := 100, height := 400 },
      float_or_tile := FloatOrTile.Float, fullscreen := false }
    (FloatReach.add _ _ (FloatReach.init _)) (by decide)

/-- C6: in any reachable `FloatWM` state where `f` floats and the non-empty tile row
has master `m ≠ f`, `swap_with_master f` succeeds, after which `f` is tiled in the
master slot and the previous master `m` floats — exactly one of the two windows is
floating and the other tiled. -/
theorem claim_C6_swap_with_master_float
    (s : FloatWM) (f m : Window)
    (hreach : FloatReach s)
    (hf : f ∈ s.get_floating_windows)
    (hm : s.get_master_window = some m)
    (hne : m ≠ f) :
    (s.swap_with_master f).1 = Except.ok () ∧
    f ∈ ((s.swap_with_master f).2).float_or_tile_manager.get_tiled_windows ∧
    ((s.swap_with_master f).2).get_master_window = some f ∧
    m ∈ ((s.swap_with_master f).2).get_floating_windows ∧
    f ∉ ((s.swap_with_master f).2).get_floating_windows ∧
    m ∉ ((s.swap_with_master f).2).float_or_tile_manager.get_tiled_windows := by
  have inv : FTInv s.float_or_tile_manager s.focus_manager := FloatInv_of_reach hreach
  have hf1 : f ∈ s.float_or_tile_manager.float_manager.get_windows := hf
  have hmhead : s.float_or_tile_manager.tile_manager.tiles.head? = some m := hm
  have hmT : m ∈ s.float_or_tile_manager.tile_manager.tiles := by
    cases hc : s.float_or_tile_manager.tile_manager.tiles with
    | nil =>
      rw [hc] at hmhead
      simp at hmhead
    | cons a t =>
      rw [hc] at hmhead
      rw [List.head?_cons, Option.some_inj] at hmhead
      rw [← hmhead]
      exact List.mem_cons_self a t
  have hfm : f ∈ s.focus_manager.get_windows := (inv.mem_iff f).mpr (Or.inr hf1)
  have htf : f ∉ s.float_or_tile_manager.tile_manager.tiles :=
    fun hc => inv.disj f hc hf1
  have hflb := FloatOrTileManager.is_floating_true hf1
  obtain ⟨info, hfind, hwin, hr, htl, hor, hsc, hflw, hfsc, hfm2⟩ :=
    FloatOrTileManager.toggle_float_to_tile hfm hf1 htf
  have hInv1 := FTInv_toggle f inv
  have htogeq : s.float_or_tile_manager.toggle_floating f s.focus_manager =
      (Except.ok (),
        (s.float_or_tile_manager.toggle_floating f s.focus_manager).2.1,
        (s.float_or_tile_manager.toggle_floating f s.focus_manager).2.2) := by
    rw [← hr]
  have hw1 : f ∈ ((s.float_or_tile_manager.toggle_floating f
      s.focus_manager).2.1).tile_manager.tiles := by
    rw [htl]
    simp
  have hne1 : ((s.float_or_tile_manager.toggle_floating f
      s.focus_manager).2.1).tile_manager.tiles ≠ [] := by
    rw [htl]
    simp
  have hfmw1 : f ∈ ((s.float_or_tile_manager.toggle_floating f
      s.focus_manager).2.2).get_windows :=
    (hInv1.mem_iff f).mpr (Or.inl hw1)
  obtain ⟨l2, hok, hperm2, hhead2⟩ := vertical_swap_with_master_ok hne1 hw1
  obtain ⟨fm2, hfeq2, hfoc2, hfperm2, hfm2e⟩ := FocusManager.focus_some_ok_eq hfmw1
  have hs2eq : ((s.float_or_tile_manager.toggle_floating f
      s.focus_manager).2.1).tile_manager.swap_with_master VerticalLayout f
        ((s.float_or_tile_manager.toggle_floating f s.focus_manager).2.2) =
      (Except.ok (),
        { ((s.float_or_tile_manager.toggle_floating f
            s.focus_manager).2.1).tile_manager with tiles := l2 },
        fm2) := by
    rw [TileManager.swap_with_master, VerticalLayout_swap_with_master_eq, hok, hfeq2]
  have hmm2 : ((s.float_or_tile_manager.toggle_floating f
      s.focus_manager).2.1).get_master_window VerticalLayout = some m := by
    rw [FloatOrTileManager.get_master_window, TileManager.get_master_window,
      VerticalLayout_get_master_eq, VerticalLayoutDef.get_master_window, htl]
    cases hc : s.float_or_tile_manager.tile_manager.tiles with
    | nil =>
      rw [hc] at hmhead
      simp at hmhead
    | cons a t =>
      rw [hc] at hmhead
      rw [List.head?_cons, Option.some_inj] at hmhead
      rw [List.cons_append, List.head?_cons, hmhead]
  have hInv2 : FTInv { (s.float_or_tile_manager.toggle_floating f
      s.focus_manager).2.1 with tile_manager :=
        { ((s.float_or_tile_manager.toggle_floating f
            s.focus_manager).2.1).tile_manager with tiles := l2 } } fm2 := by
    have h2 := @FTInv_tm_swap_master ((s.float_or_tile_manager.toggle_floating f
        s.focus_manager).2.1)
      ((s.float_or_tile_manager.toggle_floating f s.focus_manager).2.2) f hInv1
    rw [hs2eq] at h2
    exact h2
  -- side conditions for floating the old master
  have hmem2 : m ∈ l2 := hperm2.mem_iff.mpr (by rw [htl]; exact List.mem_append_left _ hmT)
  have hfl2 : m ∉ ((s.float_or_tile_manager.toggle_floating f
      s.focus_manager).2.1).float_manager.get_windows := by
    rw [hflw]
    exact fun hc => inv.disj m hmT (List.mem_of_mem_erase hc)
  have hfm2' : m ∈ fm2.get_windows := (hInv2.mem_iff m).mpr (Or.inl hmem2)
  obtain ⟨oinfo, horig2, hwino2⟩ := hInv2.orig m hmem2
  obtain ⟨hrF, htlF, horF, hscF, hflwF, hfscF, hfmF⟩ :=
    @FloatOrTileManager.toggle_tile_to_float
      { (s.float_or_tile_manager.toggle_floating f
          s.focus_manager).2.1 with tile_manager :=
            { ((s.float_or_tile_manager.toggle_floating f
                s.focus_manager).2.1).tile_manager with tiles := l2 } }
      m fm2 oinfo hfm2' hfl2 hmem2 horig2 hwino2
  have hswapeq : s.float_or_tile_manager.swap_with_master VerticalLayout f
      s.focus_manager =
      ({ (s.float_or_tile_manager.toggle_floating f
          s.focus_manager).2.1 with tile_manager :=
            { ((s.float_or_tile_manager.toggle_floating f
                s.focus_manager).2.1).tile_manager with
                  tiles := l2 } }).toggle_floating m fm2 := by
    simp only [FloatOrTileManager.swap_with_master, hflb, if_true]
    rw [htogeq]
    simp only [hmm2, hs2eq]
  have h1 : (s.swap_with_master f).1 =
      (({ (s.float_or_tile_manager.toggle_floating f
          s.focus_manager).2.1 with tile_manager :=
            { ((s.float_or_tile_manager.toggle_floating f
                s.focus_manager).2.1).tile_manager with
                  tiles := l2 } }).toggle_floating m fm2).1 := by
    show (s.float_or_tile_manager.swap_with_master VerticalLayout f
      s.focus_manager).1 = _
    rw [hswapeq]
  have h2 : (s.swap_with_master f).2.float_or_tile_manager =
      (({ (s.float_or_tile_manager.toggle_floating f
          s.focus_manager).2.1 with tile_manager :=
            { ((s.float_or_tile_manager.toggle_floating f
                s.focus_manager).2.1).tile_manager with
                  tiles := l2 } }).toggle_floating m fm2).2.1 := by
    show (s.float_or_tile_manager.swap_with_master VerticalLayout f
      s.focus_manager).2.1 = _
    rw [hswapeq]
  have hfinT : f ∈ l2.erase m := by
    have hfin2 : f ∈ l2 := hperm2.mem_iff.mpr hw1
    exact (List.mem_erase_of_ne (fun hc => hne hc.symm)).mpr hfin2
  have hl2shape : ∃ rest, l2 = f :: rest := by
    cases l2 with
    | nil => simp at hhead2
    | cons a t =>
      rw [List.head?_cons, Option.some_inj] at hhead2
      exact ⟨t, by rw [hhead2]⟩
  refine ⟨?_, ?_, ?_, ?_, ?_, ?_⟩
  · rw [h1, hrF]
  · show f ∈ (s.swap_with_master f).2.float_or_tile_manager.tile_manager.get_windows
    rw [TileManager.get_windows, h2, htlF]
    exact hfinT
  · show ((s.swap_with_master f).2.float_or_tile_manager.tile_manager.tiles).head? =
      some f
    rw [h2, htlF]
    obtain ⟨rest, hrest⟩ := hl2shape
    rw [hrest, List.erase_cons_tail]
    · rw [List.head?_cons]
    · simp only [beq_iff_eq]
      exact fun hc => hne hc.symm
  · show m ∈ ((s.swap_with_master f).2.float_or_tile_manager.float_manager.floaters).map
      (fun j => j.window)
    rw [h2, hflwF]
    simp [hwino2]
  · show f ∉ ((s.swap_with_master f).2.float_or_tile_manager.float_manager.floaters).map
      (fun j => j.window)
    rw [h2, hflwF]
    simp only [List.map_append, List.map_cons, List.map_nil, List.mem_append,
      List.mem_singleton, hwino2]
    push_neg
    constructor
    · show f ∉ ((s.float_or_tile_manager.toggle_floating f
        s.focus_manager).2.1).float_manager.get_windows
      rw [hflw]
      exact inv.nodup_floats.not_mem_erase
    · exact fun hc => hne hc.symm
  · show m ∉ (s.swap_with_master f).2.float_or_tile_manager.tile_manager.get_windows
    rw [TileManager.get_windows, h2, htlF]
    exact (hperm2.nodup_iff.mpr hInv1.nodup_tiles).not_mem_erase

/-- Witness for C6: fresh 800×600 `FloatWM`, tiled window `2` (the master), floating
window `1`, then `swap_with_master 1`. -/
theorem claim_C6_witness :
    ((((FloatWM.new { width := 800, height := 600 }).add_window
        (WindowWithInfo.new_tiled 2
          { x := 0, y := 0, width := 50, height := 50 })).2.add_window
        (WindowWithInfo.new_float 1
          { x := 10, y := 20, width := 100, height := 400 })).2.swap_with_master 1).1 =
      Except.ok () ∧
    1 ∈ ((((FloatWM.new { width := 800, height := 600 }).add_window
        (WindowWithInfo.new_tiled 2
          { x := 0, y := 0, width := 50, height := 50 })).2.add_window
        (WindowWithInfo.new_float 1
          { x := 10, y := 20, width := 100, height := 400 })).2.swap_with_master
            1).2.float_or_tile_manager.get_tiled_windows ∧
    ((((FloatWM.new { width := 800, height := 600 }).add_window
        (WindowWithInfo.new_tiled 2
          { x := 0, y := 0, width := 50, height := 50 })).2.add_window
        (WindowWithInfo.new_float 1
          { x := 10, y := 20, width := 100, height := 400 })).2.swap_with_master
            1).2.get_master_window = some 1 ∧
    2 ∈ ((((FloatWM.new { width := 800, height := 600 }).add_window
        (WindowWithInfo.new_tiled 2
          { x := 0, y := 0, width := 50, height := 50 })).2.add_window
        (WindowWithInfo.new_float 1
          { x := 10, y := 20, width := 100, height := 400 })).2.swap_with_master
            1).2.get_floating_windows ∧
    1 ∉ ((((FloatWM.new { width := 800, height := 600 }).add_window
        (WindowWithInfo.new_tiled 2
          { x := 0, y := 0, width := 50, height := 50 })).2.add_window
        (WindowWithInfo.new_float 1
          { x := 10, y := 20, width := 100, height := 400 })).2.swap_with_master
            1).2.get_floating_windows ∧
    2 ∉ ((((FloatWM.new { width := 800, height := 600 }).add_window
        (WindowWithInfo.new_tiled 2
          { x := 0, y := 0, width := 50, height := 50 })).2.add_window
        (WindowWithInfo.new_float 1
          { x := 10, y := 20, width := 100, height := 400 })).2.swap_with_master
            1).2.float_or_tile_manager.get_tiled_windows :=
  claim_C6_swap_with_master_float _ 1 2
    (FloatReach.add _ _ (FloatReach.add _ _ (FloatReach.init _)))
    (by decide) (by decide) (by decide)

theorem fot_layout_keys (ft : FloatOrTileManager) :
    ((ft.get_window_layout VerticalLayout).map Prod.fst) =
      ft.tile_manager.tiles ++ ft.float_manager.get_windows := by
  simp only [FloatOrTileManager.get_window_layout, TileManager.get_window_layout,
    FloatManager.get_window_layout, TileManager.get_windows, FloatManager.get_windows,
    List.map_append, List.map_map]
  congr 1
  exact List.map_id _

/-- C4 counterexample: in the reachable `MinimiseWM` state with tiled windows `1,2`
on an 800×600 screen, minimising and restoring window `1` preserves its mode (Tile)
but moves it from the master column `(0,0) 400×600` to the side column
`(400,0) 400×600` — the geometry of a tiled window is not restored exactly, because
the restored window is re-appended at the tail of the tile order. -/
theorem claim_C4_counterexample :
    scenarioE.get_window_info 1 =
      Except.ok { window := 1,
                  geometry := { x := 0, y := 0, width := 400, height := 600 },
                  float_or_tile := FloatOrTile.Tile, fullscreen := false } ∧
    ((scenarioE.toggle_minimised 1).2.toggle_minimised 1).2.get_window_info 1 =
      Except.ok { window := 1,
                  geometry := { x := 400, y := 0, width := 400, height := 600 },
                  float_or_tile := FloatOrTile.Tile, fullscreen := false } := by
  constructor
  · rfl
  · rfl

/-- C4 (amended): for a managed, non-minimised window `w` of a reachable
`MinimiseWM` state, one `toggle_minimised` leaves `w` in `get_windows` but removes it
from `get_window_layout` (it is now minimised), and a second `toggle_minimised`
restores its mode: a tiled window is tiled again, and a floating window gets back
bit-for-bit its stored info (geometry included). The original claim's "geometry
restored exactly" is false for tiled windows (see the counterexample): the restored
window is re-appended at the tile tail, so its tile slot can change. -/
theorem claim_C4_amended
    (s : MinimiseWM) (w : Window) (hreach : MinimiseReach s)
    (hM : w ∉ s.get_minimised_windows)
    (hmanaged : w ∈ s.get_windows) :
    (w ∈ (s.toggle_minimised w).2.get_windows ∧
     w ∉ ((s.toggle_minimised w).2.get_window_layout).windows.map Prod.fst ∧
     w ∈ (s.toggle_minimised w).2.get_minimised_windows) ∧
    (w ∈ s.minimise_manager.get_tiled_windows →
      w ∈ ((((s.toggle_minimised w).2).toggle_minimised
        w).2).minimise_manager.get_tiled_windows) ∧
    (∀ info, s.get_window_info w = Except.ok info →
      info.float_or_tile = FloatOrTile.Float →
      ((((s.toggle_minimised w).2).toggle_minimised w).2.get_window_info w =
        Except.ok info ∧
       w ∈ ((((s.toggle_minimised w).2).toggle_minimised
         w).2).minimise_manager.get_floating_windows)) := by
  have inv := MinimiseInv_of_reach hreach
  have hfm : w ∈ s.focus_manager.get_windows := hmanaged
  have hMn : w ∉ s.minimise_manager.minimise_assistant_manager.get_windows := hM
  by_cases hT : w ∈ s.minimise_manager.layout_manager.tile_manager.tiles
  · -- w is tiled
    obtain ⟨g, hg, hinfo⟩ := FloatOrTileManager.get_window_info_tiled hT
    have hrok : (s.minimise_manager.layout_manager.remove_window w).1 =
        Except.ok () := by
      rw [FloatOrTileManager.remove_tile_ok hT]
    obtain ⟨hr1, hstate1, hfw1, hfw2, hmagw1⟩ :=
      @MinimiseManager.toggle_min_minimise s.minimise_manager w s.focus_manager _
        hMn hinfo rfl hrok
    have hrw := @FloatOrTileManager.remove_tile_ok
      s.minimise_manager.layout_manager w hT
    have ht1tiles : ((s.minimise_manager.layout_manager.remove_window
        w).2).tile_manager.tiles =
        s.minimise_manager.layout_manager.tile_manager.tiles.erase w := by
      rw [hrw]
    have ht1fl : ((s.minimise_manager.layout_manager.remove_window
        w).2).float_manager = s.minimise_manager.layout_manager.float_manager := by
      rw [hrw]
    have hlt1 : ((s.minimise_manager.toggle_minimised VerticalLayout w
        s.focus_manager).2.1).layout_manager =
        (s.minimise_manager.layout_manager.remove_window w).2 := by
      rw [hstate1]
    have hma1 : ((s.minimise_manager.toggle_minimised VerticalLayout w
        s.focus_manager).2.1).minimise_assistant_manager =
        (s.minimise_manager.minimise_assistant_manager.add_window
          { window := w, geometry := g, float_or_tile := FloatOrTile.Tile,
            fullscreen := false }).2 := by
      rw [hstate1]
    have hfm1 : w ∈ ((s.minimise_manager.toggle_minimised VerticalLayout w
        s.focus_manager).2.2).get_windows := by
      by_cases hfcw : s.focus_manager.get_focused_window = some w
      · rw [hfw1 hfcw, FocusManager.get_windows_mk]
        simp only [Option.toList_none, List.append_nil]
        exact hfm
      · rw [hfw2 hfcw]
        exact hfm
    have hM1 : w ∈ ((s.minimise_manager.toggle_minimised VerticalLayout w
        s.focus_manager).2.1).minimise_assistant_manager.get_windows := by
      rw [hmagw1]
      simp
    have hT1 : w ∉ ((s.minimise_manager.toggle_minimised VerticalLayout w
        s.focus_manager).2.1).layout_manager.tile_manager.tiles := by
      rw [hlt1, ht1tiles]
      exact inv.nodup_tiles.not_mem_erase
    have hF1 : w ∉ ((s.minimise_manager.toggle_minimised VerticalLayout w
        s.focus_manager).2.1).layout_manager.float_manager.get_windows := by
      rw [hlt1, ht1fl]
      exact inv.disj_tf w hT
    refine ⟨⟨hfm1, ?_, ?_⟩, ?_, ?_⟩
    · show w ∉ (((s.minimise_manager.toggle_minimised VerticalLayout w
        s.focus_manager).2.1).layout_manager.get_window_layout
          VerticalLayout).map Prod.fst
      rw [hlt1, fot_layout_keys, ht1tiles, ht1fl]
      intro hc
      rcases List.mem_append.mp hc with h1 | h1
      · exact inv.nodup_tiles.not_mem_erase h1
      · exact inv.disj_tf w hT h1
    · show w ∈ ((s.minimise_manager.toggle_minimised VerticalLayout w
        s.focus_manager).2.1).minimise_assistant_manager.get_windows
      exact hM1
    · intro _
      obtain ⟨info2, hfind2, hwin2, hr2, hstate2, hfm22, hmagw2, haddok2⟩ :=
        MinimiseManager.toggle_min_restore hM1 hT1 hF1 hfm1
      have hminis1 : ((s.minimise_manager.toggle_minimised VerticalLayout w
          s.focus_manager).2.1).minimise_assistant_manager.minis =
          s.minimise_manager.minimise_assistant_manager.minis ++
            [{ window := w, geometry := g, float_or_tile := FloatOrTile.Tile,
               fullscreen := false }] := by
        rw [hma1, MinimiseAssistantManager.ma_add_ok hMn]
      have hfind2x : infoFind ((s.minimise_manager.toggle_minimised VerticalLayout w
          s.focus_manager).2.1).minimise_assistant_manager.minis w =
          some { window := w, geometry := g, float_or_tile := FloatOrTile.Tile,
                 fullscreen := false } := by
        rw [hminis1,
          infoFind_append_of_none ((infoFind_eq_none_iff _ _).mpr hMn)]
        simp [infoFind]
      have hinfo2 : info2 =
          { window := w, geometry := g, float_or_tile := FloatOrTile.Tile,
            fullscreen := false } :=
        Option.some_inj.mp (hfind2.symm.trans hfind2x)
      subst hinfo2
      have haddt2 := @FloatOrTileManager.add_tile_ok
        (((s.minimise_manager.toggle_minimised VerticalLayout w
          s.focus_manager).2.1).layout_manager)
        { window := w, geometry := g, float_or_tile := FloatOrTile.Tile,
          fullscreen := false } rfl hT1
      have hlt2 : (((s.minimise_manager.toggle_minimised VerticalLayout w
          s.focus_manager).2.1).toggle_minimised VerticalLayout w
            ((s.minimise_manager.toggle_minimised VerticalLayout w
              s.focus_manager).2.2)).2.1.layout_manager =
          (((s.minimise_manager.toggle_minimised VerticalLayout w
            s.focus_manager).2.1).layout_manager.add_window
              { window := w, geometry := g, float_or_tile := FloatOrTile.Tile,
                fullscreen := false }).2 := by
        rw [hstate2]
      show w ∈ (((s.minimise_manager.toggle_minimised VerticalLayout w
        s.focus_manager).2.1).toggle_minimised VerticalLayout w
          ((s.minimise_manager.toggle_minimised VerticalLayout w
            s.focus_manager).2.2)).2.1.layout_manager.tile_manager.tiles
      rw [hlt2, haddt2]
      simp
    · intro info hok hmode
      exfalso
      have hnotFloat : s.get_window_info w =
          Except.ok { window := w, geometry := g, float_or_tile := FloatOrTile.Tile,
                      fullscreen := false } := by
        show s.minimise_manager.get_window_info VerticalLayout w = _
        rw [MinimiseManager.get_window_info, hinfo]
      rw [hok] at hnotFloat
      have heqi : info =
          { window := w, geometry := g, float_or_tile := FloatOrTile.Tile,
            fullscreen := false } := Except.ok.inj hnotFloat
      rw [heqi] at hmode
      cases hmode
  · -- w is not tiled: since it is managed and not minimised, it floats
    have hF : w ∈ s.minimise_manager.layout_manager.float_manager.get_windows := by
      rcases (inv.mem_iff w).mp hfm with h1 | h2 | h3
      · exact absurd h1 hT
      · exact h2
      · exact absurd h3 hMn
    obtain ⟨info0, hfind0, hinfo, hwin0⟩ := FloatOrTileManager.get_window_info_float hT hF
    obtain ⟨hrf1, hrf2, hrf3, hrf4⟩ := FloatOrTileManager.remove_float_ok hT hF
    obtain ⟨hr1, hstate1, hfw1, hfw2, hmagw1⟩ :=
      @MinimiseManager.toggle_min_minimise s.minimise_manager w s.focus_manager _
        hMn hinfo hwin0 hrf1
    have hlt1 : ((s.minimise_manager.toggle_minimised VerticalLayout w
        s.focus_manager).2.1).layout_manager =
        (s.minimise_manager.layout_manager.remove_window w).2 := by
      rw [hstate1]
    have hma1 : ((s.minimise_manager.toggle_minimised VerticalLayout w
        s.focus_manager).2.1).minimise_assistant_manager =
        (s.minimise_manager.minimise_assistant_manager.add_window info0).2 := by
      rw [hstate1]
    have hfm1 : w ∈ ((s.minimise_manager.toggle_minimised VerticalLayout w
        s.focus_manager).2.2).get_windows := by
      by_cases hfcw : s.focus_manager.get_focused_window = some w
      · rw [hfw1 hfcw, FocusManager.get_windows_mk]
        simp only [Option.toList_none, List.append_nil]
        exact hfm
      · rw [hfw2 hfcw]
        exact hfm
    have hM1 : w ∈ ((s.minimise_manager.toggle_minimised VerticalLayout w
        s.focus_manager).2.1).minimise_assistant_manager.get_windows := by
      rw [hmagw1]
      simp
    have hT1 : w ∉ ((s.minimise_manager.toggle_minimised VerticalLayout w
        s.focus_manager).2.1).layout_manager.tile_manager.tiles := by
      rw [hlt1, hrf2]
      exact hT
    have hF1 : w ∉ ((s.minimise_manager.toggle_minimised VerticalLayout w
        s.focus_manager).2.1).layout_manager.float_manager.get_windows := by
      rw [hlt1, hrf3]
      exact inv.nodup_floats.not_mem_erase
    refine ⟨⟨hfm1, ?_, ?_⟩, ?_, ?_⟩
    · show w ∉ (((s.minimise_manager.toggle_minimised VerticalLayout w
        s.focus_manager).2.1).layout_manager.get_window_layout
          VerticalLayout).map Prod.fst
      rw [hlt1, fot_layout_keys, hrf2, hrf3]
      intro hc
      rcases List.mem_append.mp hc with h1 | h1
      · exact hT h1
      · exact inv.nodup_floats.not_mem_erase h1
    · show w ∈ ((s.minimise_manager.toggle_minimised VerticalLayout w
        s.focus_manager).2.1).minimise_assistant_manager.get_windows
      exact hM1
    · intro hc
      exact absurd hc hT
    · intro info hok hmode
      -- the observed info is exactly the stored float info
      have hok0 : s.get_window_info w = Except.ok info0 := by
        show s.minimise_manager.get_window_info VerticalLayout w = _
        rw [MinimiseManager.get_window_info, hinfo]
      have hinfoeq : info0 = info := by
        rw [hok] at hok0
        exact (Except.ok.inj hok0).symm
      subst hinfoeq
      obtain ⟨info2, hfind2, hwin2, hr2, hstate2, hfm22, hmagw2, haddok2⟩ :=
        MinimiseManager.toggle_min_restore hM1 hT1 hF1 hfm1
      have hminis1 : ((s.minimise_manager.toggle_minimised VerticalLayout w
          s.focus_manager).2.1).minimise_assistant_manager.minis =
          s.minimise_manager.minimise_assistant_manager.minis ++ [info0] := by
        rw [hma1, MinimiseAssistantManager.ma_add_ok (by rw [hwin0]; exact hMn)]
      have hfind2x : infoFind ((s.minimise_manager.toggle_minimised VerticalLayout w
          s.focus_manager).2.1).minimise_assistant_manager.minis w = some info0 := by
        rw [hminis1,
          infoFind_append_of_none ((infoFind_eq_none_iff _ _).mpr hMn)]
        simp [infoFind, hwin0]
      have hinfo2 : info2 = info0 := Option.some_inj.mp (hfind2.symm.trans hfind2x)
      rw [hinfo2] at hstate2
      have haddf2 := @FloatOrTileManager.add_float_ok
        (((s.minimise_manager.toggle_minimised VerticalLayout w
          s.focus_manager).2.1).layout_manager) info0 hmode
        (by rw [hwin0]; exact hF1)
      have hlt2 : (((s.minimise_manager.toggle_minimised VerticalLayout w
          s.focus_manager).2.1).toggle_minimised VerticalLayout w
            ((s.minimise_manager.toggle_minimised VerticalLayout w
              s.focus_manager).2.2)).2.1.layout_manager =
          (((s.minimise_manager.toggle_minimised VerticalLayout w
            s.focus_manager).2.1).layout_manager.add_window info0).2 := by
        rw [hstate2]
      have ht2tiles : (((s.minimise_manager.toggle_minimised VerticalLayout w
          s.focus_manager).2.1).layout_manager.add_window
            info0).2.tile_manager.tiles =
          ((s.minimise_manager.toggle_minimised VerticalLayout w
            s.focus_manager).2.1).layout_manager.tile_manager.tiles := by
        rw [haddf2]
      have ht2fl : (((s.minimise_manager.toggle_minimised VerticalLayout w
          s.focus_manager).2.1).layout_manager.add_window
            info0).2.float_manager.floaters =
          ((s.minimise_manager.toggle_minimised VerticalLayout w
            s.focus_manager).2.1).layout_manager.float_manager.floaters ++
              [info0] := by
        rw [haddf2]
      have ht2T : w ∉ (((s.minimise_manager.toggle_minimised VerticalLayout w
          s.focus_manager).2.1).layout_manager.add_window
            info0).2.tile_manager.tiles := by
        rw [ht2tiles]
        exact hT1
      have ht2F : w ∈ (((s.minimise_manager.toggle_minimised VerticalLayout w
          s.focus_manager).2.1).layout_manager.add_window
            info0).2.float_manager.get_windows := by
        show w ∈ ((((s.minimise_manager.toggle_minimised VerticalLayout w
          s.focus_manager).2.1).layout_manager.add_window
            info0).2.float_manager.floaters).map (fun j => j.window)
        rw [ht2fl]
        simp [hwin0]
      obtain ⟨info3, hfind3, hok3, hwin3⟩ :=
        FloatOrTileManager.get_window_info_float ht2T ht2F
      have hinfo3 : info3 = info0 := by
        rw [ht2fl, infoFind_append_of_none
          ((infoFind_eq_none_iff _ _).mpr hF1)] at hfind3
        have : infoFind [info0] w = some info0 := by
          simp [infoFind, hwin0]
        exact Option.some_inj.mp (hfind3.symm.trans this)
      rw [hinfo3] at hok3
      constructor
      · show (((s.minimise_manager.toggle_minimised VerticalLayout w
          s.focus_manager).2.1).toggle_minimised VerticalLayout w
            ((s.minimise_manager.toggle_minimised VerticalLayout w
              s.focus_manager).2.2)).2.1.get_window_info VerticalLayout w =
          Except.ok info0
        rw [MinimiseManager.get_window_info, hlt2, hok3]
      · show w ∈ ((((s.minimise_manager.toggle_minimised VerticalLayout w
          s.focus_manager).2.1).toggle_minimised VerticalLayout w
            ((s.minimise_manager.toggle_minimised VerticalLayout w
              s.focus_manager).2.2)).2.1.layout_manager.float_manager.floaters).map
                (fun j => j.window)
        rw [hlt2, ht2fl]
        simp [hwin0]

/-- Witness for the amended C4 at the reachable two-tile state `scenarioE` with
`w = 1`. -/
theorem claim_C4_witness :
    (1 ∈ (scenarioE.toggle_minimised 1).2.get_windows ∧
     1 ∉ ((scenarioE.toggle_minimised 1).2.get_window_layout).windows.map Prod.fst ∧
     1 ∈ (scenarioE.toggle_minimised 1).2.get_minimised_windows) ∧
    (1 ∈ scenarioE.minimise_manager.get_tiled_windows →
      1 ∈ ((((scenarioE.toggle_minimised 1).2).toggle_minimised
        1).2).minimise_manager.get_tiled_windows) ∧
    (∀ info, scenarioE.get_window_info 1 = Except.ok info →
      info.float_or_tile = FloatOrTile.Float →
      ((((scenarioE.toggle_minimised 1).2).toggle_minimised 1).2.get_window_info 1 =
        Except.ok info ∧
       1 ∈ ((((scenarioE.toggle_minimised 1).2).toggle_minimised
         1).2).minimise_manager.get_floating_windows)) :=
  claim_C4_amended scenarioE 1
    (MinimiseReach.add _ _ (MinimiseReach.add _ _ (MinimiseReach.init _)))
    (by decide) (by decide)

/-- C8 counterexample: in `scenarioF` window `1` is managed (it is minimised and
listed by `get_windows`) and is not in floating mode, yet `set_window_geometry`
reports `UnknownWindow 1` instead of the claimed `NotFloatingWindow 1`. -/
theorem claim_C8_counterexample :
    scenarioF.minimise_manager.is_managed 1 = true ∧
    1 ∈ scenarioF.get_windows ∧
    scenarioF.get_floating_windows = [] ∧
    (scenarioF.set_window_geometry 1
      { x := 5, y := 5, width := 50, height := 50 }).1 =
      Except.error (FloatWMError.UnknownWindow 1) := by
  refine ⟨by decide, by decide, by decide, by rfl⟩

/-- C8 (amended): `set_window_geometry` succeeds exactly on tracked floats and
updates the stored geometry in place. On `FloatWM` the claimed error trichotomy
holds: tiled windows give `NotFloatingWindow`, unmanaged ones `UnknownWindow`. On
`MinimiseWM` a tiled window still gives `NotFloatingWindow` and an unmanaged one
`UnknownWindow`, but a minimised window — although managed — also gives
`UnknownWindow`, not the claimed `NotFloatingWindow` (see the counterexample). -/
theorem claim_C8_amended
    (sf : FloatWM) (wf : Window) (gf : Geometry) (hrf : FloatReach sf)
    (sm : MinimiseWM) (wm : Window) (gm : Geometry) (hrm : MinimiseReach sm) :
    ((∀ info, infoFind sf.float_or_tile_manager.float_manager.floaters wf =
        some info →
      (sf.set_window_geometry wf gf).1 = Except.ok () ∧
      ((sf.set_window_geometry wf gf).2).get_window_info wf =
        Except.ok { info with geometry := gf }) ∧
     (wf ∈ sf.float_or_tile_manager.tile_manager.tiles →
      sf.set_window_geometry wf gf =
        (Except.error (FloatWMError.NotFloatingWindow wf), sf)) ∧
     (wf ∉ sf.get_windows →
      sf.set_window_geometry wf gf =
        (Except.error (FloatWMError.UnknownWindow wf), sf))) ∧
    ((∀ info, infoFind sm.minimise_manager.layout_manager.float_manager.floaters wm =
        some info →
      (sm.set_window_geometry wm gm).1 = Except.ok () ∧
      ((sm.set_window_geometry wm gm).2).get_window_info wm =
        Except.ok { info with geometry := gm }) ∧
     (wm ∈ sm.minimise_manager.get_tiled_windows →
      (sm.set_window_geometry wm gm).1 =
        Except.error (FloatWMError.NotFloatingWindow wm)) ∧
     (wm ∈ sm.get_minimised_windows →
      sm.minimise_manager.is_managed wm = true ∧
      (sm.set_window_geometry wm gm).1 =
        Except.error (FloatWMError.UnknownWindow wm)) ∧
     (wm ∉ sm.get_windows →
      (sm.set_window_geometry wm gm).1 =
        Except.error (FloatWMError.UnknownWindow wm))) := by
  have invF : FTInv sf.float_or_tile_manager sf.focus_manager := FloatInv_of_reach hrf
  have invM := MinimiseInv_of_reach hrm
  refine ⟨⟨?_, ?_, ?_⟩, ?_, ?_, ?_, ?_⟩
  · -- FloatWM, floating window
    intro info hfind
    obtain ⟨hmemi, hwin⟩ := infoFind_some hfind
    have hfl : wf ∈ sf.float_or_tile_manager.float_manager.get_windows :=
      List.mem_map.mpr ⟨info, hmemi, hwin⟩
    have ht : wf ∉ sf.float_or_tile_manager.tile_manager.tiles :=
      fun hc => invF.disj wf hc hfl
    obtain ⟨info1, h1, h2, h3, h4, h5⟩ :=
      FloatOrTileManager.set_geometry_float_ok (g := gf) hfl
    have hinfo1 : info1 = info := Option.some_inj.mp (h1.symm.trans hfind)
    subst hinfo1
    have ht2 : wf ∉ ((sf.float_or_tile_manager.set_window_geometry wf
        gf).2).tile_manager.tiles := by
      rw [h3]
      exact ht
    have hf2 : wf ∈ ((sf.float_or_tile_manager.set_window_geometry wf
        gf).2).float_manager.get_windows := by
      rw [h4]
      exact hfl
    obtain ⟨info3, hfind3, hok3, hwin3⟩ :=
      FloatOrTileManager.get_window_info_float ht2 hf2
    have hinfo3 : info3 = { info1 with geometry := gf } :=
      Option.some_inj.mp (hfind3.symm.trans h5)
    subst hinfo3
    exact ⟨h2, hok3⟩
  · -- FloatWM, tiled window
    intro ht
    have hfl : wf ∉ sf.float_or_tile_manager.float_manager.get_windows :=
      invF.disj wf ht
    simp only [FloatWM.set_window_geometry,
      FloatOrTileManager.set_geometry_tiled_err hfl ht]
  · -- FloatWM, unmanaged window
    intro hun
    have ht : wf ∉ sf.float_or_tile_manager.tile_manager.tiles :=
      fun hc => hun ((invF.mem_iff wf).mpr (Or.inl hc))
    have hfl : wf ∉ sf.float_or_tile_manager.float_manager.get_windows :=
      fun hc => hun ((invF.mem_iff wf).mpr (Or.inr hc))
    simp only [FloatWM.set_window_geometry,
      FloatOrTileManager.set_geometry_unknown_err hfl ht]
  · -- MinimiseWM, floating window
    intro info hfind
    obtain ⟨hmemi, hwin⟩ := infoFind_some hfind
    have hfl : wm ∈ sm.minimise_manager.layout_manager.float_manager.get_windows :=
      List.mem_map.mpr ⟨info, hmemi, hwin⟩
    have ht : wm ∉ sm.minimise_manager.layout_manager.tile_manager.tiles :=
      fun hc => invM.disj_tf wm hc hfl
    obtain ⟨info1, h1, h2, h3, h4, h5⟩ :=
      FloatOrTileManager.set_geometry_float_ok (g := gm) hfl
    have hinfo1 : info1 = info := Option.some_inj.mp (h1.symm.trans hfind)
    subst hinfo1
    have ht2 : wm ∉ ((sm.minimise_manager.layout_manager.set_window_geometry wm
        gm).2).tile_manager.tiles := by
      rw [h3]
      exact ht
    have hf2 : wm ∈ ((sm.minimise_manager.layout_manager.set_window_geometry wm
        gm).2).float_manager.get_windows := by
      rw [h4]
      exact hfl
    obtain ⟨info3, hfind3, hok3, hwin3⟩ :=
      FloatOrTileManager.get_window_info_float ht2 hf2
    have hinfo3 : info3 = { info1 with geometry := gm } :=
      Option.some_inj.mp (hfind3.symm.trans h5)
    subst hinfo3
    refine ⟨h2, ?_⟩
    show ((sm.minimise_manager.set_window_geometry wm
      gm).2).get_window_info VerticalLayout wm = _
    rw [MinimiseManager.get_window_info]
    have hl : ((sm.minimise_manager.set_window_geometry wm gm).2).layout_manager =
        (sm.minimise_manager.layout_manager.set_window_geometry wm gm).2 := rfl
    rw [hl, hok3]
  · -- MinimiseWM, tiled window
    intro ht
    have hfl : wm ∉ sm.minimise_manager.layout_manager.float_manager.get_windows :=
      invM.disj_tf wm ht
    show (sm.minimise_manager.layout_manager.set_window_geometry wm gm).1 = _
    rw [FloatOrTileManager.set_geometry_tiled_err hfl ht]
  · -- MinimiseWM, minimised window: managed, yet UnknownWindow
    intro hMw
    have ht : wm ∉ sm.minimise_manager.layout_manager.tile_manager.tiles :=
      fun hc => invM.disj_tm wm hc hMw
    have hfl : wm ∉ sm.minimise_manager.layout_manager.float_manager.get_windows :=
      fun hc => invM.disj_fm wm hc hMw
    refine ⟨?_, ?_⟩
    · rw [MinimiseManager.is_managed_iff]
      show wm ∈ _ ++ _
      simp only [MinimiseManager.get_windows, FloatOrTileManager.get_windows,
        TileManager.get_windows, List.mem_append]
      right
      exact hMw
    · show (sm.minimise_manager.layout_manager.set_window_geometry wm gm).1 = _
      rw [FloatOrTileManager.set_geometry_unknown_err hfl ht]
  · -- MinimiseWM, unmanaged window
    intro hun
    have ht : wm ∉ sm.minimise_manager.layout_manager.tile_manager.tiles :=
      fun hc => hun ((invM.mem_iff wm).mpr (Or.inl hc))
    have hfl : wm ∉ sm.minimise_manager.layout_manager.float_manager.get_windows :=
      fun hc => hun ((invM.mem_iff wm).mpr (Or.inr (Or.inl hc)))
    show (sm.minimise_manager.layout_manager.set_window_geometry wm gm).1 = _
    rw [FloatOrTileManager.set_geometry_unknown_err hfl ht]

/-- Witness for the amended C8: `FloatWM` scenario D state (window `1` floating) and
`MinimiseWM` scenario F state (window `1` minimised), both reachable. -/
theorem claim_C8_witness :
    ((∀ info, infoFind scenarioD.float_or_tile_manager.float_manager.floaters 1 =
        some info →
      (scenarioD.set_window_geometry 1
        { x := 1, y := 2, width := 30, height := 40 }).1 = Except.ok () ∧
      ((scenarioD.set_window_geometry 1
        { x := 1, y := 2, width := 30, height := 40 }).2).get_window_info 1 =
        Except.ok { info with geometry := { x := 1, y := 2, width := 30,
                                            height := 40 } }) ∧
     (1 ∈ scenarioD.float_or_tile_manager.tile_manager.tiles →
      scenarioD.set_window_geometry 1 { x := 1, y := 2, width := 30, height := 40 } =
        (Except.error (FloatWMError.NotFloatingWindow 1), scenarioD)) ∧
     (1 ∉ scenarioD.get_windows →
      scenarioD.set_window_geometry 1 { x := 1, y := 2, width := 30, height := 40 } =
        (Except.error (FloatWMError.UnknownWindow 1), scenarioD))) ∧
    ((∀ info, infoFind
        scenarioF.minimise_manager.layout_manager.float_manager.floaters 1 =
          some info →
      (scenarioF.set_window_geometry 1
        { x := 1, y := 2, width := 30, height := 40 }).1 = Except.ok () ∧
      ((scenarioF.set_window_geometry 1
        { x := 1, y := 2, width := 30, height := 40 }).2).get_window_info 1 =
        Except.ok { info with geometry := { x := 1, y := 2, width := 30,
                                            height := 40 } }) ∧
     (1 ∈ scenarioF.minimise_manager.get_tiled_windows →
      (scenarioF.set_window_geometry 1
        { x := 1, y := 2, width := 30, height := 40 }).1 =
        Except.error (FloatWMError.NotFloatingWindow 1)) ∧
     (1 ∈ scenarioF.get_minimised_windows →
      scenarioF.minimise_manager.is_managed 1 = true ∧
      (scenarioF.set_window_geometry 1
        { x := 1, y := 2, width := 30, height := 40 }).1 =
        Except.error (FloatWMError.UnknownWindow 1)) ∧
     (1 ∉ scenarioF.get_windows →
      (scenarioF.set_window_geometry 1
        { x := 1, y := 2, width := 30, height := 40 }).1 =
        Except.error (FloatWMError.UnknownWindow 1))) :=
  claim_C8_amended scenarioD 1 { x := 1, y := 2, width := 30, height := 40 }
    (FloatReach.add _ _ (FloatReach.init _))
    scenarioF 1 { x := 1, y := 2, width := 30, height := 40 }
    (MinimiseReach.toggle_min _ _ (MinimiseReach.add _ _ (MinimiseReach.init _)))

end WM






